import Mathlib

/-!
# The wasm execution engine of `third_party/wasm/exec`: a shallow embedding

The Go sources `vm.go`, `vm_context.go`, `sys_call.go` and `chain_call.go` are embedded as pure
functions.  Conventions:

* Go `int` and `int64` are 64-bit; they are modelled by `Int` without wrap-around, since every
  value of these types that occurs is a slice length or an offset compared with one.  The
  32-bit arguments and results of the host functions are `Int`s taken through `toInt32`
  exactly where the source computes in `int32`; `uint64` arithmetic is taken modulo `2 ^ 64`.
* a byte slice is a `List Byte`; a slice of the linear memory is described by its bounds.  The
  capacity of `ByteMem` equals its length (it comes from `make([]byte, n)`), and a buffer passed
  to `ReadAt` or `WriteAt` shares no storage with the linear memory.
* a Go run-time panic (slice bounds out of range, failed type assertion) is the result `none`.
* the collaborators outside the package (module decoder, hashes, address derivation, JSON
  decoder, state store) are the fields of `Env` or explicit map models.
-/

namespace Exec

/-! ## Basic values -/

/-- One byte of a Go `[]byte`. -/
abbrev Byte := Nat

/-- Account address (`types.Address`, 20 bytes), identified with its numeric value. -/
abbrev Address := Nat

/-- Storage or code hash (`types.Hash`, 32 bytes), as its byte string. -/
abbrev Hash := List Byte

/-- The zero hash `types.Hash{}`. -/
def zeroHash : Hash := List.replicate 32 0

/-- Go conversion `int32(x)`: keeps the low 32 bits, read as a signed value. -/
def toInt32 (x : Int) : Int := (x + 2147483648) % 4294967296 - 2147483648

/-- Go conversion `uint64(x)`. -/
def toUint64 (x : Int) : Nat := (x % 18446744073709551616).toNat

/-- Value type of a signature (`wasm.ValueType`, an `int8`): the four numeric types, and `other`
for every other value of the underlying `int8`. -/
inductive ValueType where
  | I32
  | I64
  | F32
  | F64
  | other (v : Int)
deriving DecidableEq, Repr

/-- Errors returned by the package (the `errors.New` values and the two error types of `vm.go`,
the two `io` errors used by the memory bridge, `other` for an error made by a collaborator, by
`errors.New` on the spot or by `recover`, and `wrapped` for `fmt.Errorf` around a cause). -/
inductive Err where
  | ErrInsufficientBalance
  | ErrContractAddressCollision
  | ErrCodeSizeExceedLimit
  | ErrShortBuffer
  | ErrShortWrite
  | other (msg : String)
  | wrapped (msg : String) (cause : Err)
  | ErrInvalidArgumentCount
  | InvalidReturnTypeError (t : ValueType)
  | InvalidFunctionIndexError (fnIndex : Int)
  | ErrMultipleLinearMemories
deriving DecidableEq, Repr

/-! ## Go slices -/

/-- Go slice expression `s[lo:hi]`; `none` is the panic "slice bounds out of range". -/
def slice (s : List Byte) (lo hi : Int) : Option (List Byte) :=
  if 0 ≤ lo ∧ lo ≤ hi ∧ hi ≤ (s.length : Int) then
    some ((s.drop lo.toNat).take (hi - lo).toNat)
  else none

/-- Go builtin `copy(dst, src)` on a whole slice `dst`: the new contents of `dst`.  The number of
bytes copied is `min (len dst) (len src)`. -/
def copy (dst src : List Byte) : List Byte :=
  src.take (min dst.length src.length) ++ dst.drop (min dst.length src.length)

/-- Go statement `copy(s[lo:hi], src)`: the new contents of `s`; `none` when the slice
expression panics.  The source bytes are those held before the copy, as for Go's `copy` on
overlapping slices. -/
def copyInto (s : List Byte) (lo hi : Int) (src : List Byte) : Option (List Byte) :=
  match slice s lo hi with
  | none => none
  | some d => some (s.take lo.toNat ++ copy d src ++ s.drop hi.toNat)

/-- Three-way result of `bytes.Compare a b`: `-1`, `0` or `1` in lexicographic order. -/
def bytesCompare : List Nat → List Nat → Int
  | [], [] => 0
  | [], _ :: _ => -1
  | _ :: _, [] => 1
  | a :: as, b :: bs => if a < b then -1 else if b < a then 1 else bytesCompare as bs

/-! ## Linear memory (`memory.VMmemory`) -/

/-- Kind of a pointed region (`memory.PType`): `PString` is the kind used by `initVMMemory`, `PRaw`
the kind the allocator records. -/
inductive PType where
  | PString
  | PRaw
deriving DecidableEq, Repr

/-- Entry of the pointer table (`memory.TypeLength`). -/
structure TypeLength where
  Ptype : PType
  Length : Int
deriving DecidableEq, Repr

/-- The linear memory with its allocation marks (`memory.VMmemory`).  `MemPoints` is the map
`map[uint64]*TypeLength`, kept as an association list whose first match wins. -/
structure VMmemory where
  ByteMem : List Byte
  AllocedMemIdex : Int := -1
  PointedMemIndex : Int := 0
  MemPoints : List (Nat × TypeLength) := []
deriving DecidableEq, Repr

/-- Modelled from the spec: `(*VMmemory).Malloc` of package `memory`, whose source is not part of
the package `exec`.  "Returns the current `pointedMemIndex`, then advances it by `size`; records
`MemPoints[offset] = {raw, size}`; fails when the new index would exceed `len(byteMem)`."  The
result pairs the memory after the call with the offset, `none` standing for the error. -/
def VMmemory.Malloc (m : VMmemory) (size : Int) : VMmemory × Option Int :=
  if m.PointedMemIndex + size > (m.ByteMem.length : Int) then (m, none)
  else
    ({ m with
        PointedMemIndex := m.PointedMemIndex + size
        MemPoints := (toUint64 m.PointedMemIndex, { Ptype := PType.PRaw, Length := size })
          :: m.MemPoints },
      some m.PointedMemIndex)

/-! ## The state store (`repository.Repository`) as maps -/

/-- The account store: nonce, balance, code, code hash and storage of every address. -/
structure Repository where
  nonce : Address → Nat
  balance : Address → Int
  code : Address → List Byte
  codeHash : Address → Hash
  storage : Address → Hash → List Byte

namespace Repository

def GetNonce (db : Repository) (a : Address) : Nat := db.nonce a

def SetNonce (db : Repository) (a : Address) (n : Nat) : Repository :=
  { db with nonce := fun x => if x = a then n else db.nonce x }

def GetBalance (db : Repository) (a : Address) : Int := db.balance a

def SubBalance (db : Repository) (a : Address) (amount : Int) : Repository :=
  { db with balance := fun x => if x = a then db.balance x - amount else db.balance x }

def AddBalance (db : Repository) (a : Address) (amount : Int) : Repository :=
  { db with balance := fun x => if x = a then db.balance x + amount else db.balance x }

def GetCodeHash (db : Repository) (a : Address) : Hash := db.codeHash a

def GetCode (db : Repository) (a : Address) : List Byte := db.code a

/-- Stores the code together with its hash; `keccak` is the code-hash function. -/
def SetCode (keccak : List Byte → Hash) (db : Repository) (a : Address) (c : List Byte) :
    Repository :=
  { db with
      code := fun x => if x = a then c else db.code x
      codeHash := fun x => if x = a then keccak c else db.codeHash x }

/-- A fresh account at `a`: nonce 0, no code, no storage; the balance is carried over. -/
def CreateAccount (keccak : List Byte → Hash) (db : Repository) (a : Address) : Repository :=
  { db with
      nonce := fun x => if x = a then 0 else db.nonce x
      code := fun x => if x = a then [] else db.code x
      codeHash := fun x => if x = a then keccak [] else db.codeHash x
      storage := fun x => if x = a then fun _ => [] else db.storage x }

def GetState (db : Repository) (a : Address) (key : Hash) : List Byte := db.storage a key

def SetState (db : Repository) (a : Address) (key : Hash) (v : List Byte) : Repository :=
  { db with storage := fun x => if x = a then (fun k => if k = key then v else db.storage x k)
                                else db.storage x }

end Repository

/-! ## `vm_context.go` -/

/-- Chain context of an execution (`WasmChainContext`); `Origin` is the address pointed to. -/
structure WasmChainContext where
  Origin : Address
  GasPrice : Int := 0
  Coinbase : Address := 0
  GasLimit : Nat := 0
  BlockNumber : Int := 0
  Time : Int := 0
deriving DecidableEq, Repr

/-- Go `CanTransfer`: `db.GetBalance(addr).Cmp(amount) >= 0`. -/
def CanTransfer (db : Repository) (addr : Address) (amount : Int) : Bool :=
  decide (amount ≤ db.GetBalance addr)

/-- Go `Transfer`: subtracts `amount` from the sender, then adds it to the recipient. -/
def Transfer (db : Repository) (sender recipient : Address) (amount : Int) : Repository :=
  (db.SubBalance sender amount).AddBalance recipient amount

/-! ## Collaborators outside the package -/

/-- Go `reflect.Kind`. -/
inductive ReflectKind where
  | Invalid | Bool | Int | Int8 | Int16 | Int32 | Int64
  | Uint | Uint8 | Uint16 | Uint32 | Uint64 | Uintptr
  | Float32 | Float64 | Complex64 | Complex128
  | Array | Chan | Func | Interface | Map | Ptr | Slice | String | Struct | UnsafePointer
deriving DecidableEq, Repr

/-- The type of a Go function as `reflect` shows it: the kinds of `t.In(i)` and of `t.Out(i)`. -/
structure FuncType where
  ins : List ReflectKind
  outs : List ReflectKind
deriving DecidableEq, Repr

/-- The four Go functions that `initEnvModule` registers (`Malloc`, `Memcpy` of `sys_call.go`,
`GetState`, `SetState` of `chain_call.go`), as the values `reflect.ValueOf(method)`. -/
inductive HostFunc where
  | Malloc
  | Memcpy
  | GetState
  | SetState
deriving DecidableEq, Repr

/-- Kind of an export (`wasm.External`). -/
inductive External where
  | Function
  | Table
  | Memory
  | Global
deriving DecidableEq, Repr

/-- Export entry of a module (`wasm.ExportEntry`); `Index` is a `uint32`. -/
structure ExportEntry where
  FieldStr : String
  Index : Nat
  Kind : External := External.Function
deriving DecidableEq, Repr

/-- Signature of a function (`wasm.FunctionSig`). -/
structure FunctionSig where
  ParamTypes : List ValueType := []
  ReturnTypes : List ValueType := []
deriving DecidableEq, Repr

/-- Entry of the function index space (`wasm.Function`), of which the interpreter reads the
signature and the host function `Host` (`none` for the zero `reflect.Value` of a function
defined in the module). -/
structure Function where
  Sig : FunctionSig := {}
  Host : Option HostFunc := none
deriving DecidableEq, Repr

/-- Entry of the memory section (`wasm.Memory`): `Limits.Initial`, a `uint32` count of pages. -/
structure MemoryEntry where
  Initial : Nat
deriving DecidableEq, Repr

/-- Entry of the data section (`wasm.DataSegment`): the memory index, the bytes of the
initializer expression of the offset, and the data. -/
structure DataSegment where
  Index : Nat
  Offset : List Byte
  Data : List Byte
deriving DecidableEq, Repr

/-- Entry of the global index space (`wasm.GlobalEntry`): the bytes of its initializer
expression. -/
structure GlobalEntry where
  Init : List Byte
deriving DecidableEq, Repr

/-- Dynamic value returned by `(*wasm.Module).ExecInitExpr`: a number with its Go type, floats by
their bit patterns, or a value of another type. -/
inductive InitVal where
  | i32 (v : Int)
  | i64 (v : Int)
  | f32 (bits : Nat)
  | f64 (bits : Nat)
  | other
deriving DecidableEq, Repr

/-- The part of a decoded module (`wasm.Module`) that the package reads: the export section
`Export` (`none` for the `nil` pointer of a module without one) with its table `Entries`, a map
from names to entries; the function index space; the type section `Types`, the memory section
`Memory` and the data section `Data` with their `Entries` (`none` for a `nil` section); the
linear memory index space and the global index space. -/
structure Module where
  Export : Option (List (String × ExportEntry)) := none
  FunctionIndexSpace : List Function := []
  Types : Option (List FunctionSig) := none
  Memory : Option (List MemoryEntry) := none
  LinearMemoryIndexSpace : List (List Byte) := []
  Data : Option (List DataSegment) := none
  GlobalIndexSpace : List GlobalEntry := []
deriving DecidableEq, Repr

/-- Target of a branch table (`compile.Target`). -/
structure Target where
  Addr : Int := 0
  Discard : Int := 0
  PreserveTop : Bool := false
  Return : Bool := false
deriving DecidableEq, Repr

/-- Branch table of a compiled function (`compile.BranchTable`). -/
structure BranchTable where
  Targets : List Target := []
  DefaultTarget : Target := {}
deriving DecidableEq, Repr

/-- A function compiled to the bytecode of the interpreter (`compiledFunction`, with the fields
`NewInterpreter` fills and `ExecCode` reads). -/
structure compiledFunction where
  code : List Byte := []
  branchTables : List BranchTable := []
  maxDepth : Int := 0
  totalLocalVars : Int := 0
  args : Int := 0
  returns : Bool := false
deriving DecidableEq, Repr

/-- Entry of the table `funcs` (the interface `function`): a compiled function, or a host
function (`goFunction`), named here by a number. -/
inductive function where
  | compiled (c : compiledFunction)
  | host (id : Nat)
deriving DecidableEq, Repr

/-- The frame of the running function (`context`).  The Go slice `stack` is kept as its words
`stack` (bottom first, top last) and the cells `stackSpare` of its backing array beyond its
length, so that `cap(stack) = len stack + len stackSpare`. -/
structure context where
  stack : List Nat := []
  stackSpare : List Nat := []
  locals : List Nat := []
  code : List Byte := []
  pc : Int := 0
  curFunc : Int := 0
deriving DecidableEq, Repr

/-- Value of a Go panic: a run-time error (index out of range, nil dereference, integer divide by
zero), which is an `error`, or another value passed to `panic`, given by its text. -/
inductive Panic where
  | runtimeError (msg : String)
  | value (msg : String)
deriving DecidableEq, Repr

/-- Value returned by `ExecCode` as an `interface{}`: `nil`, or a number with its dynamic type
(floats by their bit patterns). -/
inductive RetVal where
  | nil
  | u32 (v : Nat)
  | u64 (v : Nat)
  | f32 (bits : Nat)
  | f64 (bits : Nat)
deriving DecidableEq, Repr

/-- Dynamic argument of `SetPointerMemory`: a string, or a slice of offsets. -/
inductive MemValue where
  | str (s : List Byte)
  | ints (ps : List Int)
deriving DecidableEq, Repr

/-- Execution context of one contract instance (`VMInterpreter`), without the table `funcTable`
of operator closures and the native backend, which are fields of `Runtime`. -/
structure VMInterpreter where
  ChainContext : WasmChainContext
  StateDB : Repository
  Mem : VMmemory
  abort : Bool := false
  ctx : context := {}
  module : Module := {}
  globals : List Nat := []
  funcs : List function := []
  RecoverPanic : Bool := false

/-- Proxy handed to the host functions (`Process`). -/
structure Process where
  vm : VMInterpreter

/-- The collaborators of the contract driver and of the host functions, and the constants taken
from other packages.  The theorems quantify over all of them, except where a statement names
`demoEnv`.

* `readModule` is `wasm.ReadModule(bytes.NewReader(code), NativeResolve)`, an error of the
  decoder being given by its text;
* `createAddress` is `crypto.CreateAddress`, `keccak256` is `crypto.Keccak256Hash`;
* `MaxCodeSize` is the host-configured bound on the code size;
* `sha256` is `sha256.New` / `Write` / `Sum(nil)`, `bytesToHash` is `util.BytesToHash`;
* `jsonUnmarshal` is `json.Unmarshal` into a `[]string`;
* `setPointerMemory` and `getMemory` are the methods of `memory.VMmemory` of these names;
* `newInterpreter` and `execCode` stand for `NewInterpreter(module)` and for
  `(*VMInterpreter).ExecCode` run on the instance, of which `Create` and `Call` use the outcome
  only: an error, a value (with the instance after the run, whose state store the host functions
  may have written), or `none` when the call panics or does not return. -/
structure Env where
  readModule : List Byte → Except String Module
  createAddress : Address → Nat → Address
  keccak256 : List Byte → Hash
  MaxCodeSize : Int
  sha256 : List Byte → List Byte
  bytesToHash : List Byte → Hash
  newInterpreter : Module → Option (Except Err VMInterpreter)
  jsonUnmarshal : List Byte → Except Err (List (List Byte))
  setPointerMemory : VMmemory → MemValue → VMmemory × Except Err Int
  execCode : VMInterpreter → Int → List Nat → VMInterpreter × Option (Except Err RetVal)
  getMemory : VMmemory → Nat → Except Err (List Byte)

/-- The package variable `emptyCodeHash = crypto.Keccak256Hash(nil)`. -/
def emptyCodeHash (env : Env) : Hash := env.keccak256 []

/-! ## `vm.go`: the memory bridge of `Process` -/

/-- Go `(*Process).ReadAt(p, off)`: the process and the buffer `p` after the call, the count and
the error; `none` when the slice expression `mem[off:off+length]` panics. -/
def Process.ReadAt (proc : Process) (p : List Byte) (off : Int) :
    Option (Process × List Byte × Int × Option Err) :=
  let mem := proc.vm.Mem.ByteMem
  let length : Int :=
    if (mem.length : Int) < (p.length : Int) + off then (mem.length : Int) - off
    else (p.length : Int)
  match slice mem off (off + length) with
  | none => none
  | some s =>
    let p1 := copy p s
    let err := if length < (p.length : Int) then some Err.ErrShortBuffer else none
    some (proc, p1, length, err)

/-- Go `(*Process).WriteAt(p, off)`: the process after the call, the count and the error; `none`
when one of the slice expressions `mem[off:]`, `p[:length]` panics. -/
def Process.WriteAt (proc : Process) (p : List Byte) (off : Int) :
    Option (Process × Int × Option Err) :=
  let mem := proc.vm.Mem.ByteMem
  let length : Int :=
    if (mem.length : Int) < (p.length : Int) + off then (mem.length : Int) - off
    else (p.length : Int)
  match slice mem off mem.length, slice p 0 length with
  | some _, some q =>
    match copyInto mem off mem.length q with
    | none => none
    | some mem1 =>
      let err := if length < (p.length : Int) then some Err.ErrShortWrite else none
      some ({ proc with vm := { proc.vm with Mem := { proc.vm.Mem with ByteMem := mem1 } } },
        length, err)
  | _, _ => none

/-- Host function `Malloc(proc, size)`: `0` when the allocator fails, else `int32(pointer)`. -/
def Malloc (proc : Process) (size : Int) : Process × Int :=
  match proc.vm.Mem.Malloc size with
  | (m, none) => ({ proc with vm := { proc.vm with Mem := m } }, 0)
  | (m, some pointer) => ({ proc with vm := { proc.vm with Mem := m } }, toInt32 pointer)

/-- Host function `Memcpy(proc, dest, src, size)`, the three arguments being `int32`s: compares
the two ranges, then copies; `none` when a slice expression panics. -/
def Memcpy (proc : Process) (dest src size : Int) : Option (Process × Int) :=
  let mem := proc.vm.Mem.ByteMem
  match slice mem dest (toInt32 (dest + size)), slice mem src (toInt32 (src + size)) with
  | some d, some s =>
    match copyInto mem dest (toInt32 (dest + size)) s with
    | none => none
    | some mem1 =>
      some ({ proc with vm := { proc.vm with Mem := { proc.vm.Mem with ByteMem := mem1 } } },
        toInt32 (bytesCompare d s))
  | _, _ => none

/-! ## `chain_call.go` -/

/-- Host function `SetState(proc, keyStart, keyLen, valStart, valLen)`; `none` when a slice
expression panics. -/
def SetState (env : Env) (proc : Process) (keyStart keyLen valStart valLen : Int) :
    Option Process :=
  let vm := proc.vm
  match slice vm.Mem.ByteMem keyStart (toInt32 (keyStart + keyLen)) with
  | none => none
  | some key =>
    let wlen : Int := key.length
    if toInt32 wlen < keyLen then some proc
    else
      let hash := env.sha256 key
      match slice vm.Mem.ByteMem valStart (toInt32 (valStart + valLen)) with
      | none => none
      | some val =>
        some { proc with vm := { vm with
          StateDB := vm.StateDB.SetState vm.ChainContext.Origin (env.bytesToHash hash) val } }

/-- Host function `GetState(proc, keyStart, keyLen)`; `none` when a slice expression panics. -/
def GetState (env : Env) (proc : Process) (keyStart keyLen : Int) : Option (Process × Int) :=
  let vm := proc.vm
  match slice vm.Mem.ByteMem keyStart (toInt32 (keyStart + keyLen)) with
  | none => none
  | some key =>
    let wlen : Int := key.length
    if toInt32 wlen < keyLen then some (proc, -1)
    else
      let hash := env.sha256 key
      let val := vm.StateDB.GetState vm.ChainContext.Origin (env.bytesToHash hash)
      match vm.Mem.Malloc val.length with
      | (m, none) => some ({ proc with vm := { vm with Mem := m } }, -1)
      | (m, some pointer) =>
        match copyInto m.ByteMem pointer (pointer + val.length) val with
        | none => none
        | some mem1 =>
          some ({ proc with vm := { vm with Mem := { m with ByteMem := mem1 } } },
            toInt32 pointer)

/-! ## `vm.go`: the contract driver -/

/-- The embedder (`VM`): chain context and state store. -/
structure VM where
  ChainContext : WasmChainContext
  StateDB : Repository

/-- The four results of `Create`; `ret = none` is the `nil` slice, `err = none` the `nil` error. -/
structure CreateResult where
  ret : Option (List Byte)
  contractAddr : Address
  leftOverGas : Nat
  err : Option Err
deriving DecidableEq, Repr

/-- The three results of `Call`. -/
structure CallResult where
  ret : Option (List Byte)
  leftOverGas : Nat
  err : Option Err
deriving DecidableEq, Repr

/-- Go `(*VM).Create(caller, code, gas, value)`: the embedder after the call and the results.
The nonce is a `uint64`, so `nonce+1` is taken modulo `2 ^ 64`. -/
def VM.Create (env : Env) (self : VM) (caller : Address) (code : List Byte) (gas : Nat)
    (value : Int) : VM × CreateResult :=
  match env.readModule code with
  | .error e =>
    (self, { ret := none, contractAddr := 0, leftOverGas := gas, err := some (Err.other e) })
  | .ok _ =>
    let nonce := self.StateDB.GetNonce caller
    let contractAddr := env.createAddress caller nonce
    if !CanTransfer self.StateDB caller value then
      (self, { ret := none, contractAddr := 0, leftOverGas := gas,
               err := some Err.ErrInsufficientBalance })
    else
      let db1 := self.StateDB.SetNonce caller ((nonce + 1) % 18446744073709551616)
      let contractHash := db1.GetCodeHash contractAddr
      if db1.GetNonce contractAddr ≠ 0 ∨
          (contractHash ≠ zeroHash ∧ contractHash ≠ emptyCodeHash env) then
        ({ self with StateDB := db1 },
          { ret := none, contractAddr := 0, leftOverGas := 0,
            err := some Err.ErrContractAddressCollision })
      else if (code.length : Int) > env.MaxCodeSize then
        ({ self with StateDB := db1 },
          { ret := none, contractAddr := 0, leftOverGas := 0,
            err := some Err.ErrCodeSizeExceedLimit })
      else
        let db2 := db1.CreateAccount env.keccak256 contractAddr
        let db3 := db2.SetCode env.keccak256 contractAddr code
        let db4 := Transfer db3 caller contractAddr value
        ({ self with StateDB := db4 },
          { ret := none, contractAddr := contractAddr, leftOverGas := gas, err := none })

/-- Name of the exported entry point (`entryPointMethod`). -/
def entryPointMethod : String := "invoke"

/-- Go `NewVMIntepreter(vm, module)`: the instance made by `NewInterpreter`, with the state store
and chain context of the embedder. -/
def NewVMIntepreter (env : Env) (vm : VM) (module : Module) :
    Option (Except Err VMInterpreter) :=
  match env.newInterpreter module with
  | none => none
  | some (.error e) => some (.error e)
  | some (.ok interpreter) =>
    some (.ok { interpreter with StateDB := vm.StateDB, ChainContext := vm.ChainContext })

/-- The loop of `Call` that passes every argument into the memory of the instance: the memory
after the loop and the offsets, or the first error. -/
def passArgs (env : Env) : VMmemory → List (List Byte) → VMmemory × Except Err (List Int)
  | m, [] => (m, .ok [])
  | m, arg :: rest =>
    match env.setPointerMemory m (MemValue.str arg) with
    | (m1, .error e) => (m1, .error e)
    | (m1, .ok argP) =>
      match passArgs env m1 rest with
      | (m2, .error e) => (m2, .error e)
      | (m2, .ok ps) => (m2, .ok (argP :: ps))

/-- Go `(*VM).Call(caller, addr, input, gas, value)`: the embedder after the call and the
results; the results are `none` when the call panics or does not return. -/
def VM.Call (env : Env) (self : VM) (caller addr : Address) (input : List Byte) (gas : Nat)
    (value : Int) : VM × Option CallResult :=
  if !CanTransfer self.StateDB caller value then
    (self, some { ret := none, leftOverGas := gas, err := some Err.ErrInsufficientBalance })
  else
    let vm1 : VM := { self with StateDB := Transfer self.StateDB caller addr value }
    let code := vm1.StateDB.GetCode addr
    match env.readModule code with
    | .error e => (vm1, some { ret := none, leftOverGas := gas, err := some (Err.other e) })
    | .ok m =>
      match NewVMIntepreter env vm1 m with
      | none => (vm1, none)
      | some (.error e) => (vm1, some { ret := none, leftOverGas := gas, err := some e })
      | some (.ok interpreter) =>
        match m.Export with
        | none => (vm1, none)
        | some entries =>
        match entries.lookup entryPointMethod with
        | none =>
          (vm1, some { ret := none, leftOverGas := gas,
                       err := some (Err.other "failed to find the contract entry method.") })
        | some fnEntry =>
          let fnIndex : Int := fnEntry.Index
          match env.jsonUnmarshal input with
          | .error e =>
            (vm1, some { ret := none, leftOverGas := gas,
                         err := some (Err.wrapped "failed to extract input params" e) })
          | .ok args =>
            match passArgs env interpreter.Mem args with
            | (_, .error e) =>
              (vm1, some { ret := none, leftOverGas := gas,
                           err := some (Err.wrapped "failed to pass input params to contract" e) })
            | (mem1, .ok argPs) =>
              match env.setPointerMemory mem1 (MemValue.ints argPs) with
              | (_, .error e) =>
                (vm1, some { ret := none, leftOverGas := gas,
                             err := some (Err.wrapped "failed to pass input params to contract" e) })
              | (mem2, .ok argPPs) =>
                match env.execCode { interpreter with Mem := mem2 } fnIndex
                    [toUint64 args.length, toUint64 argPPs] with
                | (interp1, none) => ({ vm1 with StateDB := interp1.StateDB }, none)
                | (interp1, some (.error e)) =>
                  ({ vm1 with StateDB := interp1.StateDB },
                    some { ret := none, leftOverGas := gas,
                           err := some (Err.wrapped "failed to execute contract" e) })
                | (interp1, some (.ok retP)) =>
                  let vm2 : VM := { vm1 with StateDB := interp1.StateDB }
                  match retP with
                  | RetVal.u32 v =>
                    match env.getMemory interp1.Mem v with
                    | .error e =>
                      (vm2, some { ret := none, leftOverGas := gas,
                                   err := some (Err.wrapped "failed to parse contract retrun value" e) })
                    | .ok ret => (vm2, some { ret := some ret, leftOverGas := gas, err := none })
                  | _ => (vm2, none)

/-! ## Auxiliary definitions and the values of the tests -/

/-- Contents of a byte string after `src` has been written over it from offset `lo`. -/
def splice (s : List Byte) (lo : Nat) (src : List Byte) : List Byte :=
  s.take lo ++ src ++ s.drop (lo + src.length)

/-- The memory of the tests `TestWriteBoundary` and `TestReadBoundary`. -/
def smallMemoryProcess : Process :=
  { vm := { ChainContext := { Origin := 0 },
            StateDB := { nonce := fun _ => 0, balance := fun _ => 0, code := fun _ => [],
                         codeHash := fun _ => [], storage := fun _ _ => [] },
            Mem := { ByteMem := [1, 2, 3] } } }

/-- The buffer of the tests of the memory bridge. -/
def tooBigABuffer : List Byte := [1, 2, 3, 4, 5, 6, 7, 8, 9, 0]

/-- A linear memory of 4 GiB (65536 pages, the largest a 32-bit module can declare), all bytes
zero. -/
def hugeMem : List Byte := List.replicate 4294967296 0

/-- An instance whose linear memory is `hugeMem`, with the allocation marks `initVMMemory` gives
a module without data section: `AllocedMemIdex = -1`, `PointedMemIndex = len / 2`. -/
def hugeProcess : Process :=
  { vm := { ChainContext := { Origin := 0 },
            StateDB := { nonce := fun _ => 0, balance := fun _ => 0, code := fun _ => [],
                         codeHash := fun _ => [], storage := fun _ _ => [] },
            Mem := { ByteMem := hugeMem, AllocedMemIdex := -1, PointedMemIndex := 2147483648 } } }

/-- The instance of `TestMalloc`: 100 bytes of memory, `PointedMemIndex = 50`. -/
def testMallocProcess : Process :=
  { vm := { ChainContext := { Origin := 0 },
            StateDB := { nonce := fun _ => 0, balance := fun _ => 0, code := fun _ => [],
                         codeHash := fun _ => [], storage := fun _ _ => [] },
            Mem := { ByteMem := List.replicate 100 0, PointedMemIndex := 50 } } }

/-- Stand-ins for the collaborators, used where a statement needs concrete ones: the decoder
accepts exactly the byte strings that start with the 8-byte header of a binary module (magic
number and version 1) and yields a module without export section; the hashes are the identity;
the address derived from `(caller, nonce)` is `caller + nonce + 1`; the interpreter fails to
start. -/
def demoEnv : Env :=
  { readModule := fun code =>
      if code.take 8 = [0, 97, 115, 109, 1, 0, 0, 0] then .ok { Export := none }
      else .error "wasm: Invalid magic number"
    createAddress := fun caller nonce => caller + nonce + 1
    keccak256 := fun b => b
    MaxCodeSize := 24576
    sha256 := fun b => b
    bytesToHash := fun b => b
    newInterpreter := fun _ => some (.error (Err.other "no interpreter"))
    jsonUnmarshal := fun _ => .error (Err.other "invalid character")
    setPointerMemory := fun m _ => (m, .error (Err.other "out of memory"))
    execCode := fun vm _ _ => (vm, none)
    getMemory := fun _ _ => .error (Err.other "no pointer") }

/-- An instance in the situation of `TestVM_UpdateState`: the memory holds "Hello" at 0, "World"
at 5 and "Hello" again at 10, and the allocator stands at 16 of 32 bytes. -/
def stateTestProcess : Process :=
  { vm := { ChainContext := { Origin := 0 },
            StateDB := { nonce := fun _ => 0, balance := fun _ => 0, code := fun _ => [],
                         codeHash := fun _ => [], storage := fun _ _ => [] },
            Mem := { ByteMem := [72, 101, 108, 108, 111, 87, 111, 114, 108, 100,
                                 72, 101, 108, 108, 111, 0] ++ List.replicate 16 0,
                     PointedMemIndex := 16 } } }

/-- An instance whose allocator has 2 bytes left while every storage slot holds the 5 bytes
"World"; the memory holds "Hello" at 0. -/
def fullTestProcess : Process :=
  { vm := { ChainContext := { Origin := 0 },
            StateDB := { nonce := fun _ => 0, balance := fun _ => 0, code := fun _ => [],
                         codeHash := fun _ => [],
                         storage := fun _ _ => [87, 111, 114, 108, 100] },
            Mem := { ByteMem := [72, 101, 108, 108, 111] ++ List.replicate 27 0,
                     PointedMemIndex := 30 } } }

/-- The 8-byte header of a binary module: magic number and version 1. -/
def wasmHeader : List Byte := [0, 97, 115, 109, 1, 0, 0, 0]

/-- The embedder of `TestVM_Create`: every nonce is 0, every balance 100, every code hash
zero. -/
def createTestVM : VM :=
  { ChainContext := { Origin := 0 },
    StateDB := { nonce := fun _ => 0, balance := fun _ => 100, code := fun _ => [],
                 codeHash := fun _ => zeroHash, storage := fun _ _ => [] } }

/-- An embedder in whose state the account at address 1 has already been used (nonce 1). -/
def collisionVM : VM :=
  { ChainContext := { Origin := 0 },
    StateDB := { nonce := fun a => if a = 1 then 1 else 0, balance := fun _ => 100,
                 code := fun _ => [], codeHash := fun _ => zeroHash,
                 storage := fun _ _ => [] } }

/-- An embedder in whose state the account at address 0 has balance 100, every other account is
empty, and no account holds code. -/
def bankVM : VM :=
  { ChainContext := { Origin := 0 },
    StateDB := { nonce := fun _ => 0, balance := fun a => if a = 0 then 100 else 0,
                 code := fun _ => [], codeHash := fun _ => zeroHash,
                 storage := fun _ _ => [] } }

/-! ## `vm.go`: the operand stack -/

/-- Go conversion `int64(x)`: keeps the low 64 bits, read as a signed value. -/
def toInt64 (x : Int) : Int :=
  (x + 9223372036854775808) % 18446744073709551616 - 9223372036854775808

/-- Go conversion `uint32(x)`: keeps the low 32 bits. -/
def toUint32 (x : Int) : Nat := (x % 4294967296).toNat

/-- A method of `*VMInterpreter`: from the instance before the call to the instance after it,
with the value returned or the panic raised.  The instance after a panic is the one the panic
leaves behind. -/
def Step (α : Type) : Type := VMInterpreter → VMInterpreter × Except Panic α

/-- Sequencing of methods: a panic ends the sequence. -/
def Step.bind {α β : Type} (m : Step α) (f : α → Step β) : Step β := fun vm =>
  match m vm with
  | (vm1, .error p) => (vm1, .error p)
  | (vm1, .ok a) => f a vm1

instance : Monad Step where
  pure a := fun vm => (vm, .ok a)
  bind := Step.bind

/-- Go `panic(p)`. -/
def Step.panic {α : Type} (p : Panic) : Step α := fun vm => (vm, .error p)

/-- A computation without access to the instance, which may panic. -/
def Step.lift {α : Type} (r : Except Panic α) : Step α := fun vm => (vm, r)

/-- What the package takes from files and packages that are not among the sources.

* `debugStackDepth` is the build constant of this name;
* `growslice c` is the capacity Go's `append` gives a full slice of capacity `c`;
* `OpReturn`, `OpBrTable`, `OpWagonNativeExec` are the opcodes `ops.Return`, `ops.BrTable`,
  `ops.WagonNativeExec`, and `OpJmp`, `OpJmpZ`, `OpJmpNz`, `OpDiscard`, `OpDiscardPreserveTop` the
  opcodes of this name of package `compile`;
* `funcTable op` is the closure `vm.funcTable[op]` (`none` for a `nil` entry) and
  `nativeCodeInvocation` the method of this name;
* `getFunction m i` is `m.GetFunction(i)` of package `wasm` (`none` for the `nil` pointer);
* `execInitExpr m e` is `m.ExecInitExpr(e)` of package `wasm`;
* `nativeBackendClose` is `none` when `vm.nativeBackend` is `nil`, else the result of its
  `Close()`. -/
structure Runtime where
  debugStackDepth : Bool := false
  growslice : Nat → Nat := fun c => 2 * c + 1
  OpReturn : Nat := 15
  OpBrTable : Nat := 14
  OpWagonNativeExec : Nat := 254
  OpJmp : Nat := 12
  OpJmpZ : Nat := 3
  OpJmpNz : Nat := 13
  OpDiscard : Nat := 11
  OpDiscardPreserveTop : Nat := 5
  funcTable : Nat → Option (Step Unit) := fun _ => none
  nativeCodeInvocation : Nat → Step Unit := fun _ => Step.panic (Panic.value "no native backend")
  getFunction : Module → Int → Option Function :=
    fun m i => if 0 ≤ i then m.FunctionIndexSpace.get? i.toNat else none
  execInitExpr : Module → List Byte → Except Err InitVal :=
    fun _ _ => .error (Err.other "no initializer expressions")
  nativeBackendClose : Option (Option Err) := none

/-- Go `vm.popUint64()`: the top word; the index expression panics on an empty stack. -/
def popUint64 : Step Nat := fun vm =>
  match vm.ctx.stack.getLast? with
  | none => (vm, .error (Panic.runtimeError "index out of range [-1]"))
  | some i =>
    ({ vm with ctx := { vm.ctx with stack := vm.ctx.stack.dropLast
                                    stackSpare := i :: vm.ctx.stackSpare } }, .ok i)

/-- Go `vm.popInt64()`. -/
def popInt64 : Step Int := do
  let i ← popUint64
  return toInt64 i

/-- Go `vm.popUint32()`. -/
def popUint32 : Step Nat := do
  let i ← popUint64
  return i % 4294967296

/-- Go `vm.popInt32()`. -/
def popInt32 : Step Int := do
  let i ← popUint32
  return toInt32 i

/-- Go `vm.pushUint64(i)`: with `debugStackDepth` a full stack panics; `append` writes into the
next spare cell, or moves a full stack to a new array of capacity `growslice (cap)`. -/
def pushUint64 (rt : Runtime) (i : Nat) : Step Unit := fun vm =>
  if rt.debugStackDepth = true ∧ vm.ctx.stackSpare = [] then
    (vm, .error (Panic.value "stack exceeding max depth"))
  else
    match vm.ctx.stackSpare with
    | [] =>
      ({ vm with ctx := { vm.ctx with
          stack := vm.ctx.stack ++ [i]
          stackSpare := List.replicate
            (rt.growslice vm.ctx.stack.length - (vm.ctx.stack.length + 1)) 0 } }, .ok ())
    | _ :: rest =>
      ({ vm with ctx := { vm.ctx with stack := vm.ctx.stack ++ [i], stackSpare := rest } },
        .ok ())

/-- Go `vm.pushInt64(i)`: `uint64(i)`. -/
def pushInt64 (rt : Runtime) (i : Int) : Step Unit := pushUint64 rt (toUint64 i)

/-- Go `vm.pushUint32(i)`: `uint64(i)` of a `uint32`. -/
def pushUint32 (rt : Runtime) (i : Nat) : Step Unit := pushUint64 rt i

/-- Go `vm.pushInt32(i)`: `uint64(i)` of an `int32`, which extends the sign. -/
def pushInt32 (rt : Runtime) (i : Int) : Step Unit := pushUint64 rt (toUint64 i)

/-- Go `vm.pushBool(v)`. -/
def pushBool (rt : Runtime) (v : Bool) : Step Unit :=
  if v then pushUint64 rt 1 else pushUint64 rt 0

/-! ## `num.go`: integer operators -/

/-- Go `x / y` on `int32`: a run-time panic for `y = 0`, else the quotient truncated toward zero,
in 32 bits (so the most negative value divided by `-1` is itself). -/
def divInt32 (x y : Int) : Except Panic Int :=
  if y = 0 then .error (Panic.runtimeError "integer divide by zero")
  else .ok (toInt32 (Int.tdiv x y))

/-- Go `x % y` on `int32` or `int64`: a run-time panic for `y = 0`, else the remainder of the
truncated division. -/
def remInt (x y : Int) : Except Panic Int :=
  if y = 0 then .error (Panic.runtimeError "integer divide by zero")
  else .ok (Int.tmod x y)

/-- Go `x / y` on `int64`. -/
def divInt64 (x y : Int) : Except Panic Int :=
  if y = 0 then .error (Panic.runtimeError "integer divide by zero")
  else .ok (toInt64 (Int.tdiv x y))

/-- Go `x / y` on `uint32` or `uint64`. -/
def divUint (x y : Nat) : Except Panic Nat :=
  if y = 0 then .error (Panic.runtimeError "integer divide by zero")
  else .ok (x / y)

/-- Go `x % y` on `uint32` or `uint64`. -/
def remUint (x y : Nat) : Except Panic Nat :=
  if y = 0 then .error (Panic.runtimeError "integer divide by zero")
  else .ok (x % y)

/-- Go `bits.RotateLeft32(x, k)`: `s := uint(k) & 31; x<<s | x>>(32-s)` on a `uint32`. -/
def RotateLeft32 (x : Nat) (k : Int) : Nat :=
  ((x <<< (k % 32).toNat) % 4294967296) ||| (x >>> (32 - (k % 32).toNat))

/-- Go `bits.RotateLeft64(x, k)`: `s := uint(k) & 63; x<<s | x>>(64-s)` on a `uint64`. -/
def RotateLeft64 (x : Nat) (k : Int) : Nat :=
  ((x <<< (k % 64).toNat) % 18446744073709551616) ||| (x >>> (64 - (k % 64).toNat))

def i32Add (rt : Runtime) : Step Unit := do
  let a ← popUint32
  let b ← popUint32
  pushUint32 rt ((a + b) % 4294967296)

def i32Mul (rt : Runtime) : Step Unit := do
  let a ← popUint32
  let b ← popUint32
  pushUint32 rt ((a * b) % 4294967296)

def i32DivS (rt : Runtime) : Step Unit := do
  let v2 ← popInt32
  let v1 ← popInt32
  let q ← Step.lift (divInt32 v1 v2)
  pushInt32 rt q

def i32DivU (rt : Runtime) : Step Unit := do
  let v2 ← popUint32
  let v1 ← popUint32
  let q ← Step.lift (divUint v1 v2)
  pushUint32 rt q

def i32RemS (rt : Runtime) : Step Unit := do
  let v2 ← popInt32
  let v1 ← popInt32
  let r ← Step.lift (remInt v1 v2)
  pushInt32 rt r

def i32RemU (rt : Runtime) : Step Unit := do
  let v2 ← popUint32
  let v1 ← popUint32
  let r ← Step.lift (remUint v1 v2)
  pushUint32 rt r

def i32Sub (rt : Runtime) : Step Unit := do
  let v2 ← popUint32
  let v1 ← popUint32
  pushUint32 rt (toUint32 ((v1 : Int) - (v2 : Int)))

def i32Shl (rt : Runtime) : Step Unit := do
  let v2 ← popUint32
  let v1 ← popUint32
  pushUint32 rt ((v1 <<< v2) % 4294967296)

def i32ShrU (rt : Runtime) : Step Unit := do
  let v2 ← popUint32
  let v1 ← popUint32
  pushUint32 rt (v1 >>> v2)

def i32ShrS (rt : Runtime) : Step Unit := do
  let v2 ← popUint32
  let v1 ← popInt32
  pushInt32 rt (v1 >>> v2)

def i32Rotl (rt : Runtime) : Step Unit := do
  let v2 ← popUint32
  let v1 ← popUint32
  pushUint32 rt (RotateLeft32 v1 (v2 : Int))

def i32Rotr (rt : Runtime) : Step Unit := do
  let v2 ← popUint32
  let v1 ← popUint32
  pushUint32 rt (RotateLeft32 v1 (-(v2 : Int)))

def i64Sub (rt : Runtime) : Step Unit := do
  let v2 ← popUint64
  let v1 ← popUint64
  pushUint64 rt (toUint64 ((v1 : Int) - (v2 : Int)))

def i64DivS (rt : Runtime) : Step Unit := do
  let v2 ← popInt64
  let v1 ← popInt64
  let q ← Step.lift (divInt64 v1 v2)
  pushInt64 rt q

def i64DivU (rt : Runtime) : Step Unit := do
  let v2 ← popUint64
  let v1 ← popUint64
  let q ← Step.lift (divUint v1 v2)
  pushUint64 rt q

def i64RemS (rt : Runtime) : Step Unit := do
  let v2 ← popInt64
  let v1 ← popInt64
  let r ← Step.lift (remInt v1 v2)
  pushInt64 rt r

def i64RemU (rt : Runtime) : Step Unit := do
  let v2 ← popUint64
  let v1 ← popUint64
  let r ← Step.lift (remUint v1 v2)
  pushUint64 rt r

def i64Shl (rt : Runtime) : Step Unit := do
  let v2 ← popUint64
  let v1 ← popUint64
  pushUint64 rt ((v1 <<< v2) % 18446744073709551616)

def i64ShrS (rt : Runtime) : Step Unit := do
  let v2 ← popUint64
  let v1 ← popInt64
  pushInt64 rt (v1 >>> v2)

def i64ShrU (rt : Runtime) : Step Unit := do
  let v2 ← popUint64
  let v1 ← popUint64
  pushUint64 rt (v1 >>> v2)

def i64Rotl (rt : Runtime) : Step Unit := do
  let v2 ← popInt64
  let v1 ← popUint64
  pushUint64 rt (RotateLeft64 v1 v2)

def i64Rotr (rt : Runtime) : Step Unit := do
  let v2 ← popInt64
  let v1 ← popUint64
  pushUint64 rt (RotateLeft64 v1 (toInt64 (-v2)))

/-- An instance with empty memory and state store, on which the examples set the stack. -/
def demoVM : VMInterpreter :=
  { ChainContext := { Origin := 0 },
    StateDB := { nonce := fun _ => 0, balance := fun _ => 0, code := fun _ => [],
                 codeHash := fun _ => [], storage := fun _ _ => [] },
    Mem := { ByteMem := [] } }

/-- The instance `demoVM` with the operand stack `s` in a full backing array. -/
def stackVM (s : List Nat) : VMInterpreter :=
  { demoVM with ctx := { stack := s } }

/-- The instance `vm` with the operand stack `s` and the spare cells `spare`. -/
def withStack (vm : VMInterpreter) (s spare : List Nat) : VMInterpreter :=
  { vm with ctx := { vm.ctx with stack := s, stackSpare := spare } }

/-- The runtime of the examples: no stack-depth check, no operator in the table. -/
def demoRuntime : Runtime := {}

/-- The `i32` value a stack word stands for: its low 32 bits, read as a signed number. -/
def signed32 (w : Nat) : Int := toInt32 ((w % 4294967296 : Nat) : Int)

/-- The `i64` value a stack word stands for: the word read as a signed number. -/
def signed64 (w : Nat) : Int := toInt64 (w : Int)

/-- The rotation of the `w`-bit word `x` by `k ≤ w` positions to the left, in the words of the
specification: the low `w - k` bits move up by `k` and the high `k` bits come in at the
bottom. -/
def specRotl (w x k : Nat) : Nat := 2 ^ k * (x % 2 ^ (w - k)) + x / 2 ^ (w - k)

/-- The rotation of the `w`-bit word `x` by `k ≤ w` positions to the right, in the words of the
specification: the high `w - k` bits move down by `k` and the low `k` bits come in at the
top. -/
def specRotr (w x k : Nat) : Nat := 2 ^ (w - k) * (x % 2 ^ k) + x / 2 ^ k

/-! ## `vm.go`: the fetch functions, the execution loop and `ExecCode` -/

/-- Go conversion `int8(x)`. -/
def toInt8 (x : Int) : Int := (x + 128) % 256 - 128

/-- Go `binary.LittleEndian.Uint32(b)` on a slice of at least four bytes. -/
def leUint32 (b : List Byte) : Nat :=
  b.getD 0 0 % 256 + 256 * (b.getD 1 0 % 256) + 65536 * (b.getD 2 0 % 256)
    + 16777216 * (b.getD 3 0 % 256)

/-- Go `binary.LittleEndian.Uint64(b)` on a slice of at least eight bytes. -/
def leUint64 (b : List Byte) : Nat :=
  leUint32 b + 4294967296 * leUint32 (b.drop 4)

/-- Go `vm.ctx.pc = pc`. -/
def setPc (pc : Int) : Step Unit := fun vm =>
  ({ vm with ctx := { vm.ctx with pc := pc } }, .ok ())

/-- Go `op := vm.ctx.code[vm.ctx.pc]; vm.ctx.pc++`, the head of the loop body of `execCode`. -/
def fetchOp : Step Nat := fun vm =>
  if 0 ≤ vm.ctx.pc then
    match vm.ctx.code.get? vm.ctx.pc.toNat with
    | some b => ({ vm with ctx := { vm.ctx with pc := toInt64 (vm.ctx.pc + 1) } }, .ok (b % 256))
    | none => (vm, .error (Panic.runtimeError "index out of range"))
  else (vm, .error (Panic.runtimeError "index out of range"))

/-- Go `(*VMInterpreter).fetchInt8`. -/
def fetchInt8 : Step Int := do
  let b ← fetchOp
  pure (toInt8 b)

/-- Go `(*VMInterpreter).fetchBool`. -/
def fetchBool : Step Bool := do
  let i ← fetchInt8
  pure (i != 0)

/-- Go `(*VMInterpreter).fetchUint32`: the slice expression `code[pc:]` panics outside
`0 ≤ pc ≤ len(code)`, and `Uint32` panics on fewer than four bytes. -/
def fetchUint32 : Step Nat := fun vm =>
  match slice vm.ctx.code vm.ctx.pc vm.ctx.code.length with
  | none => (vm, .error (Panic.runtimeError "slice bounds out of range"))
  | some b =>
    if b.length < 4 then (vm, .error (Panic.runtimeError "index out of range [3]"))
    else ({ vm with ctx := { vm.ctx with pc := toInt64 (vm.ctx.pc + 4) } }, .ok (leUint32 b))

/-- Go `(*VMInterpreter).fetchUint64`. -/
def fetchUint64 : Step Nat := fun vm =>
  match slice vm.ctx.code vm.ctx.pc vm.ctx.code.length with
  | none => (vm, .error (Panic.runtimeError "slice bounds out of range"))
  | some b =>
    if b.length < 8 then (vm, .error (Panic.runtimeError "index out of range [7]"))
    else ({ vm with ctx := { vm.ctx with pc := toInt64 (vm.ctx.pc + 8) } }, .ok (leUint64 b))

/-- Go `(*VMInterpreter).fetchInt64`. -/
def fetchInt64 : Step Int := do
  let v ← fetchUint64
  pure (toInt64 (v : Int))

/-- Go `(*VMInterpreter).i32Const` (`const.go`). -/
def i32Const (rt : Runtime) : Step Unit := do
  let v ← fetchUint32
  pushUint32 rt v

/-- Go `(*VMInterpreter).i64Const` (`const.go`). -/
def i64Const (rt : Runtime) : Step Unit := do
  let v ← fetchUint64
  pushUint64 rt v

/-- Go `vm.ctx.stack[len(vm.ctx.stack)-1]`. -/
def stackTop : Step Nat := fun vm =>
  match vm.ctx.stack.getLast? with
  | none => (vm, .error (Panic.runtimeError "index out of range [-1]"))
  | some t => (vm, .ok t)

/-- Go `vm.ctx.stack = vm.ctx.stack[:len(vm.ctx.stack)-int(n)]`: the new length may be anything
from 0 to the capacity of the slice. -/
def discardStack (n : Int) : Step Unit := fun vm =>
  let cells := vm.ctx.stack ++ vm.ctx.stackSpare
  let hi : Int := (vm.ctx.stack.length : Int) - n
  if 0 ≤ hi ∧ hi ≤ (cells.length : Int) then
    ({ vm with ctx := { vm.ctx with stack := cells.take hi.toNat
                                    stackSpare := cells.drop hi.toNat } }, .ok ())
  else (vm, .error (Panic.runtimeError "slice bounds out of range"))

/-- The tail shared by the taken branches of `OpJmpNz` and `BrTable` in `execCode`: set `pc`,
read the top when it is preserved, cut the stack by `discard`, push the top again. -/
def branchTo (rt : Runtime) (addr : Int) (preserveTop : Bool) (discard : Int) : Step Unit := do
  setPc addr
  let top ← if preserveTop then stackTop else pure 0
  discardStack discard
  if preserveTop then pushUint64 rt top else pure ()

/-- How one turn of the loop of `execCode` ends: back to the loop condition (`continue`, or the
end of the `switch`), or `break outer`. -/
inductive Flow where
  | next
  | stop
deriving DecidableEq, Repr

/-- Go type assertion `vm.funcs[i].(compiledFunction)` as used in `ExecCode` and `execCode`,
with the index panic of `vm.funcs[i]` and the explicit panic when the entry is a host
function. -/
def compiledAt (i : Int) : Step compiledFunction := fun vm =>
  if 0 ≤ i then
    match vm.funcs.get? i.toNat with
    | some (function.compiled c) => (vm, .ok c)
    | some (function.host _) =>
      (vm, .error (Panic.value "exec: function at index is not a compiled function"))
    | none => (vm, .error (Panic.runtimeError "index out of range"))
  else (vm, .error (Panic.runtimeError "index out of range"))

/-- Go `table := cf.branchTables[index]` and the choice of the target in the case `ops.BrTable`
of `execCode`. -/
def brTableTarget (cf : compiledFunction) (index label : Int) : Except Panic Target :=
  if 0 ≤ index then
    match cf.branchTables.get? index.toNat with
    | none => .error (Panic.runtimeError "index out of range")
    | some table =>
      if 0 ≤ label ∧ label < toInt32 (table.Targets.length : Int) then
        match table.Targets.get? label.toNat with
        | some target => .ok target
        | none => .error (Panic.runtimeError "index out of range")
      else .ok table.DefaultTarget
  else .error (Panic.runtimeError "index out of range")

/-- One turn of the loop of `execCode`: fetch the opcode and run its case of the `switch`. -/
def execStep (rt : Runtime) : Step Flow := do
  let op ← fetchOp
  if op = rt.OpReturn then
    pure Flow.stop
  else if op = rt.OpJmp then do
    let target ← fetchInt64
    setPc target
    pure Flow.next
  else if op = rt.OpJmpZ then do
    let target ← fetchInt64
    let c ← popUint32
    if c = 0 then do
      setPc target
      pure Flow.next
    else pure Flow.next
  else if op = rt.OpJmpNz then do
    let target ← fetchInt64
    let preserveTop ← fetchBool
    let discard ← fetchInt64
    let c ← popUint32
    if c ≠ 0 then do
      branchTo rt target preserveTop discard
      pure Flow.next
    else pure Flow.next
  else if op = rt.OpBrTable then do
    let index ← fetchInt64
    let label ← popInt32
    let vm ← (fun vm => (vm, .ok vm) : Step VMInterpreter)
    let cf ← compiledAt vm.ctx.curFunc
    let target ← Step.lift (brTableTarget cf index label)
    if target.Return then pure Flow.stop
    else do
      branchTo rt target.Addr target.PreserveTop target.Discard
      pure Flow.next
  else if op = rt.OpDiscard then do
    let place ← fetchInt64
    discardStack place
    pure Flow.next
  else if op = rt.OpDiscardPreserveTop then do
    let top ← stackTop
    let place ← fetchInt64
    discardStack place
    pushUint64 rt top
    pure Flow.next
  else if op = rt.OpWagonNativeExec then do
    let i ← fetchUint32
    rt.nativeCodeInvocation i
    pure Flow.next
  else
    match rt.funcTable op with
    | none => Step.panic (Panic.runtimeError "invalid memory address or nil pointer dereference")
    | some f => do
      f
      pure Flow.next

/-- The loop `outer` of `execCode`, run for at most `fuel` turns: `some ()` when the loop was
left (condition false, or `break outer`), `none` when the turns ran out before. -/
def execLoop (rt : Runtime) : Nat → Step (Option Unit)
  | 0 => fun vm => (vm, .ok none)
  | fuel + 1 => fun vm =>
    if vm.ctx.pc < (vm.ctx.code.length : Int) ∧ vm.abort = false then
      match execStep rt vm with
      | (vm1, .error p) => (vm1, .error p)
      | (vm1, .ok Flow.stop) => (vm1, .ok (some ()))
      | (vm1, .ok Flow.next) => execLoop rt fuel vm1
    else (vm, .ok (some ()))

/-- Go `(*VMInterpreter).execCode(compiled)`, the loop run for at most `fuel` turns: the word
returned, `none` when the turns ran out. -/
def execCode (rt : Runtime) (compiled : compiledFunction) (fuel : Nat) : Step (Option Nat) :=
  fun vm =>
  match execLoop rt fuel vm with
  | (vm1, .error p) => (vm1, .error p)
  | (vm1, .ok none) => (vm1, .ok none)
  | (vm1, .ok (some ())) =>
    if compiled.returns then
      match stackTop vm1 with
      | (vm2, .error p) => (vm2, .error p)
      | (vm2, .ok t) => (vm2, .ok (some t))
    else (vm1, .ok (some 0))

/-- The frame set-up of `ExecCode` between the type assertion and the call of `execCode`: the
stack is emptied (in a new backing array of `maxDepth + 1` cells when the capacity is smaller),
the locals are `totalLocalVars` zero words (`make` panics on a negative length), `pc`, `code`
and `curFunc` are set, and the arguments are stored in the first locals (an index panic when
there are more arguments than locals, the locals before it being stored). -/
def setupFrame (compiled : compiledFunction) (fnIndex : Int) (args : List Nat) : Step Unit :=
  fun vm =>
  let depth := compiled.maxDepth + 1
  let cap : Int := ((vm.ctx.stack.length + vm.ctx.stackSpare.length : Nat) : Int)
  let spare : List Nat :=
    if cap < depth then List.replicate depth.toNat 0 else vm.ctx.stack ++ vm.ctx.stackSpare
  let vm1 : VMInterpreter := { vm with ctx := { vm.ctx with stack := [], stackSpare := spare } }
  if compiled.totalLocalVars < 0 then
    (vm1, .error (Panic.runtimeError "makeslice: len out of range"))
  else
    let n := compiled.totalLocalVars.toNat
    let locals : List Nat := args.take n ++ List.replicate (n - args.length) 0
    let vm2 : VMInterpreter :=
      { vm1 with ctx := { vm1.ctx with locals := locals, pc := 0, code := compiled.code
                                       curFunc := fnIndex } }
    if n < args.length then (vm2, .error (Panic.runtimeError "index out of range"))
    else (vm2, .ok ())

/-- The `switch rtrnType` at the end of `ExecCode`: the value and the error returned for the
word `res` (floats by their bit patterns). -/
def returnValue (rtrnType : ValueType) (res : Nat) : RetVal × Option Err :=
  match rtrnType with
  | ValueType.I32 => (RetVal.u32 (res % 4294967296), none)
  | ValueType.I64 => (RetVal.u64 res, none)
  | ValueType.F32 => (RetVal.f32 (res % 4294967296), none)
  | ValueType.F64 => (RetVal.f64 res, none)
  | ValueType.other v => (RetVal.nil, some (Err.InvalidReturnTypeError (ValueType.other v)))

/-- Go `vm.module.GetFunction(int(fnIndex)).Sig`: a nil-pointer panic when `GetFunction` returns
`nil`. -/
def functionSig (rt : Runtime) (fnIndex : Int) : Step FunctionSig := fun vm =>
  match rt.getFunction vm.module fnIndex with
  | none =>
    (vm, .error (Panic.runtimeError "invalid memory address or nil pointer dereference"))
  | some f => (vm, .ok f.Sig)

/-- The body of `ExecCode` below the deferred `recover`: the value and the error returned,
`none` when the loop did not end within `fuel` turns. -/
def ExecCodeBody (rt : Runtime) (fnIndex : Int) (args : List Nat) (fuel : Nat) :
    Step (Option (RetVal × Option Err)) := fun vm =>
  if (vm.funcs.length : Int) < fnIndex then
    (vm, .ok (some (RetVal.nil, some (Err.InvalidFunctionIndexError fnIndex))))
  else
    (do
      let sig ← functionSig rt fnIndex
      if sig.ParamTypes.length ≠ args.length then
        pure (some (RetVal.nil, some Err.ErrInvalidArgumentCount))
      else do
        let compiled ← compiledAt fnIndex
        setupFrame compiled fnIndex args
        let res ← execCode rt compiled fuel
        match res with
        | none => pure none
        | some r =>
          if compiled.returns then do
            let sig1 ← functionSig rt fnIndex
            match sig1.ReturnTypes.head? with
            | none => Step.panic (Panic.runtimeError "index out of range [0]")
            | some rtrnType => pure (some (returnValue rtrnType r))
          else pure (some (RetVal.nil, none))) vm

/-- The error that the deferred function of `ExecCode` stores for the recovered value: the value
itself when it is an `error`, else `fmt.Errorf("exec: %v", e)`. -/
def recoverErr : Panic → Err
  | Panic.runtimeError msg => Err.other msg
  | Panic.value msg => Err.other ("exec: " ++ msg)

/-- Go `(*VMInterpreter).ExecCode(fnIndex, args...)`, the loop run for at most `fuel` turns: the
instance after the call and either the panic that leaves the call (when `RecoverPanic` is not
set) or the pair of the value and the error returned (`none` when the turns ran out). -/
def ExecCode (rt : Runtime) (vm : VMInterpreter) (fnIndex : Int) (args : List Nat)
    (fuel : Nat) : VMInterpreter × Except Panic (Option (RetVal × Option Err)) :=
  match ExecCodeBody rt fnIndex args fuel vm with
  | (vm1, .error p) =>
    if vm.RecoverPanic then (vm1, .ok (some (RetVal.nil, some (recoverErr p))))
    else (vm1, .error p)
  | (vm1, .ok r) => (vm1, .ok r)

/-- A runtime for the examples: the table holds `i32.const` (0x41), `i64.const` (0x42) and
`i32.add` (0x6a) at their opcodes of the Wasm binary format, every other entry is empty. -/
def exampleRuntime : Runtime :=
  { funcTable := fun op =>
      if op = 65 then some (i32Const {})
      else if op = 66 then some (i64Const {})
      else if op = 106 then some (i32Add {})
      else none }

/-- The function of the examples that returns 42: `i32.const 42`. -/
def fct1 : compiledFunction :=
  { code := [65, 42, 0, 0, 0], maxDepth := 1, returns := true }

/-- The function of the examples that returns the sum of 40 and 6: `i32.const 40`,
`i32.const 6`, `i32.add`. -/
def fct2 : compiledFunction :=
  { code := [65, 40, 0, 0, 0, 65, 6, 0, 0, 0, 106], maxDepth := 2, returns := true }

/-- The function of the examples without a result: an empty body. -/
def fct3 : compiledFunction := { code := [], maxDepth := 0, returns := false }

/-- The function of the examples that returns `2 ^ 32 + 7` as an `i64`: `i64.const`. -/
def fct4 : compiledFunction :=
  { code := [66, 7, 0, 0, 0, 1, 0, 0, 0], maxDepth := 1, returns := true }

/-- An instance with the functions `fct1`, `fct2`, `fct3`, `fct4` and a last function, with the
code of `fct1`, whose declared return type is the unknown value 5. -/
def exampleVM : VMInterpreter :=
  { demoVM with
    module := { FunctionIndexSpace :=
      [{ Sig := { ReturnTypes := [ValueType.I32] } },
       { Sig := { ReturnTypes := [ValueType.I32] } },
       { Sig := {} },
       { Sig := { ReturnTypes := [ValueType.I64] } },
       { Sig := { ReturnTypes := [ValueType.other 5] } }] }
    funcs := [function.compiled fct1, function.compiled fct2, function.compiled fct3,
      function.compiled fct4, function.compiled fct1] }

/-- The instance `exampleVM` while function `fnIndex` with the code `code` runs: the frame with
the given stack, spare cells and `pc`, and no locals. -/
def exampleFrame (fnIndex : Int) (code : List Byte) (stack spare : List Nat) (pc : Int) :
    VMInterpreter :=
  { exampleVM with
    ctx := { stack := stack, stackSpare := spare, locals := [], code := code, pc := pc,
             curFunc := fnIndex } }

/-! ## `vm.go`: floats on the stack, by their bit patterns -/

/-- Go `vm.pushFloat32(f)`, the `float32` given by its bit pattern `math.Float32bits(f)`. -/
def pushFloat32 (rt : Runtime) (bits : Nat) : Step Unit := pushUint32 rt bits

/-- Go `vm.popFloat32()`, the result given by its bit pattern: `math.Float32frombits` of the
word `vm.popUint32()`. -/
def popFloat32 : Step Nat := popUint32

/-- Go `vm.pushFloat64(f)`, the `float64` given by its bit pattern `math.Float64bits(f)`. -/
def pushFloat64 (rt : Runtime) (bits : Nat) : Step Unit := pushUint64 rt bits

/-- Go `vm.popFloat64()`, the result given by its bit pattern: `math.Float64frombits` of the
word `vm.popUint64()`. -/
def popFloat64 : Step Nat := popUint64

/-! ## `num.go`: `copysign` -/

/-- Go `math.Copysign(f, sign)` on bit patterns:
`Float64frombits(Float64bits(f) &^ signBit | Float64bits(sign) & signBit)` with
`signBit = 1 << 63`. -/
def Copysign (f sign : Nat) : Nat :=
  (f &&& (2 ^ 63 - 1)) ||| (sign &&& 2 ^ 63)

/-- Go `(*VMInterpreter).f64Copysign`: `math.Copysign(vm.popFloat64(), vm.popFloat64())`, the
arguments being evaluated from left to right, so that the first word popped is `f`. -/
def f64Copysign (rt : Runtime) : Step Unit := do
  let f ← popFloat64
  let sign ← popFloat64
  pushFloat64 rt (Copysign f sign)

/-! ## `native_resolve.go` -/

/-- Go `wasmType(goType)`, on the kind `goType.Kind()`; the `default` case panics. -/
def wasmType (goType : ReflectKind) : Except Panic ValueType :=
  match goType with
  | ReflectKind.Int32 => .ok ValueType.I32
  | ReflectKind.Int64 => .ok ValueType.I64
  | ReflectKind.Float32 => .ok ValueType.F32
  | ReflectKind.Float64 => .ok ValueType.F32
  | _ => .error (Panic.value "unsupported param type")

/-- The loops `wvt[i] = wasmType(...)` of `funcArgTypes` and `funcReturnTypes`: the kinds are
mapped one after the other, and the first panic ends the loop. -/
def wasmTypes : List ReflectKind → Except Panic (List ValueType)
  | [] => .ok []
  | k :: ks =>
    match wasmType k with
    | .error p => .error p
    | .ok t =>
      match wasmTypes ks with
      | .error p => .error p
      | .ok ts => .ok (t :: ts)

/-- Go `funcArgTypes(f)` on `t = reflect.TypeOf(f)`: `make([]wasm.ValueType, n-1)` panics for a
function without parameters, and the loop starts at the second parameter. -/
def funcArgTypes (t : FuncType) : Except Panic (List ValueType) :=
  if t.ins.length = 0 then .error (Panic.runtimeError "makeslice: len out of range")
  else wasmTypes (t.ins.drop 1)

/-- Go `funcReturnTypes(f)` on `t = reflect.TypeOf(f)`. -/
def funcReturnTypes (t : FuncType) : Except Panic (List ValueType) :=
  wasmTypes t.outs

/-- Go `reflect.TypeOf(method)` for the four host functions, read off their declarations:
`Malloc(proc *Process, size int32) int32`, `Memcpy(proc *Process, dest, src, size int32) int32`,
`GetState(proc *Process, keyStart, keyLen int32) int32` and
`SetState(proc *Process, keyStart, keyLen, valStart, valLen int32)`. -/
def HostFunc.typ : HostFunc → FuncType
  | HostFunc.Malloc =>
    { ins := [ReflectKind.Ptr, ReflectKind.Int32], outs := [ReflectKind.Int32] }
  | HostFunc.Memcpy =>
    { ins := [ReflectKind.Ptr, ReflectKind.Int32, ReflectKind.Int32, ReflectKind.Int32],
      outs := [ReflectKind.Int32] }
  | HostFunc.GetState =>
    { ins := [ReflectKind.Ptr, ReflectKind.Int32, ReflectKind.Int32],
      outs := [ReflectKind.Int32] }
  | HostFunc.SetState =>
    { ins := [ReflectKind.Ptr, ReflectKind.Int32, ReflectKind.Int32, ReflectKind.Int32,
              ReflectKind.Int32],
      outs := [] }

/-- Go map assignment `m[k] = v` on a map kept as an association list with distinct keys. -/
def mapSet {β : Type} (m : List (String × β)) (k : String) (v : β) : List (String × β) :=
  (k, v) :: m.filter (fun e => e.1 != k)

/-- Go `appendFunc(m, methodName, method)`: the module after the call; the accesses to
`m.Types.Entries` and `m.Export.Entries` panic on a `nil` section. -/
def appendFunc (m : Module) (methodName : String) (method : HostFunc) : Except Panic Module :=
  match m.Types with
  | none => .error (Panic.runtimeError "invalid memory address or nil pointer dereference")
  | some types =>
    let index := types.length
    match funcArgTypes method.typ with
    | .error p => .error p
    | .ok params =>
      match funcReturnTypes method.typ with
      | .error p => .error p
      | .ok returns =>
        let funcSig : FunctionSig := { ParamTypes := params, ReturnTypes := returns }
        let types1 := types ++ [funcSig]
        let funcBody : Function := { Sig := funcSig, Host := some method }
        let funcExport : ExportEntry :=
          { FieldStr := methodName, Kind := External.Function, Index := index % 4294967296 }
        match m.Export with
        | none =>
          .error (Panic.runtimeError "invalid memory address or nil pointer dereference")
        | some entries =>
          .ok { m with Types := some types1
                       FunctionIndexSpace := m.FunctionIndexSpace ++ [funcBody]
                       Export := some (mapSet entries methodName funcExport) }

/-- Go `initEnvModule()`, given the module `newModule` that `wasm.NewModule()` returns. -/
def initEnvModule (newModule : Module) : Except Panic Module :=
  let envModule : Module :=
    { newModule with Types := some [], FunctionIndexSpace := [], Export := some [] }
  match appendFunc envModule "malloc" HostFunc.Malloc with
  | .error p => .error p
  | .ok m1 =>
    match appendFunc m1 "memcpy" HostFunc.Memcpy with
    | .error p => .error p
    | .ok m2 =>
      match appendFunc m2 "get_state" HostFunc.GetState with
      | .error p => .error p
      | .ok m3 => appendFunc m3 "set_state" HostFunc.SetState

/-- The package variable `nativeExporter` after `init()`. -/
def nativeExporter (newModule : Module) : Except Panic (List (String × Module)) :=
  match initEnvModule newModule with
  | .error p => .error p
  | .ok env => .ok (mapSet [] "env" env)

/-- Go `NativeResolve(name)`, on the map `nativeExporter`. -/
def NativeResolve (exporter : List (String × Module)) (name : String) : Except Err Module :=
  match exporter.lookup name with
  | none => .error (Err.other ("Unknown import " ++ name ++ ". "))
  | some m => .ok m

/-- The module that `initEnvModule` builds from the module `newModule` of `wasm.NewModule()`,
written out. -/
def envModule (newModule : Module) : Module :=
  { newModule with
    Types := some
      [{ ParamTypes := [ValueType.I32], ReturnTypes := [ValueType.I32] },
       { ParamTypes := [ValueType.I32, ValueType.I32, ValueType.I32],
         ReturnTypes := [ValueType.I32] },
       { ParamTypes := [ValueType.I32, ValueType.I32], ReturnTypes := [ValueType.I32] },
       { ParamTypes := [ValueType.I32, ValueType.I32, ValueType.I32, ValueType.I32],
         ReturnTypes := [] }]
    FunctionIndexSpace :=
      [{ Sig := { ParamTypes := [ValueType.I32], ReturnTypes := [ValueType.I32] },
         Host := some HostFunc.Malloc },
       { Sig := { ParamTypes := [ValueType.I32, ValueType.I32, ValueType.I32],
                  ReturnTypes := [ValueType.I32] },
         Host := some HostFunc.Memcpy },
       { Sig := { ParamTypes := [ValueType.I32, ValueType.I32], ReturnTypes := [ValueType.I32] },
         Host := some HostFunc.GetState },
       { Sig := { ParamTypes := [ValueType.I32, ValueType.I32, ValueType.I32, ValueType.I32],
                  ReturnTypes := [] },
         Host := some HostFunc.SetState }]
    Export := some
      [("set_state", { FieldStr := "set_state", Kind := External.Function, Index := 3 }),
       ("get_state", { FieldStr := "get_state", Kind := External.Function, Index := 2 }),
       ("memcpy", { FieldStr := "memcpy", Kind := External.Function, Index := 1 }),
       ("malloc", { FieldStr := "malloc", Kind := External.Function, Index := 0 })] }

/-! ## `vm.go`: `initVMMemory`, `resetGlobals`, `Restart`, `Close` -/

/-- Go constant `wasmPageSize`. -/
def wasmPageSize : Nat := 65536

/-- Go `bytes.Split(data, []byte{0})`: the pieces of `data` between its NUL bytes, one more than
there are NUL bytes. -/
def splitNul : List Byte → List (List Byte)
  | [] => [[]]
  | b :: rest =>
    if b = 0 then [] :: splitNul rest
    else
      match splitNul rest with
      | p :: ps => (b :: p) :: ps
      | [] => [[b]]

/-- The loop `for _, tmp := range splited` of `initVMMemory`: one entry of `MemPoints` per piece,
at `uint64(tmpoffset)`, of length `len(tmp) + 1`, a later entry replacing an earlier one at the
same key. -/
def registerStrings (points : List (Nat × TypeLength)) (tmpoffset : Int) :
    List (List Byte) → List (Nat × TypeLength)
  | [] => points
  | tmp :: rest =>
    registerStrings
      ((toUint64 tmpoffset, { Ptype := PType.PString, Length := (tmp.length : Int) + 1 })
        :: points)
      (tmpoffset + (tmp.length : Int) + 1) rest

/-- The loop over `module.Data.Entries` of `initVMMemory`, on the map `points` and the sum
`tmpIdx` so far: the map and the sum after the last entry, or the error returned. -/
def initData (rt : Runtime) (module : Module) (points : List (Nat × TypeLength)) (tmpIdx : Int) :
    List DataSegment → Except Err (List (Nat × TypeLength) × Int)
  | [] => .ok (points, tmpIdx)
  | entry :: rest =>
    if entry.Index ≠ 0 then .error (Err.other "invalid data index")
    else
      match rt.execInitExpr module entry.Offset with
      | .error e => .error e
      | .ok (InitVal.i32 offset) =>
        let tmpIdx1 := tmpIdx + offset + (entry.Data.length : Int)
        if (0 : Nat) ∈ entry.Data then
          initData rt module (registerStrings points offset (splitNul entry.Data)) tmpIdx1 rest
        else
          initData rt module
            ((toUint64 offset,
                { Ptype := PType.PString, Length := (entry.Data.length : Int) }) :: points)
            tmpIdx1 rest
      | .ok _ => .error (Err.other "invalid data index")

/-- Go `initVMMemory(module)`: the memory created, or the error returned, or the panic of
`module.LinearMemoryIndexSpace[0]` on an empty index space. -/
def initVMMemory (rt : Runtime) (module : Module) : Except Panic (Except Err VMmemory) :=
  let declared : Except Panic (Except Err (Option (List Byte))) :=
    match module.Memory with
    | none => .ok (.ok none)
    | some entries =>
      match entries with
      | [] => .ok (.ok none)
      | first :: more =>
        if more ≠ [] then .ok (.error Err.ErrMultipleLinearMemories)
        else
          match module.LinearMemoryIndexSpace with
          | [] => .error (Panic.runtimeError "index out of range [0]")
          | init :: _ =>
            .ok (.ok (some (copy (List.replicate (first.Initial * wasmPageSize) 0) init)))
  match declared with
  | .error p => .error p
  | .ok (.error e) => .ok (.error e)
  | .ok (.ok mem) =>
    let ByteMem : List Byte :=
      match mem with
      | none => List.replicate (1 * wasmPageSize) 0
      | some m => m
    match module.Data with
    | some entries =>
      match initData rt module [] 0 entries with
      | .error e => .ok (.error e)
      | .ok (points, tmpIdx) =>
        .ok (.ok { ByteMem := ByteMem, MemPoints := points, AllocedMemIdex := tmpIdx,
                   PointedMemIndex := Int.tdiv ((ByteMem.length : Int) + tmpIdx) 2 })
    | none =>
      .ok (.ok { ByteMem := ByteMem, MemPoints := [], AllocedMemIdex := -1,
                 PointedMemIndex := Int.tdiv (ByteMem.length : Int) 2 })

/-- Go `(*VMInterpreter).Close`: the instance after the call and the error returned. -/
def Close (rt : Runtime) (vm : VMInterpreter) : VMInterpreter × Option Err :=
  let vm1 : VMInterpreter := { vm with abort := true }
  match rt.nativeBackendClose with
  | none => (vm1, none)
  | some err => (vm1, err)

/-- A function of two parameters and one more local, with an empty body. -/
def fctLocals : compiledFunction :=
  { code := [], maxDepth := 1, totalLocalVars := 3, args := 2 }

/-- An instance with the one function `fctLocals`, whose context still holds what an earlier run
left: three words on the stack, four locals, a code and a `pc`. -/
def entryVM : VMInterpreter :=
  { demoVM with
    module := { FunctionIndexSpace :=
      [{ Sig := { ParamTypes := [ValueType.I32, ValueType.I32] } }] }
    funcs := [function.compiled fctLocals]
    ctx := { stack := [9, 9, 9], stackSpare := [], locals := [5, 5, 5, 5], code := [1, 2, 3],
             pc := 7, curFunc := 4 } }

/-- The instance `entryVM` at the entry of `fctLocals` with the arguments 40 and 6. -/
def entryState : VMInterpreter :=
  { entryVM with
    ctx := { stack := [], stackSpare := [9, 9, 9], locals := [40, 6, 0], code := [], pc := 0,
             curFunc := 0 } }

/-- A function whose code is one `BrTable` with the immediate 0, and whose branch table 0 has
the targets `{addr 100, discard 1, preserveTop}` and `{return}` and the default target
`{addr 200, discard 2}`. -/
def fctBr : compiledFunction :=
  { code := [14, 0, 0, 0, 0, 0, 0, 0, 0]
    branchTables :=
      [{ Targets := [{ Addr := 100, Discard := 1, PreserveTop := true }, { Return := true }]
         DefaultTarget := { Addr := 200, Discard := 2 } }]
    maxDepth := 4 }

/-- An instance running `fctBr`, with the given stack, spare cells and `pc`. -/
def brFrame (stack spare : List Nat) (pc : Int) : VMInterpreter :=
  { demoVM with
    funcs := [function.compiled fctBr]
    ctx := { stack := stack, stackSpare := spare, locals := [], code := fctBr.code, pc := pc,
             curFunc := 0 } }

/-- A runtime built with `debugStackDepth`, whose table holds `i32.const` (0x41). -/
def debugRuntime : Runtime :=
  { debugStackDepth := true
    funcTable := fun op =>
      if op = 65 then some (i32Const { debugStackDepth := true }) else none }

/-- A function with the declared depth `maxDepth = 0` whose code pushes two words:
`i32.const 1`, `i32.const 2`. -/
def fctShallow : compiledFunction :=
  { code := [65, 1, 0, 0, 0, 65, 2, 0, 0, 0], maxDepth := 0, returns := true }

/-- An instance with the one function `fctShallow`, with the given stack, spare cells, code and
`pc`. -/
def shallowFrame (stack spare : List Nat) (code : List Byte) (pc : Int) : VMInterpreter :=
  { demoVM with
    module := { FunctionIndexSpace := [{ Sig := { ReturnTypes := [ValueType.I32] } }] }
    funcs := [function.compiled fctShallow]
    ctx := { stack := stack, stackSpare := spare, locals := [], code := code, pc := pc,
             curFunc := 0 } }

/-! ## Data segments -/

/-- The end `offset + len(data)` of a data segment, `offset` being the `int32` value of its
initializer expression (0 when the expression has no such value). -/
def segmentEnd (rt : Runtime) (module : Module) (entry : DataSegment) : Int :=
  match rt.execInitExpr module entry.Offset with
  | .ok (InitVal.i32 offset) => offset + (entry.Data.length : Int)
  | _ => 0

/-- The start `offset` of a data segment, the `int32` value of its initializer expression (0 when
the expression has no such value). -/
def segmentOffset (rt : Runtime) (module : Module) (entry : DataSegment) : Int :=
  match rt.execInitExpr module entry.Offset with
  | .ok (InitVal.i32 offset) => offset
  | _ => 0

/-- A runtime for the examples with data: the initializer expression `i32.const n; end` of one
immediate byte `n < 64` (the bytes `0x41, n, 0x0b`) has the value `n`. -/
def dataRuntime : Runtime :=
  { execInitExpr := fun _ e =>
      match e with
      | [65, n, 11] => .ok (InitVal.i32 (n : Int))
      | _ => .error (Err.other "unsupported initializer expression") }

/-- A module without memory section and with two data segments: two bytes at offset 0 and two
bytes at offset 16. -/
def twoSegments : Module :=
  { Data := some [{ Index := 0, Offset := [65, 0, 11], Data := [1, 2] },
                  { Index := 0, Offset := [65, 16, 11], Data := [3, 4] }] }

/-- A module without memory section and with one data segment at offset 16, the blob `a\0`. -/
def nulSegment : Module :=
  { Data := some [{ Index := 0, Offset := [65, 16, 11], Data := [97, 0] }] }

/-- The memory that `initVMMemory` makes for `twoSegments`: one page, the marks 20 and
`(65536 + 20) / 2`, and one string entry per segment. -/
def twoSegmentsMem : VMmemory :=
  { ByteMem := List.replicate 65536 0
    MemPoints := [(16, { Ptype := PType.PString, Length := 2 }),
                  (0, { Ptype := PType.PString, Length := 2 })]
    AllocedMemIdex := 20
    PointedMemIndex := 32778 }

/-- The memory that `initVMMemory` makes for `nulSegment`: one page, and the two string entries
of the blob `a\0`. -/
def nulSegmentMem : VMmemory :=
  { ByteMem := List.replicate 65536 0
    MemPoints := [(18, { Ptype := PType.PString, Length := 1 }),
                  (16, { Ptype := PType.PString, Length := 2 })]
    AllocedMemIdex := 18
    PointedMemIndex := 32777 }

/-! ## `vm_context.go`: the chain context of a transaction -/

/-- The fields of `types.TxData` that `NewWasmChainContext` reads: `From` is the address that the
pointer `tx.Data.From` points to (as `Origin` is in `WasmChainContext`), `Price` is the
`*big.Int`, `none` for `nil`. -/
structure TxData where
  From : Address
  Price : Option Int

/-- The field of `types.Transaction` that `NewWasmChainContext` reads. -/
structure Transaction where
  Data : TxData

/-- The fields of `types.Header` that `NewWasmChainContext` reads, both `uint64`. -/
structure Header where
  Height : Nat
  Timestamp : Nat

/-- Go `NewWasmChainContext(tx, header, chain, author)`, with `hexToAddress` for
`util.HexToAddress`; `tx` and `header` are pointers, `none` for `nil`.  The composite literal
dereferences `tx`, then `tx.Data.Price` (in `big.Int.Set`), then `header`: a nil pointer is a
run-time panic.  The parameter `chain` is not used. -/
def NewWasmChainContext (hexToAddress : String → Address) (tx : Option Transaction)
    (header : Option Header) (_chain : Option Repository) (author : Address) :
    Except Panic WasmChainContext :=
  let beneficiary := author
  let beneficiary :=
    if beneficiary = author then hexToAddress "0x0000000000000000000000000000000000000000"
    else beneficiary
  match tx with
  | none => .error (Panic.runtimeError "invalid memory address or nil pointer dereference")
  | some t =>
    match t.Data.Price with
    | none => .error (Panic.runtimeError "invalid memory address or nil pointer dereference")
    | some price =>
      match header with
      | none => .error (Panic.runtimeError "invalid memory address or nil pointer dereference")
      | some h =>
        .ok { Origin := t.Data.From
              GasPrice := price
              Coinbase := beneficiary
              GasLimit := 9223372036854775807
              BlockNumber := (h.Height : Int)
              Time := (h.Timestamp : Int) }

/-! ## `num.go`: the other `i32` operators -/

/-- Go `bits.Len32(x)`: the number of bits needed to write `x`, 0 for `x = 0`. -/
def Len32 (x : Nat) : Nat := if x = 0 then 0 else Nat.log2 x + 1

/-- Go `bits.LeadingZeros32(x)`: `32 - Len32(x)`. -/
def LeadingZeros32 (x : Nat) : Nat := 32 - Len32 x

/-- Go `bits.TrailingZeros32(x)`: the number of zero bits below the lowest set bit, 32 for
`x = 0`. -/
def TrailingZeros32 (x : Nat) : Nat :=
  if x = 0 then 32 else ((List.range 32).find? (fun i => x.testBit i)).getD 32

/-- Go `bits.OnesCount32(x)`: the number of set bits. -/
def OnesCount32 (x : Nat) : Nat := ((List.range 32).filter (fun i => x.testBit i)).length

def i32Clz (rt : Runtime) : Step Unit := do
  let v ← popUint32
  pushUint64 rt (LeadingZeros32 v)

def i32Ctz (rt : Runtime) : Step Unit := do
  let v ← popUint32
  pushUint64 rt (TrailingZeros32 v)

def i32Popcnt (rt : Runtime) : Step Unit := do
  let v ← popUint32
  pushUint64 rt (OnesCount32 v)

def i32And (rt : Runtime) : Step Unit := do
  let a ← popUint32
  let b ← popUint32
  pushUint32 rt (a &&& b)

def i32Or (rt : Runtime) : Step Unit := do
  let a ← popUint32
  let b ← popUint32
  pushUint32 rt (a ||| b)

def i32Xor (rt : Runtime) : Step Unit := do
  let a ← popUint32
  let b ← popUint32
  pushUint32 rt (a ^^^ b)

def i32LeS (rt : Runtime) : Step Unit := do
  let v2 ← popInt32
  let v1 ← popInt32
  pushBool rt (decide (v1 ≤ v2))

def i32LeU (rt : Runtime) : Step Unit := do
  let v2 ← popUint32
  let v1 ← popUint32
  pushBool rt (decide (v1 ≤ v2))

def i32LtS (rt : Runtime) : Step Unit := do
  let v2 ← popInt32
  let v1 ← popInt32
  pushBool rt (decide (v1 < v2))

def i32LtU (rt : Runtime) : Step Unit := do
  let v2 ← popUint32
  let v1 ← popUint32
  pushBool rt (decide (v1 < v2))

def i32GtS (rt : Runtime) : Step Unit := do
  let v2 ← popInt32
  let v1 ← popInt32
  pushBool rt (decide (v1 > v2))

def i32GeS (rt : Runtime) : Step Unit := do
  let v2 ← popInt32
  let v1 ← popInt32
  pushBool rt (decide (v1 ≥ v2))

def i32GtU (rt : Runtime) : Step Unit := do
  let v2 ← popUint32
  let v1 ← popUint32
  pushBool rt (decide (v1 > v2))

def i32GeU (rt : Runtime) : Step Unit := do
  let v2 ← popUint32
  let v1 ← popUint32
  pushBool rt (decide (v1 ≥ v2))

def i32Eqz (rt : Runtime) : Step Unit := do
  let v ← popUint32
  pushBool rt (decide (v = 0))

def i32Eq (rt : Runtime) : Step Unit := do
  let a ← popUint32
  let b ← popUint32
  pushBool rt (decide (a = b))

def i32Ne (rt : Runtime) : Step Unit := do
  let a ← popUint32
  let b ← popUint32
  pushBool rt (decide (a ≠ b))

/-- Go `points[key]` on the map `MemPoints`, kept as the list of its assignments, the latest
first: the value last assigned to `key`, `none` when the map has no such key. -/
def pointAt (points : List (Nat × TypeLength)) (key : Nat) : Option TypeLength :=
  match points with
  | [] => none
  | (k, v) :: rest => if k = key then some v else pointAt rest key

/-- The assignments to `MemPoints` in one turn of the loop over `module.Data.Entries` of
`initVMMemory`, the latest first: one per piece of `bytes.Split` for a blob with a NUL, else
one for the whole blob (none when the offset is not an `int32` value, where the loop returns
an error). -/
def segmentPoints (rt : Runtime) (module : Module) (entry : DataSegment) :
    List (Nat × TypeLength) :=
  match rt.execInitExpr module entry.Offset with
  | .ok (InitVal.i32 offset) =>
    if (0 : Nat) ∈ entry.Data then registerStrings [] offset (splitNul entry.Data)
    else [(toUint64 offset, { Ptype := PType.PString, Length := (entry.Data.length : Int) })]
  | _ => []

/-- The assignments to `MemPoints` of the loop over a list of data segments, the latest first:
those of the last segment, then those of the segment before it, and so on. -/
def dataPoints (rt : Runtime) (module : Module) (entries : List DataSegment) :
    List (Nat × TypeLength) :=
  (entries.reverse.map (segmentPoints rt module)).flatten

/-- A module with the blob `a\0` at offset 16 and, directly after it, the blob `b\0` at
offset 18. -/
def twoBlobs : Module :=
  { Data := some [{ Index := 0, Offset := [65, 16, 11], Data := [97, 0] },
                  { Index := 0, Offset := [65, 18, 11], Data := [98, 0] }] }

/-- The memory that `initVMMemory` makes for `twoBlobs`: the assignments of the second blob in
front of those of the first. -/
def twoBlobsMem : VMmemory :=
  { ByteMem := List.replicate 65536 0
    MemPoints := [(20, { Ptype := PType.PString, Length := 1 }),
                  (18, { Ptype := PType.PString, Length := 2 }),
                  (18, { Ptype := PType.PString, Length := 1 }),
                  (16, { Ptype := PType.PString, Length := 2 })]
    AllocedMemIdex := 38
    PointedMemIndex := 32787 }

/-! # Theorems -/

/-! ## Lemmas on slices -/

theorem toInt32_of_range (x : Int) (h0 : -2147483648 ≤ x) (h1 : x < 2147483648) :
    toInt32 x = x := by
  unfold toInt32
  omega

theorem slice_eq_some (s : List Byte) (lo hi : Int) (h0 : 0 ≤ lo) (h1 : lo ≤ hi)
    (h2 : hi ≤ (s.length : Int)) :
    slice s lo hi = some ((s.drop lo.toNat).take (hi - lo).toNat) := by
  unfold slice
  rw [if_pos ⟨h0, h1, h2⟩]

theorem slice_length (s d : List Byte) (lo hi : Int) (h : slice s lo hi = some d) :
    (d.length : Int) = hi - lo ∧ 0 ≤ lo ∧ lo ≤ hi ∧ hi ≤ (s.length : Int) := by
  unfold slice at h
  split at h
  · rename_i hc
    obtain ⟨h0, h1, h2⟩ := hc
    injection h with h
    subst h
    refine ⟨?_, h0, h1, h2⟩
    rw [List.length_take, List.length_drop]
    omega
  · exact absurd h (by simp)

theorem splice_length (s : List Byte) (lo : Nat) (src : List Byte)
    (h : lo + src.length ≤ s.length) : (splice s lo src).length = s.length := by
  unfold splice
  simp only [List.length_append, List.length_take, List.length_drop]
  omega

theorem splice_get_inside (s : List Byte) (lo : Nat) (src : List Byte) (h : lo ≤ s.length)
    (i : Nat) (hi : i < src.length) : (splice s lo src)[lo + i]? = src[i]? := by
  unfold splice
  have hl : (s.take lo).length = lo := by rw [List.length_take]; omega
  rw [List.append_assoc, List.getElem?_append_right (by omega)]
  rw [hl, Nat.add_sub_cancel_left, List.getElem?_append_left hi]

theorem splice_get_outside (s : List Byte) (lo : Nat) (src : List Byte)
    (h : lo + src.length ≤ s.length) (j : Nat) (hj : j < lo ∨ lo + src.length ≤ j) :
    (splice s lo src)[j]? = s[j]? := by
  unfold splice
  have hl : (s.take lo).length = lo := by rw [List.length_take]; omega
  rcases hj with hj | hj
  · rw [List.append_assoc, List.getElem?_append_left (by omega)]
    rw [List.getElem?_take_of_lt hj]
  · rw [List.getElem?_append_right (by rw [List.length_append]; omega)]
    rw [List.length_append, hl, List.getElem?_drop]
    congr 1
    omega

theorem copyInto_eq (s src : List Byte) (lo hi : Int) (h0 : 0 ≤ lo) (h1 : lo ≤ hi)
    (h2 : hi ≤ (s.length : Int)) :
    copyInto s lo hi src
      = some (splice s lo.toNat (src.take (min (hi - lo).toNat src.length))) := by
  unfold copyInto
  rw [slice_eq_some s lo hi h0 h1 h2]
  simp only [copy, splice]
  congr 1
  have hlen : ((s.drop lo.toNat).take (hi - lo).toNat).length = (hi - lo).toNat := by
    rw [List.length_take, List.length_drop]; omega
  rw [hlen]
  have hk : (List.take (min (hi - lo).toNat src.length) src).length
      = min (hi - lo).toNat src.length := by
    rw [List.length_take]; omega
  rw [hk]
  simp only [List.append_assoc]
  refine congrArg _ (congrArg _ ?_)
  rw [List.drop_take]
  have e1 : List.drop hi.toNat s
      = List.drop ((hi - lo).toNat - min (hi - lo).toNat src.length)
          (List.drop (min (hi - lo).toNat src.length) (List.drop lo.toNat s)) := by
    simp only [List.drop_drop]
    congr 1
    omega
  have e2 : List.drop (lo.toNat + min (hi - lo).toNat src.length) s
      = List.drop (min (hi - lo).toNat src.length) (List.drop lo.toNat s) := by
    simp only [List.drop_drop]
  rw [e1, e2, List.take_append_drop]

/-! ## The memory bridge: `ReadAt` and `WriteAt` inside the memory -/

theorem clip_length (m q : Nat) (off : Int) :
    (if (m : Int) < (q : Int) + off then (m : Int) - off else (q : Int))
      = min (q : Int) ((m : Int) - off) := by
  rw [min_def]
  split <;> split <;> omega

/-- C9: for an offset inside the memory (`0 ≤ off ≤ len(mem)`) `WriteAt(p, off)` returns the count
`n = min(len(p), len(mem) - off)`, the memory keeps its length, holds `p[i]` at `off + i` for
every `i < n` and is unchanged at every other index, and the error is `ErrShortWrite` exactly
when `n < len(p)`, `nil` otherwise. -/
theorem WriteAt_clips_at_end (proc : Process) (p : List Byte) (off : Int)
    (h0 : 0 ≤ off) (h1 : off ≤ (proc.vm.Mem.ByteMem.length : Int)) :
    ∃ proc1 : Process,
      proc.WriteAt p off
        = some (proc1, min (p.length : Int) ((proc.vm.Mem.ByteMem.length : Int) - off),
            if min (p.length : Int) ((proc.vm.Mem.ByteMem.length : Int) - off) < (p.length : Int)
            then some Err.ErrShortWrite else none) ∧
      proc1.vm.Mem.ByteMem.length = proc.vm.Mem.ByteMem.length ∧
      (∀ i : Nat, (i : Int) < min (p.length : Int) ((proc.vm.Mem.ByteMem.length : Int) - off) →
        proc1.vm.Mem.ByteMem[off.toNat + i]? = p[i]?) ∧
      (∀ j : Nat, ((j : Int) < off ∨
          off + min (p.length : Int) ((proc.vm.Mem.ByteMem.length : Int) - off) ≤ (j : Int)) →
        proc1.vm.Mem.ByteMem[j]? = proc.vm.Mem.ByteMem[j]?) := by
  obtain ⟨n, hn⟩ : ∃ n : Int, n = min (p.length : Int) ((proc.vm.Mem.ByteMem.length : Int) - off) :=
    ⟨_, rfl⟩
  have hn0 : 0 ≤ n := by rw [hn, min_def]; split <;> omega
  have hnp : n ≤ (p.length : Int) := by rw [hn]; exact min_le_left _ _
  have hnm : off + n ≤ (proc.vm.Mem.ByteMem.length : Int) := by
    rw [hn, min_def]; split <;> omega
  have hq : ((p.drop (0 : Int).toNat).take (n - 0).toNat).length = n.toNat := by
    rw [List.length_take, List.length_drop]
    simp only [Int.toNat_zero, Nat.sub_zero, sub_zero]
    omega
  have hfull : (List.take
      (min ((proc.vm.Mem.ByteMem.length : Int) - off).toNat
        ((p.drop (0 : Int).toNat).take (n - 0).toNat).length)
      ((p.drop (0 : Int).toNat).take (n - 0).toNat))
      = p.take n.toNat := by
    rw [hq]
    simp only [Int.toNat_zero, List.drop_zero, sub_zero, List.take_take]
    congr 1
    omega
  have hw : proc.WriteAt p off
      = some ({ proc with vm := { proc.vm with Mem := { proc.vm.Mem with
                  ByteMem := splice proc.vm.Mem.ByteMem off.toNat (p.take n.toNat) } } },
              n, if n < (p.length : Int) then some Err.ErrShortWrite else none) := by
    simp only [Process.WriteAt, clip_length, ← hn]
    rw [slice_eq_some _ off _ h0 h1 le_rfl, slice_eq_some p 0 n le_rfl hn0 hnp]
    simp only []
    rw [copyInto_eq _ _ off _ h0 h1 le_rfl, hfull]
  have hpl : (p.take n.toNat).length = n.toNat := by
    rw [List.length_take]; omega
  refine ⟨_, by rw [← hn]; exact hw, ?_, ?_, ?_⟩
  · exact splice_length _ _ _ (by rw [hpl]; omega)
  · intro i hi
    rw [← hn] at hi
    show (splice proc.vm.Mem.ByteMem off.toNat (p.take n.toNat))[off.toNat + i]? = p[i]?
    rw [splice_get_inside _ _ _ (by omega) i (by rw [hpl]; omega)]
    exact List.getElem?_take_of_lt (by omega)
  · intro j hj
    rw [← hn] at hj
    exact splice_get_outside _ _ _ (by rw [hpl]; omega) j (by rw [hpl]; omega)

theorem WriteAt_clips_at_end_witness :
    ∃ proc1 : Process,
      smallMemoryProcess.WriteAt tooBigABuffer 0 = some (proc1, 3, some Err.ErrShortWrite) ∧
      proc1.vm.Mem.ByteMem.length = 3 ∧
      (∀ i : Nat, (i : Int) < 3 → proc1.vm.Mem.ByteMem[(0 : Int).toNat + i]? = tooBigABuffer[i]?) ∧
      (∀ j : Nat, ((j : Int) < 0 ∨ 0 + 3 ≤ (j : Int)) →
        proc1.vm.Mem.ByteMem[j]? = smallMemoryProcess.vm.Mem.ByteMem[j]?) :=
  WriteAt_clips_at_end smallMemoryProcess tooBigABuffer 0 (by decide) (by decide)

/-- C10: for an offset inside the memory (`0 ≤ off ≤ len(mem)`) `ReadAt(p, off)` returns the count
`n = min(len(p), len(mem) - off)`, leaves the process (so the whole memory) as it was, the buffer
keeps its length, holds `mem[off + i]` at every `i < n` and is unchanged at every index `≥ n`, and
the error is `ErrShortBuffer` exactly when `n < len(p)`, `nil` otherwise. -/
theorem ReadAt_clips_at_end (proc : Process) (p : List Byte) (off : Int)
    (h0 : 0 ≤ off) (h1 : off ≤ (proc.vm.Mem.ByteMem.length : Int)) :
    ∃ p1 : List Byte,
      proc.ReadAt p off
        = some (proc, p1, min (p.length : Int) ((proc.vm.Mem.ByteMem.length : Int) - off),
            if min (p.length : Int) ((proc.vm.Mem.ByteMem.length : Int) - off) < (p.length : Int)
            then some Err.ErrShortBuffer else none) ∧
      p1.length = p.length ∧
      (∀ i : Nat, (i : Int) < min (p.length : Int) ((proc.vm.Mem.ByteMem.length : Int) - off) →
        p1[i]? = proc.vm.Mem.ByteMem[off.toNat + i]?) ∧
      (∀ j : Nat, min (p.length : Int) ((proc.vm.Mem.ByteMem.length : Int) - off) ≤ (j : Int) →
        p1[j]? = p[j]?) := by
  obtain ⟨n, hn⟩ : ∃ n : Int, n = min (p.length : Int) ((proc.vm.Mem.ByteMem.length : Int) - off) :=
    ⟨_, rfl⟩
  have hn0 : 0 ≤ n := by rw [hn, min_def]; split <;> omega
  have hnp : n ≤ (p.length : Int) := by rw [hn]; exact min_le_left _ _
  have hnm : off + n ≤ (proc.vm.Mem.ByteMem.length : Int) := by
    rw [hn, min_def]; split <;> omega
  have hs : ((proc.vm.Mem.ByteMem.drop off.toNat).take (off + n - off).toNat).length = n.toNat := by
    rw [List.length_take, List.length_drop]
    omega
  have hr : proc.ReadAt p off
      = some (proc, (proc.vm.Mem.ByteMem.drop off.toNat).take n.toNat ++ p.drop n.toNat,
              n, if n < (p.length : Int) then some Err.ErrShortBuffer else none) := by
    simp only [Process.ReadAt, clip_length, ← hn]
    rw [slice_eq_some _ off _ h0 (by omega) hnm]
    simp only [copy]
    rw [hs]
    have e1 : min p.length n.toNat = n.toNat := by omega
    have e2 : (off + n - off).toNat = n.toNat := by congr 1; omega
    rw [e1, e2, List.take_take, Nat.min_self]
  have hl : ((proc.vm.Mem.ByteMem.drop off.toNat).take n.toNat).length = n.toNat := by
    rw [List.length_take, List.length_drop]
    omega
  refine ⟨_, by rw [← hn]; exact hr, ?_, ?_, ?_⟩
  · rw [List.length_append, hl, List.length_drop]
    omega
  · intro i hi
    rw [← hn] at hi
    rw [List.getElem?_append_left (by rw [hl]; omega),
      List.getElem?_take_of_lt (by omega), List.getElem?_drop]
  · intro j hj
    rw [← hn] at hj
    rw [List.getElem?_append_right (by rw [hl]; omega), hl, List.getElem?_drop]
    congr 1
    omega

theorem ReadAt_clips_at_end_witness :
    ∃ p1 : List Byte,
      smallMemoryProcess.ReadAt tooBigABuffer 1
        = some (smallMemoryProcess, p1, 2, some Err.ErrShortBuffer) ∧
      p1.length = 10 ∧
      (∀ i : Nat, (i : Int) < 2 →
        p1[i]? = smallMemoryProcess.vm.Mem.ByteMem[(1 : Int).toNat + i]?) ∧
      (∀ j : Nat, 2 ≤ (j : Int) → p1[j]? = tooBigABuffer[j]?) :=
  ReadAt_clips_at_end smallMemoryProcess tooBigABuffer 1 (by decide) (by decide)

/-! ## `Memcpy` -/

theorem hugeMem_length : hugeMem.length = 4294967296 := by
  unfold hugeMem
  exact List.length_replicate _ _

theorem bytesCompare_range (a b : List Nat) :
    bytesCompare a b = -1 ∨ bytesCompare a b = 0 ∨ bytesCompare a b = 1 := by
  induction a generalizing b with
  | nil => cases b <;> simp [bytesCompare]
  | cons x xs ih =>
    cases b with
    | nil => simp [bytesCompare]
    | cons y ys =>
      simp only [bytesCompare]
      split
      · simp
      · split
        · simp
        · exact ih ys

theorem bytesCompare_eq_zero (a b : List Nat) : bytesCompare a b = 0 ↔ a = b := by
  induction a generalizing b with
  | nil => cases b <;> simp [bytesCompare]
  | cons x xs ih =>
    cases b with
    | nil => simp [bytesCompare]
    | cons y ys =>
      simp only [bytesCompare]
      split
      · rename_i h
        simp only [List.cons.injEq]
        constructor
        · intro h0; omega
        · rintro ⟨rfl, -⟩; omega
      · split
        · rename_i h1 h2
          simp only [List.cons.injEq]
          constructor
          · intro h0; omega
          · rintro ⟨rfl, -⟩; omega
        · rename_i h1 h2
          have hxy : x = y := by omega
          rw [ih ys, List.cons.injEq]
          constructor
          · intro h; exact ⟨hxy, h⟩
          · intro h; exact h.2

theorem bytesCompare_eq_neg_one (a b : List Nat) : bytesCompare a b = -1 ↔ a < b := by
  induction a generalizing b with
  | nil =>
    cases b with
    | nil =>
      simp only [bytesCompare]
      constructor
      · intro h0; omega
      · intro hlt; cases hlt
    | cons y ys =>
      simp only [bytesCompare, true_iff]
      exact List.Lex.nil
  | cons x xs ih =>
    cases b with
    | nil =>
      simp only [bytesCompare]
      constructor
      · intro h0; omega
      · intro hlt; cases hlt
    | cons y ys =>
      simp only [bytesCompare]
      split
      · rename_i h
        simp only [true_iff]
        exact List.Lex.rel h
      · split
        · rename_i h1 h2
          constructor
          · intro h0; omega
          · intro hlt
            cases hlt with
            | rel h => exact absurd h h1
            | cons h => exact absurd h2 (lt_irrefl _)
        · rename_i h1 h2
          have hxy : x = y := by omega
          subst hxy
          rw [ih ys]
          constructor
          · intro h; exact List.Lex.cons h
          · intro hlt
            cases hlt with
            | rel h => exact absurd h h1
            | cons h => exact h

theorem bytesCompare_swap (a b : List Nat) : bytesCompare b a = -bytesCompare a b := by
  induction a generalizing b with
  | nil => cases b <;> simp [bytesCompare]
  | cons x xs ih =>
    cases b with
    | nil => simp [bytesCompare]
    | cons y ys =>
      simp only [bytesCompare]
      by_cases h1 : x < y
      · have h2 : ¬ y < x := by omega
        simp [h1, h2]
      · by_cases h2 : y < x
        · simp [h1, h2]
        · simp only [h1, h2, if_false]
          exact ih ys

theorem bytesCompare_eq_one (a b : List Nat) : bytesCompare a b = 1 ↔ b < a := by
  rw [← bytesCompare_eq_neg_one, bytesCompare_swap a b]
  omega

theorem Memcpy_eq (proc : Process) (dest src size : Int)
    (hd : 0 ≤ dest) (hs : 0 ≤ src) (hn : 0 ≤ size)
    (hde : dest + size ≤ (proc.vm.Mem.ByteMem.length : Int))
    (hse : src + size ≤ (proc.vm.Mem.ByteMem.length : Int))
    (hd32 : dest + size < 2147483648) (hs32 : src + size < 2147483648) :
    Memcpy proc dest src size
      = some ({ proc with vm := { proc.vm with Mem := { proc.vm.Mem with
                  ByteMem := splice proc.vm.Mem.ByteMem dest.toNat
                    ((proc.vm.Mem.ByteMem.drop src.toNat).take size.toNat) } } },
              bytesCompare ((proc.vm.Mem.ByteMem.drop dest.toNat).take size.toNat)
                ((proc.vm.Mem.ByteMem.drop src.toNat).take size.toNat)) := by
  have e1 : toInt32 (dest + size) = dest + size := toInt32_of_range _ (by omega) hd32
  have e2 : toInt32 (src + size) = src + size := toInt32_of_range _ (by omega) hs32
  have e3 : (dest + size - dest).toNat = size.toNat := by congr 1; omega
  have e4 : (src + size - src).toNat = size.toNat := by congr 1; omega
  have hl : ((proc.vm.Mem.ByteMem.drop src.toNat).take size.toNat).length = size.toNat := by
    rw [List.length_take, List.length_drop]
    omega
  have e5 : toInt32 (bytesCompare ((proc.vm.Mem.ByteMem.drop dest.toNat).take size.toNat)
      ((proc.vm.Mem.ByteMem.drop src.toNat).take size.toNat))
      = bytesCompare ((proc.vm.Mem.ByteMem.drop dest.toNat).take size.toNat)
          ((proc.vm.Mem.ByteMem.drop src.toNat).take size.toNat) := by
    apply toInt32_of_range
    · rcases bytesCompare_range ((proc.vm.Mem.ByteMem.drop dest.toNat).take size.toNat)
        ((proc.vm.Mem.ByteMem.drop src.toNat).take size.toNat) with h | h | h <;> omega
    · rcases bytesCompare_range ((proc.vm.Mem.ByteMem.drop dest.toNat).take size.toNat)
        ((proc.vm.Mem.ByteMem.drop src.toNat).take size.toNat) with h | h | h <;> omega
  simp only [Memcpy, e1, e2]
  rw [slice_eq_some _ dest _ hd (by omega) hde, slice_eq_some _ src _ hs (by omega) hse]
  simp only []
  rw [copyInto_eq _ _ dest _ hd (by omega) hde, e3, e4, hl, Nat.min_self, e5,
    List.take_take, Nat.min_self]

/-- C7 fails as stated: in a memory of `2 ^ 32` bytes the ranges `[2147483647, 2147483648)` and
`[0, 1)` are both inside the memory and `size = 1 ≥ 0`, yet `Memcpy(2147483647, 0, 1)` returns
nothing: the 32-bit sum `dest+size` is `-2147483648`, so the slice expression panics. -/
theorem Memcpy_compare_traps_at_int32_end :
    (0 : Int) ≤ 2147483647 ∧ (0 : Int) ≤ 0 ∧ (0 : Int) ≤ 1 ∧
    (2147483647 : Int) + 1 ≤ (hugeProcess.vm.Mem.ByteMem.length : Int) ∧
    (0 : Int) + 1 ≤ (hugeProcess.vm.Mem.ByteMem.length : Int) ∧
    Memcpy hugeProcess 2147483647 0 1 = none := by
  have hlen : hugeProcess.vm.Mem.ByteMem.length = 4294967296 := hugeMem_length
  refine ⟨by decide, by decide, by decide, by rw [hlen]; decide, by rw [hlen]; decide, ?_⟩
  have h1 : slice hugeProcess.vm.Mem.ByteMem 2147483647 (toInt32 (2147483647 + 1)) = none := by
    unfold slice
    rw [if_neg]
    intro h
    exact absurd h.2.1 (by decide)
  simp only [Memcpy, h1]

/-- C7, amended: for `dest, src, size ≥ 0` with both ranges inside the memory and both end offsets
`dest+size`, `src+size` below `2 ^ 31`, `Memcpy(dest, src, size)` returns the three-way
lexicographic comparison of `mem[dest..dest+size)` with `mem[src..src+size)` as they were before
the call: `-1` when the first is smaller, `0` exactly when they are equal, `1` when it is
greater. -/
theorem Memcpy_returns_compare (proc : Process) (dest src size : Int)
    (hd : 0 ≤ dest) (hs : 0 ≤ src) (hn : 0 ≤ size)
    (hde : dest + size ≤ (proc.vm.Mem.ByteMem.length : Int))
    (hse : src + size ≤ (proc.vm.Mem.ByteMem.length : Int))
    (hd32 : dest + size < 2147483648) (hs32 : src + size < 2147483648) :
    ∃ (proc1 : Process) (r : Int) (d s : List Byte),
      Memcpy proc dest src size = some (proc1, r) ∧
      slice proc.vm.Mem.ByteMem dest (dest + size) = some d ∧
      slice proc.vm.Mem.ByteMem src (src + size) = some s ∧
      (r = -1 ∨ r = 0 ∨ r = 1) ∧
      (r = -1 ↔ d < s) ∧ (r = 0 ↔ d = s) ∧ (r = 1 ↔ s < d) := by
  refine ⟨_, _, _, _, Memcpy_eq proc dest src size hd hs hn hde hse hd32 hs32, ?_, ?_,
    bytesCompare_range _ _, bytesCompare_eq_neg_one _ _, bytesCompare_eq_zero _ _,
    bytesCompare_eq_one _ _⟩
  · rw [slice_eq_some _ dest _ hd (by omega) hde]
    congr 3
    omega
  · rw [slice_eq_some _ src _ hs (by omega) hse]
    congr 3
    omega

theorem Memcpy_returns_compare_witness :
    ∃ (proc1 : Process) (r : Int) (d s : List Byte),
      Memcpy smallMemoryProcess 0 1 2 = some (proc1, r) ∧
      slice smallMemoryProcess.vm.Mem.ByteMem 0 (0 + 2) = some d ∧
      slice smallMemoryProcess.vm.Mem.ByteMem 1 (1 + 2) = some s ∧
      (r = -1 ∨ r = 0 ∨ r = 1) ∧
      (r = -1 ↔ d < s) ∧ (r = 0 ↔ d = s) ∧ (r = 1 ↔ s < d) :=
  Memcpy_returns_compare smallMemoryProcess 0 1 2 (by decide) (by decide) (by decide)
    (by decide) (by decide) (by decide) (by decide)

theorem Memcpy_src_panics (proc : Process) (dest src size : Int)
    (h : slice proc.vm.Mem.ByteMem src (toInt32 (src + size)) = none) :
    Memcpy proc dest src size = none := by
  simp only [Memcpy, h]
  split
  · rename_i h1
    cases h1
  · rfl

/-- C8 fails as stated: in a memory of `2 ^ 32` bytes the ranges `[0, 1)` and
`[2147483647, 2147483648)` are in range and `size = 1 ≥ 0`, yet `Memcpy(0, 2147483647, 1)` leaves
no memory behind: the 32-bit sum `src+size` is `-2147483648`, so the slice expression panics. -/
theorem Memcpy_effect_traps_at_int32_end :
    (0 : Int) ≤ 0 ∧ (0 : Int) ≤ 2147483647 ∧ (0 : Int) ≤ 1 ∧
    (0 : Int) + 1 ≤ (hugeProcess.vm.Mem.ByteMem.length : Int) ∧
    (2147483647 : Int) + 1 ≤ (hugeProcess.vm.Mem.ByteMem.length : Int) ∧
    Memcpy hugeProcess 0 2147483647 1 = none := by
  have hlen : hugeProcess.vm.Mem.ByteMem.length = 4294967296 := hugeMem_length
  refine ⟨by decide, by decide, by decide, by rw [hlen]; decide, by rw [hlen]; decide, ?_⟩
  have h1 : slice hugeProcess.vm.Mem.ByteMem 2147483647 (toInt32 (2147483647 + 1)) = none := by
    unfold slice
    rw [if_neg]
    intro h
    exact absurd h.2.1 (by decide)
  exact Memcpy_src_panics hugeProcess 0 2147483647 1 h1

/-- C8, amended: for `dest, src, size ≥ 0` with both ranges inside the memory and both end offsets
`dest+size`, `src+size` below `2 ^ 31`, after `Memcpy(dest, src, size)` the memory has the length
it had, `mem[dest + i]` holds what `mem[src + i]` held before the call for every `i < size`
(overlapping ranges included), and every byte outside `[dest, dest+size)` is unchanged. -/
theorem Memcpy_effect (proc : Process) (dest src size : Int)
    (hd : 0 ≤ dest) (hs : 0 ≤ src) (hn : 0 ≤ size)
    (hde : dest + size ≤ (proc.vm.Mem.ByteMem.length : Int))
    (hse : src + size ≤ (proc.vm.Mem.ByteMem.length : Int))
    (hd32 : dest + size < 2147483648) (hs32 : src + size < 2147483648) :
    ∃ (proc1 : Process) (r : Int),
      Memcpy proc dest src size = some (proc1, r) ∧
      proc1.vm.Mem.ByteMem.length = proc.vm.Mem.ByteMem.length ∧
      (∀ i : Nat, (i : Int) < size →
        proc1.vm.Mem.ByteMem[dest.toNat + i]? = proc.vm.Mem.ByteMem[src.toNat + i]?) ∧
      (∀ j : Nat, ((j : Int) < dest ∨ dest + size ≤ (j : Int)) →
        proc1.vm.Mem.ByteMem[j]? = proc.vm.Mem.ByteMem[j]?) := by
  have hl : ((proc.vm.Mem.ByteMem.drop src.toNat).take size.toNat).length = size.toNat := by
    rw [List.length_take, List.length_drop]
    omega
  refine ⟨_, _, Memcpy_eq proc dest src size hd hs hn hde hse hd32 hs32, ?_, ?_, ?_⟩
  · exact splice_length _ _ _ (by rw [hl]; omega)
  · intro i hi
    show (splice proc.vm.Mem.ByteMem dest.toNat
      ((proc.vm.Mem.ByteMem.drop src.toNat).take size.toNat))[dest.toNat + i]? = _
    rw [splice_get_inside _ _ _ (by omega) i (by rw [hl]; omega),
      List.getElem?_take_of_lt (by omega), List.getElem?_drop]
  · intro j hj
    exact splice_get_outside _ _ _ (by rw [hl]; omega) j (by rw [hl]; omega)

theorem Memcpy_effect_witness :
    ∃ (proc1 : Process) (r : Int),
      Memcpy smallMemoryProcess 0 1 2 = some (proc1, r) ∧
      proc1.vm.Mem.ByteMem.length = smallMemoryProcess.vm.Mem.ByteMem.length ∧
      (∀ i : Nat, (i : Int) < 2 →
        proc1.vm.Mem.ByteMem[(0 : Int).toNat + i]?
          = smallMemoryProcess.vm.Mem.ByteMem[(1 : Int).toNat + i]?) ∧
      (∀ j : Nat, ((j : Int) < 0 ∨ 0 + 2 ≤ (j : Int)) →
        proc1.vm.Mem.ByteMem[j]? = smallMemoryProcess.vm.Mem.ByteMem[j]?) :=
  Memcpy_effect smallMemoryProcess 0 1 2 (by decide) (by decide) (by decide)
    (by decide) (by decide) (by decide) (by decide)

/-! ## The allocator and `Malloc` -/

theorem VMmemory_Malloc_ok (m : VMmemory) (size : Int)
    (h : m.PointedMemIndex + size ≤ (m.ByteMem.length : Int)) :
    m.Malloc size
      = ({ m with
            PointedMemIndex := m.PointedMemIndex + size
            MemPoints := (toUint64 m.PointedMemIndex, { Ptype := PType.PRaw, Length := size })
              :: m.MemPoints },
          some m.PointedMemIndex) := by
  unfold VMmemory.Malloc
  rw [if_neg (by omega)]

theorem VMmemory_Malloc_fails (m : VMmemory) (size : Int)
    (h : (m.ByteMem.length : Int) < m.PointedMemIndex + size) :
    m.Malloc size = (m, none) := by
  unfold VMmemory.Malloc
  rw [if_pos (by omega)]

theorem Malloc_eq (proc : Process) (size : Int)
    (h : proc.vm.Mem.PointedMemIndex + size ≤ (proc.vm.Mem.ByteMem.length : Int)) :
    Malloc proc size
      = ({ proc with vm := { proc.vm with Mem := { proc.vm.Mem with
            PointedMemIndex := proc.vm.Mem.PointedMemIndex + size
            MemPoints := (toUint64 proc.vm.Mem.PointedMemIndex,
              { Ptype := PType.PRaw, Length := size }) :: proc.vm.Mem.MemPoints } } },
          toInt32 proc.vm.Mem.PointedMemIndex) := by
  simp only [Malloc, VMmemory_Malloc_ok _ size h]

theorem Malloc_fails (proc : Process) (size : Int)
    (h : (proc.vm.Mem.ByteMem.length : Int) < proc.vm.Mem.PointedMemIndex + size) :
    Malloc proc size = (proc, 0) := by
  simp only [Malloc, VMmemory_Malloc_fails _ size h]

/-- C6 fails as stated: in the 4 GiB memory whose allocator stands at `2 ^ 31`, the sizes
`a = b = 2` satisfy `pointedMemIndex + a + b ≤ len(ByteMem)`, and the first `Malloc(2)` returns
`-2147483648`, which is not the `pointedMemIndex` before the call. -/
theorem Malloc_offset_wraps_past_int32 :
    (0 : Int) ≤ 2 ∧
    hugeProcess.vm.Mem.PointedMemIndex + 2 + 2 ≤ (hugeProcess.vm.Mem.ByteMem.length : Int) ∧
    (Malloc hugeProcess 2).2 = -2147483648 ∧
    (Malloc hugeProcess 2).2 ≠ hugeProcess.vm.Mem.PointedMemIndex := by
  have hlen : hugeProcess.vm.Mem.ByteMem.length = 4294967296 := hugeMem_length
  have hp : hugeProcess.vm.Mem.PointedMemIndex = 2147483648 := rfl
  have hm : (Malloc hugeProcess 2).2 = -2147483648 := by
    rw [Malloc_eq hugeProcess 2 (by rw [hlen, hp]; decide)]
    show toInt32 hugeProcess.vm.Mem.PointedMemIndex = -2147483648
    rw [hp]
    decide
  refine ⟨by decide, by rw [hlen, hp]; decide, hm, ?_⟩
  rw [hm, hp]
  decide

/-- C6, amended (the allocator `VMmemory.Malloc` is the one the specification describes): for
sizes `a, b ≥ 0` with `pointedMemIndex + a + b ≤ len(ByteMem)` and with `pointedMemIndex` and
`pointedMemIndex + a` in the range of an `int32`, `Malloc(a); Malloc(b)` return `p1`, the
`pointedMemIndex` before the first call, and `p2 = p1 + a`; and a `Malloc(size)` that would pass
the end of the memory returns `0` and leaves the instance as it was. -/
theorem Malloc_monotonic (proc : Process) (a b size : Int)
    (ha : 0 ≤ a) (hb : 0 ≤ b)
    (hroom : proc.vm.Mem.PointedMemIndex + a + b ≤ (proc.vm.Mem.ByteMem.length : Int))
    (hlo : -2147483648 ≤ proc.vm.Mem.PointedMemIndex)
    (hhi : proc.vm.Mem.PointedMemIndex + a < 2147483648)
    (hend : (proc.vm.Mem.ByteMem.length : Int) < proc.vm.Mem.PointedMemIndex + size) :
    (Malloc proc a).2 = proc.vm.Mem.PointedMemIndex ∧
    (Malloc (Malloc proc a).1 b).2 = (Malloc proc a).2 + a ∧
    Malloc proc size = (proc, 0) := by
  have h1 := Malloc_eq proc a (by omega)
  rw [toInt32_of_range _ hlo (by omega)] at h1
  refine ⟨by rw [h1], ?_, Malloc_fails proc size hend⟩
  rw [h1, Malloc_eq _ b (by simp only []; omega)]
  exact toInt32_of_range _ (by simp only []; omega) (by simp only []; omega)

theorem Malloc_monotonic_witness :
    (Malloc testMallocProcess 2).2 = 50 ∧
    (Malloc (Malloc testMallocProcess 2).1 2).2 = 52 ∧
    Malloc testMallocProcess 51 = (testMallocProcess, 0) :=
  Malloc_monotonic testMallocProcess 2 2 51 (by decide) (by decide) (by decide) (by decide)
    (by decide) (by decide)

/-! ## `SetState` and `GetState` -/

theorem Repository_GetState_SetState (db : Repository) (a : Address) (k : Hash)
    (v : List Byte) : (db.SetState a k v).GetState a k = v := by
  simp [Repository.GetState, Repository.SetState]

theorem SetState_eq (env : Env) (proc : Process) (keyStart keyLen valStart valLen : Int)
    (key val : List Byte)
    (hk : slice proc.vm.Mem.ByteMem keyStart (keyStart + keyLen) = some key)
    (hv : slice proc.vm.Mem.ByteMem valStart (valStart + valLen) = some val)
    (hk32 : keyStart + keyLen < 2147483648) (hv32 : valStart + valLen < 2147483648) :
    SetState env proc keyStart keyLen valStart valLen
      = some { proc with vm := { proc.vm with
          StateDB := proc.vm.StateDB.SetState proc.vm.ChainContext.Origin
            (env.bytesToHash (env.sha256 key)) val } } := by
  obtain ⟨hkl, hk0, hk1, -⟩ := slice_length _ _ _ _ hk
  obtain ⟨-, hv0, hv1, -⟩ := slice_length _ _ _ _ hv
  have e1 : toInt32 (keyStart + keyLen) = keyStart + keyLen :=
    toInt32_of_range _ (by omega) hk32
  have e2 : toInt32 (valStart + valLen) = valStart + valLen :=
    toInt32_of_range _ (by omega) hv32
  have e3 : ¬ toInt32 (key.length : Int) < keyLen := by
    rw [toInt32_of_range _ (by omega) (by omega)]
    omega
  simp only [SetState, e1, e2, hk, hv, e3, if_false]

theorem GetState_eq (env : Env) (proc : Process) (keyStart keyLen : Int) (key : List Byte)
    (hk : slice proc.vm.Mem.ByteMem keyStart (keyStart + keyLen) = some key)
    (hk32 : keyStart + keyLen < 2147483648)
    (hp0 : 0 ≤ proc.vm.Mem.PointedMemIndex)
    (hroom : proc.vm.Mem.PointedMemIndex
        + ((proc.vm.StateDB.GetState proc.vm.ChainContext.Origin
            (env.bytesToHash (env.sha256 key))).length : Int)
      ≤ (proc.vm.Mem.ByteMem.length : Int)) :
    GetState env proc keyStart keyLen
      = some ({ proc with vm := { proc.vm with Mem := { proc.vm.Mem with
          ByteMem := splice proc.vm.Mem.ByteMem proc.vm.Mem.PointedMemIndex.toNat
            (proc.vm.StateDB.GetState proc.vm.ChainContext.Origin
              (env.bytesToHash (env.sha256 key)))
          PointedMemIndex := proc.vm.Mem.PointedMemIndex
            + ((proc.vm.StateDB.GetState proc.vm.ChainContext.Origin
                (env.bytesToHash (env.sha256 key))).length : Int)
          MemPoints := (toUint64 proc.vm.Mem.PointedMemIndex,
            { Ptype := PType.PRaw,
              Length := ((proc.vm.StateDB.GetState proc.vm.ChainContext.Origin
                (env.bytesToHash (env.sha256 key))).length : Int) })
            :: proc.vm.Mem.MemPoints } } },
        toInt32 proc.vm.Mem.PointedMemIndex) := by
  obtain ⟨hkl, hk0, hk1, -⟩ := slice_length _ _ _ _ hk
  have e1 : toInt32 (keyStart + keyLen) = keyStart + keyLen :=
    toInt32_of_range _ (by omega) hk32
  have e3 : ¬ toInt32 (key.length : Int) < keyLen := by
    rw [toInt32_of_range _ (by omega) (by omega)]
    omega
  simp only [GetState, e1, hk, e3, if_false, VMmemory_Malloc_ok _ _ hroom]
  rw [copyInto_eq _ _ _ _ hp0 (by omega) hroom]
  simp only [add_sub_cancel_left, Int.toNat_ofNat, Nat.min_self, List.take_length]

theorem GetState_alloc_fails (env : Env) (proc : Process) (keyStart keyLen : Int)
    (key : List Byte)
    (hk : slice proc.vm.Mem.ByteMem keyStart (keyStart + keyLen) = some key)
    (hk32 : keyStart + keyLen < 2147483648)
    (hfull : (proc.vm.Mem.ByteMem.length : Int)
      < proc.vm.Mem.PointedMemIndex
        + ((proc.vm.StateDB.GetState proc.vm.ChainContext.Origin
            (env.bytesToHash (env.sha256 key))).length : Int)) :
    GetState env proc keyStart keyLen = some (proc, -1) := by
  obtain ⟨hkl, hk0, hk1, -⟩ := slice_length _ _ _ _ hk
  have e1 : toInt32 (keyStart + keyLen) = keyStart + keyLen :=
    toInt32_of_range _ (by omega) hk32
  have e3 : ¬ toInt32 (key.length : Int) < keyLen := by
    rw [toInt32_of_range _ (by omega) (by omega)]
    omega
  simp only [GetState, e1, hk, e3, if_false, VMmemory_Malloc_fails _ _ hfull]

theorem slice_splice (s src : List Byte) (lo : Nat) (h : lo + src.length ≤ s.length) :
    slice (splice s lo src) (lo : Int) ((lo : Int) + (src.length : Int)) = some src := by
  rw [slice_eq_some _ _ _ (by omega) (by omega) (by rw [splice_length _ _ _ h]; omega)]
  congr 1
  unfold splice
  have hl : (s.take lo).length = lo := by rw [List.length_take]; omega
  rw [List.append_assoc, Int.toNat_ofNat, List.drop_append_of_le_length (by omega),
    List.drop_of_length_le (by omega), List.nil_append, add_sub_cancel_left, Int.toNat_ofNat,
    List.take_left']
  rfl

/-- C4, amended: with the state store a map and SHA-256 a function, let the key bytes `key` lie
at `[keyOff, keyOff+keyLen)` and at `[keyOff2, keyOff2+keyLen)` and the value bytes `val` at
`[valOff, valOff+valLen)`, all three ranges inside the memory with end offsets below `2 ^ 31`, and
let the allocator have room for `valLen` bytes at an index below `2 ^ 31`
(`0 ≤ PointedMemIndex < 2 ^ 31`, `PointedMemIndex + valLen ≤ len(ByteMem)`).  Then `SetState`
writes `val` to the slot `(Origin, BytesToHash(SHA-256(key)))`, which depends on the key bytes
only, and leaves the memory as it was; the following `GetState(keyOff2, keyLen)` returns the
offset `p = PointedMemIndex ≥ 0`, and afterwards `mem[p .. p+valLen)` equals `val`. -/
theorem SetState_GetState_roundtrip (env : Env) (proc : Process)
    (keyOff keyLen valOff valLen keyOff2 : Int) (key val : List Byte)
    (hk : slice proc.vm.Mem.ByteMem keyOff (keyOff + keyLen) = some key)
    (hv : slice proc.vm.Mem.ByteMem valOff (valOff + valLen) = some val)
    (hk2 : slice proc.vm.Mem.ByteMem keyOff2 (keyOff2 + keyLen) = some key)
    (hk32 : keyOff + keyLen < 2147483648) (hv32 : valOff + valLen < 2147483648)
    (hk232 : keyOff2 + keyLen < 2147483648)
    (hp0 : 0 ≤ proc.vm.Mem.PointedMemIndex)
    (hroom : proc.vm.Mem.PointedMemIndex + valLen ≤ (proc.vm.Mem.ByteMem.length : Int))
    (hp32 : proc.vm.Mem.PointedMemIndex < 2147483648) :
    ∃ (proc1 proc2 : Process) (p : Int),
      SetState env proc keyOff keyLen valOff valLen = some proc1 ∧
      proc1.vm.StateDB = proc.vm.StateDB.SetState proc.vm.ChainContext.Origin
        (env.bytesToHash (env.sha256 key)) val ∧
      proc1.vm.Mem = proc.vm.Mem ∧
      GetState env proc1 keyOff2 keyLen = some (proc2, p) ∧
      0 ≤ p ∧ p = proc.vm.Mem.PointedMemIndex ∧
      slice proc2.vm.Mem.ByteMem p (p + valLen) = some val := by
  obtain ⟨hvl, hv0, hv1, -⟩ := slice_length _ _ _ _ hv
  have hvlen : (val.length : Int) = valLen := by omega
  have hget : ({ proc with vm := { proc.vm with
      StateDB := proc.vm.StateDB.SetState proc.vm.ChainContext.Origin
        (env.bytesToHash (env.sha256 key)) val } } : Process).vm.StateDB.GetState
        proc.vm.ChainContext.Origin (env.bytesToHash (env.sha256 key)) = val :=
    Repository_GetState_SetState _ _ _ _
  have hg := GetState_eq env
    { proc with vm := { proc.vm with
        StateDB := proc.vm.StateDB.SetState proc.vm.ChainContext.Origin
          (env.bytesToHash (env.sha256 key)) val } }
    keyOff2 keyLen key hk2 hk232 hp0 (by rw [hget, hvlen]; exact hroom)
  rw [hget] at hg
  dsimp only at hg
  refine ⟨_, _, _, SetState_eq env proc keyOff keyLen valOff valLen key val hk hv hk32 hv32,
    rfl, rfl, hg, ?_, ?_, ?_⟩
  · rw [toInt32_of_range _ (by omega) hp32]
    exact hp0
  · exact toInt32_of_range _ (by omega) hp32
  · rw [toInt32_of_range _ (by omega) hp32]
    have h := slice_splice proc.vm.Mem.ByteMem val proc.vm.Mem.PointedMemIndex.toNat (by omega)
    rw [Int.toNat_of_nonneg hp0, hvlen] at h
    exact h

theorem SetState_GetState_roundtrip_witness :
    ∃ (proc1 proc2 : Process) (p : Int),
      SetState demoEnv stateTestProcess 0 5 5 5 = some proc1 ∧
      proc1.vm.StateDB = stateTestProcess.vm.StateDB.SetState
        stateTestProcess.vm.ChainContext.Origin
        (demoEnv.bytesToHash (demoEnv.sha256 [72, 101, 108, 108, 111]))
        [87, 111, 114, 108, 100] ∧
      proc1.vm.Mem = stateTestProcess.vm.Mem ∧
      GetState demoEnv proc1 10 5 = some (proc2, p) ∧
      0 ≤ p ∧ p = stateTestProcess.vm.Mem.PointedMemIndex ∧
      slice proc2.vm.Mem.ByteMem p (p + 5) = some [87, 111, 114, 108, 100] :=
  SetState_GetState_roundtrip demoEnv stateTestProcess 0 5 5 5 10
    [72, 101, 108, 108, 111] [87, 111, 114, 108, 100]
    (by decide) (by decide) (by decide) (by decide) (by decide) (by decide) (by decide)
    (by decide) (by decide)

theorem hugeMem_slice (lo : Nat) (h : lo + 1 ≤ 4294967296) :
    slice hugeMem (lo : Int) ((lo : Int) + 1) = some [0] := by
  rw [slice_eq_some _ _ _ (by omega) (by omega) (by rw [hugeMem_length]; omega)]
  congr 1
  unfold hugeMem
  rw [List.drop_replicate, List.take_replicate, add_sub_cancel_left]
  have e : min (1 : Int).toNat (4294967296 - (lo : Int).toNat) = 1 := by
    rw [Int.toNat_ofNat]
    have : (1 : Int).toNat = 1 := rfl
    omega
  rw [e]
  rfl

/-- C4 fails as stated: in the 4 GiB memory with the allocator at `2 ^ 31` (the marks of a fresh
instance), the key byte at `[0, 1)` and the value byte at `[1, 2)` are inside the memory and the
allocator has room for one byte, `SetState(0, 1, 1, 1)` succeeds, and the following
`GetState(0, 1)` returns the offset `-2147483648`, which is negative. -/
theorem GetState_offset_negative_past_int32 :
    ∃ proc1 proc2 : Process,
      slice hugeProcess.vm.Mem.ByteMem 0 (0 + 1) = some [0] ∧
      slice hugeProcess.vm.Mem.ByteMem 1 (1 + 1) = some [0] ∧
      hugeProcess.vm.Mem.PointedMemIndex + 1 ≤ (hugeProcess.vm.Mem.ByteMem.length : Int) ∧
      SetState demoEnv hugeProcess 0 1 1 1 = some proc1 ∧
      GetState demoEnv proc1 0 1 = some (proc2, -2147483648) ∧
      ¬ (0 : Int) ≤ -2147483648 := by
  have hlen : hugeProcess.vm.Mem.ByteMem.length = 4294967296 := hugeMem_length
  have hp : hugeProcess.vm.Mem.PointedMemIndex = 2147483648 := rfl
  have hk : slice hugeProcess.vm.Mem.ByteMem 0 (0 + 1) = some [0] :=
    hugeMem_slice 0 (by decide)
  have hv : slice hugeProcess.vm.Mem.ByteMem 1 (1 + 1) = some [0] :=
    hugeMem_slice 1 (by decide)
  have hs := SetState_eq demoEnv hugeProcess 0 1 1 1 [0] [0] hk hv (by decide) (by decide)
  have hget : ({ hugeProcess with vm := { hugeProcess.vm with
      StateDB := hugeProcess.vm.StateDB.SetState hugeProcess.vm.ChainContext.Origin
        (demoEnv.bytesToHash (demoEnv.sha256 [0])) [0] } } : Process).vm.StateDB.GetState
        hugeProcess.vm.ChainContext.Origin (demoEnv.bytesToHash (demoEnv.sha256 [0])) = [0] :=
    Repository_GetState_SetState _ _ _ _
  have hg := GetState_eq demoEnv
    { hugeProcess with vm := { hugeProcess.vm with
        StateDB := hugeProcess.vm.StateDB.SetState hugeProcess.vm.ChainContext.Origin
          (demoEnv.bytesToHash (demoEnv.sha256 [0])) [0] } }
    0 1 [0] hk (by decide) (by rw [hp]; decide)
    (by rw [hget]; show hugeProcess.vm.Mem.PointedMemIndex + 1 ≤ _; rw [hlen, hp]; decide)
  have h32 : toInt32 hugeProcess.vm.Mem.PointedMemIndex = -2147483648 := by
    rw [hp]
    decide
  rw [h32] at hg
  exact ⟨_, _, hk, hv, by rw [hlen, hp]; decide, hs, hg, by decide⟩

/-- C5 fails as stated: the key range `[0, 10)` is not inside the 3-byte memory, and
`GetState(0, 10)` does not return `-1`: the slice expression `ByteMem[0:10]` panics. -/
theorem GetState_traps_on_key_outside_memory :
    ¬ ((0 : Int) + 10 ≤ (smallMemoryProcess.vm.Mem.ByteMem.length : Int)) ∧
    GetState demoEnv smallMemoryProcess 0 10 = none ∧
    GetState demoEnv smallMemoryProcess 0 10 ≠ some (smallMemoryProcess, -1) := by
  have h : GetState demoEnv smallMemoryProcess 0 10 = none := by
    simp only [GetState]
    rfl
  refine ⟨by decide, h, ?_⟩
  rw [h]
  exact fun hc => Option.noConfusion hc

/-- C5, amended: let the key range `[keyStart, keyStart+keyLen)` lie inside the memory, with end
offset below `2 ^ 31`, let `val` be the value stored under the key, and let the allocator index be
non-negative.  Then `GetState` does not trap: either the allocation of `len(val)` bytes fails and
`GetState` returns `-1`, leaving the instance as it was, or the allocator has room and `GetState`
returns the allocator index as an `int32`.  For a key range `[k, k+n)` outside the memory (the
slice expression `ByteMem[k : k+n]` is out of bounds) `GetState` traps instead of returning
`-1`. -/
theorem GetState_sentinel (env : Env) (proc : Process) (keyStart keyLen k n : Int)
    (key : List Byte)
    (hk : slice proc.vm.Mem.ByteMem keyStart (keyStart + keyLen) = some key)
    (hk32 : keyStart + keyLen < 2147483648)
    (hp0 : 0 ≤ proc.vm.Mem.PointedMemIndex)
    (hout : slice proc.vm.Mem.ByteMem k (toInt32 (k + n)) = none) :
    (((proc.vm.Mem.ByteMem.length : Int)
          < proc.vm.Mem.PointedMemIndex
            + ((proc.vm.StateDB.GetState proc.vm.ChainContext.Origin
                (env.bytesToHash (env.sha256 key))).length : Int) ∧
        GetState env proc keyStart keyLen = some (proc, -1)) ∨
      (proc.vm.Mem.PointedMemIndex
            + ((proc.vm.StateDB.GetState proc.vm.ChainContext.Origin
                (env.bytesToHash (env.sha256 key))).length : Int)
          ≤ (proc.vm.Mem.ByteMem.length : Int) ∧
        ∃ proc1 : Process,
          GetState env proc keyStart keyLen
            = some (proc1, toInt32 proc.vm.Mem.PointedMemIndex))) ∧
    GetState env proc k n = none := by
  refine ⟨?_, by simp only [GetState, hout]⟩
  by_cases hfull : (proc.vm.Mem.ByteMem.length : Int)
      < proc.vm.Mem.PointedMemIndex
        + ((proc.vm.StateDB.GetState proc.vm.ChainContext.Origin
            (env.bytesToHash (env.sha256 key))).length : Int)
  · exact Or.inl ⟨hfull, GetState_alloc_fails env proc keyStart keyLen key hk hk32 hfull⟩
  · exact Or.inr ⟨by omega,
      _, GetState_eq env proc keyStart keyLen key hk hk32 hp0 (by omega)⟩

theorem GetState_sentinel_witness :
    (((fullTestProcess.vm.Mem.ByteMem.length : Int)
          < fullTestProcess.vm.Mem.PointedMemIndex
            + ((fullTestProcess.vm.StateDB.GetState fullTestProcess.vm.ChainContext.Origin
                (demoEnv.bytesToHash (demoEnv.sha256 [72, 101, 108, 108, 111]))).length : Int) ∧
        GetState demoEnv fullTestProcess 0 5 = some (fullTestProcess, -1)) ∨
      (fullTestProcess.vm.Mem.PointedMemIndex
            + ((fullTestProcess.vm.StateDB.GetState fullTestProcess.vm.ChainContext.Origin
                (demoEnv.bytesToHash (demoEnv.sha256 [72, 101, 108, 108, 111]))).length : Int)
          ≤ (fullTestProcess.vm.Mem.ByteMem.length : Int) ∧
        ∃ proc1 : Process,
          GetState demoEnv fullTestProcess 0 5
            = some (proc1, toInt32 fullTestProcess.vm.Mem.PointedMemIndex))) ∧
    GetState demoEnv fullTestProcess 30 5 = none :=
  GetState_sentinel demoEnv fullTestProcess 0 5 30 5 [72, 101, 108, 108, 111]
    (by decide) (by decide) (by decide) (by decide)

/-! ## `Create` and `Call` -/

/-- C1: when the module parses, `balance(caller) ≥ value`, the derived address
`CreateAddress(caller, n)` (`n` the nonce of the caller before the call) is empty (nonce 0 and
code hash zero or the empty hash), `len(code) ≤ MaxCodeSize`, and the derived address is not the
caller's own, `Create` returns `(nil, CreateAddress(caller, n), gas, nil)`; afterwards the nonce of
the caller is `n + 1` (a `uint64`, so modulo `2 ^ 64`), the code stored at the contract address is
`code`, and `value` has moved from the balance of the caller to that of the contract address. -/
theorem Create_success (env : Env) (self : VM) (caller : Address) (code : List Byte)
    (gas : Nat) (value : Int) (m : Module)
    (hparse : env.readModule code = .ok m)
    (hbal : value ≤ self.StateDB.GetBalance caller)
    (hnonce : self.StateDB.GetNonce
      (env.createAddress caller (self.StateDB.GetNonce caller)) = 0)
    (hhash : self.StateDB.GetCodeHash
        (env.createAddress caller (self.StateDB.GetNonce caller)) = zeroHash ∨
      self.StateDB.GetCodeHash
        (env.createAddress caller (self.StateDB.GetNonce caller)) = emptyCodeHash env)
    (hsize : (code.length : Int) ≤ env.MaxCodeSize)
    (hne : env.createAddress caller (self.StateDB.GetNonce caller) ≠ caller) :
    (VM.Create env self caller code gas value).2
      = { ret := none,
          contractAddr := env.createAddress caller (self.StateDB.GetNonce caller),
          leftOverGas := gas, err := none } ∧
    (VM.Create env self caller code gas value).1.StateDB.GetNonce caller
      = (self.StateDB.GetNonce caller + 1) % 18446744073709551616 ∧
    (VM.Create env self caller code gas value).1.StateDB.GetCode
      (env.createAddress caller (self.StateDB.GetNonce caller)) = code ∧
    (VM.Create env self caller code gas value).1.StateDB.GetBalance caller
      = self.StateDB.GetBalance caller - value ∧
    (VM.Create env self caller code gas value).1.StateDB.GetBalance
      (env.createAddress caller (self.StateDB.GetNonce caller))
      = self.StateDB.GetBalance
          (env.createAddress caller (self.StateDB.GetNonce caller)) + value := by
  have hcan : CanTransfer self.StateDB caller value = true := by
    simp only [CanTransfer, decide_eq_true_eq]
    exact hbal
  simp only [Repository.GetNonce, Repository.GetCodeHash] at hnonce hhash hne
  have hne2 : caller ≠ env.createAddress caller (self.StateDB.nonce caller) :=
    fun h => hne h.symm
  have hcol : ¬ ((self.StateDB.SetNonce caller
        ((self.StateDB.GetNonce caller + 1) % 18446744073709551616)).GetNonce
          (env.createAddress caller (self.StateDB.GetNonce caller)) ≠ 0 ∨
      ((self.StateDB.SetNonce caller
          ((self.StateDB.GetNonce caller + 1) % 18446744073709551616)).GetCodeHash
            (env.createAddress caller (self.StateDB.GetNonce caller)) ≠ zeroHash ∧
        (self.StateDB.SetNonce caller
          ((self.StateDB.GetNonce caller + 1) % 18446744073709551616)).GetCodeHash
            (env.createAddress caller (self.StateDB.GetNonce caller)) ≠ emptyCodeHash env)) := by
    simp only [Repository.SetNonce, Repository.GetNonce, Repository.GetCodeHash, if_neg hne]
    rintro (h | ⟨h1, h2⟩)
    · exact h hnonce
    · rcases hhash with h | h
      · exact h1 h
      · exact h2 h
  have hsz : ¬ (code.length : Int) > env.MaxCodeSize := by omega
  simp only [VM.Create, hparse, hcan, hcol, hsz, Bool.not_true, if_false, Bool.false_eq_true]
  simp only [Repository.GetNonce, Repository.GetCode, Repository.GetBalance, Transfer,
    Repository.AddBalance, Repository.SubBalance, Repository.SetCode,
    Repository.CreateAccount, Repository.SetNonce, if_neg hne, if_neg hne2, if_true]
  exact ⟨trivial, trivial, trivial, trivial, trivial⟩

theorem Create_success_witness :
    (VM.Create demoEnv createTestVM 0 wasmHeader 18446744073709551615 10).2
      = { ret := none, contractAddr := 1, leftOverGas := 18446744073709551615, err := none } ∧
    (VM.Create demoEnv createTestVM 0 wasmHeader 18446744073709551615 10).1.StateDB.GetNonce 0
      = 1 ∧
    (VM.Create demoEnv createTestVM 0 wasmHeader 18446744073709551615 10).1.StateDB.GetCode 1
      = wasmHeader ∧
    (VM.Create demoEnv createTestVM 0 wasmHeader 18446744073709551615 10).1.StateDB.GetBalance 0
      = 100 - 10 ∧
    (VM.Create demoEnv createTestVM 0 wasmHeader 18446744073709551615 10).1.StateDB.GetBalance 1
      = 100 + 10 :=
  Create_success demoEnv createTestVM 0 wasmHeader 18446744073709551615 10 { Export := none }
    rfl (by decide) (by decide) (by decide) (by decide) (by decide)

/-- C3 (the code does not do it): `Call(0, 1, [], 7, 10)` on a state where account 0 holds 100,
account 1 holds nothing and no code is stored at address 1.  The balance check passes, 10 is
transferred, the empty code does not parse, and `Call` returns that error with the transfer left
in place: afterwards the balances are 90 and 10, not 100 and 0 as before. -/
theorem Call_error_keeps_transfer :
    bankVM.StateDB.GetBalance 0 = 100 ∧ bankVM.StateDB.GetBalance 1 = 0 ∧
    bankVM.StateDB.GetCode 1 = [] ∧
    (VM.Call demoEnv bankVM 0 1 [] 7 10).2
      = some { ret := none, leftOverGas := 7,
               err := some (Err.other "wasm: Invalid magic number") } ∧
    (VM.Call demoEnv bankVM 0 1 [] 7 10).1.StateDB.GetBalance 0 = 90 ∧
    (VM.Call demoEnv bankVM 0 1 [] 7 10).1.StateDB.GetBalance 1 = 10 := by
  decide

/-! ## The operand stack -/

theorem Step_bind_apply {α β : Type} (m : Step α) (f : α → Step β) (vm : VMInterpreter) :
    (m >>= f) vm
      = (match m vm with
        | (vm1, .error p) => (vm1, .error p)
        | (vm1, .ok a) => f a vm1) := rfl

theorem Step_pure_apply {α : Type} (a : α) (vm : VMInterpreter) :
    (pure a : Step α) vm = (vm, .ok a) := rfl

theorem withStack_self (vm : VMInterpreter) :
    withStack vm vm.ctx.stack vm.ctx.stackSpare = vm := rfl

theorem popUint64_concat (vm : VMInterpreter) (s sp : List Nat) (a : Nat) :
    popUint64 (withStack vm (s ++ [a]) sp) = (withStack vm s (a :: sp), .ok a) := by
  simp [popUint64, withStack]

theorem popUint32_concat (vm : VMInterpreter) (s sp : List Nat) (a : Nat) :
    popUint32 (withStack vm (s ++ [a]) sp)
      = (withStack vm s (a :: sp), .ok (a % 4294967296)) := by
  simp only [popUint32, Step_bind_apply, popUint64_concat, Step_pure_apply]

theorem popInt32_concat (vm : VMInterpreter) (s sp : List Nat) (a : Nat) :
    popInt32 (withStack vm (s ++ [a]) sp)
      = (withStack vm s (a :: sp), .ok (toInt32 ((a % 4294967296 : Nat) : Int))) := by
  simp only [popInt32, Step_bind_apply, popUint32_concat, Step_pure_apply]

theorem popInt64_concat (vm : VMInterpreter) (s sp : List Nat) (a : Nat) :
    popInt64 (withStack vm (s ++ [a]) sp)
      = (withStack vm s (a :: sp), .ok (toInt64 (a : Int))) := by
  simp only [popInt64, Step_bind_apply, popUint64_concat, Step_pure_apply]

theorem pushUint64_spare (rt : Runtime) (vm : VMInterpreter) (s sp : List Nat) (x i : Nat) :
    pushUint64 rt i (withStack vm s (x :: sp)) = (withStack vm (s ++ [i]) sp, .ok ()) := by
  simp [pushUint64, withStack]

theorem two_words (s : List Nat) (a b : Nat) : s ++ [a, b] = s ++ [a] ++ [b] := by
  simp

/-! ## Integer division -/

theorem toInt32_zero_word (k : Nat) :
    toInt32 (((4294967296 * k) % 4294967296 : Nat) : Int) = 0 := by
  rw [Nat.mul_mod_right]
  rfl

/-- C14: with a divisor zero on top of the stack (for the `i32` operators any word whose low 32
bits are zero, for the `i64` operators the word 0) and any dividend `a` below it, each of
`i32.div_s`, `i32.div_u`, `i32.rem_s`, `i32.rem_u`, `i64.div_s`, `i64.div_u`, `i64.rem_s`,
`i64.rem_u` ends in the run-time panic "integer divide by zero": both operands have been popped,
and no result is pushed. -/
theorem div_by_zero_traps (rt : Runtime) (vm : VMInterpreter) (s sp : List Nat) (a k : Nat) :
    i32DivS rt (withStack vm (s ++ [a, 4294967296 * k]) sp)
      = (withStack vm s (a :: (4294967296 * k) :: sp),
          .error (Panic.runtimeError "integer divide by zero")) ∧
    i32DivU rt (withStack vm (s ++ [a, 4294967296 * k]) sp)
      = (withStack vm s (a :: (4294967296 * k) :: sp),
          .error (Panic.runtimeError "integer divide by zero")) ∧
    i32RemS rt (withStack vm (s ++ [a, 4294967296 * k]) sp)
      = (withStack vm s (a :: (4294967296 * k) :: sp),
          .error (Panic.runtimeError "integer divide by zero")) ∧
    i32RemU rt (withStack vm (s ++ [a, 4294967296 * k]) sp)
      = (withStack vm s (a :: (4294967296 * k) :: sp),
          .error (Panic.runtimeError "integer divide by zero")) ∧
    i64DivS rt (withStack vm (s ++ [a, 0]) sp)
      = (withStack vm s (a :: 0 :: sp), .error (Panic.runtimeError "integer divide by zero")) ∧
    i64DivU rt (withStack vm (s ++ [a, 0]) sp)
      = (withStack vm s (a :: 0 :: sp), .error (Panic.runtimeError "integer divide by zero")) ∧
    i64RemS rt (withStack vm (s ++ [a, 0]) sp)
      = (withStack vm s (a :: 0 :: sp), .error (Panic.runtimeError "integer divide by zero")) ∧
    i64RemU rt (withStack vm (s ++ [a, 0]) sp)
      = (withStack vm s (a :: 0 :: sp), .error (Panic.runtimeError "integer divide by zero")) := by
  have h64 : toInt64 ((0 : Nat) : Int) = 0 := rfl
  refine ⟨?_, ?_, ?_, ?_, ?_, ?_, ?_, ?_⟩
  · rw [two_words]
    simp only [i32DivS, Step_bind_apply, popInt32_concat, toInt32_zero_word, Step.lift,
      divInt32, if_true]
  · rw [two_words]
    simp only [i32DivU, Step_bind_apply, popUint32_concat, Nat.mul_mod_right, Step.lift,
      divUint, if_true]
  · rw [two_words]
    simp only [i32RemS, Step_bind_apply, popInt32_concat, toInt32_zero_word, Step.lift,
      remInt, if_true]
  · rw [two_words]
    simp only [i32RemU, Step_bind_apply, popUint32_concat, Nat.mul_mod_right, Step.lift,
      remUint, if_true]
  · rw [two_words]
    simp only [i64DivS, Step_bind_apply, popInt64_concat, h64, Step.lift, divInt64, if_true]
  · rw [two_words]
    simp only [i64DivU, Step_bind_apply, popUint64_concat, Step.lift, divUint, if_true]
  · rw [two_words]
    simp only [i64RemS, Step_bind_apply, popInt64_concat, h64, Step.lift, remInt, if_true]
  · rw [two_words]
    simp only [i64RemU, Step_bind_apply, popUint64_concat, Step.lift, divUint, remUint,
      if_true]

/-- C15 fails as stated: `i32.div_s` on the operands `0x80000000` (`INT32_MIN`) and `0xFFFFFFFF`
(`-1`) does not trap; it returns normally and leaves the quotient `INT32_MIN` on the stack, as
the slot `0xFFFFFFFF80000000`.  Likewise `i64.div_s` on `INT64_MIN` and `-1` pushes
`INT64_MIN`. -/
theorem div_s_overflow_returns :
    (i32DivS demoRuntime (stackVM [2147483648, 4294967295])).2 = .ok () ∧
    (i32DivS demoRuntime (stackVM [2147483648, 4294967295])).1.ctx.stack
      = [18446744071562067968] ∧
    (i64DivS demoRuntime (stackVM [9223372036854775808, 18446744073709551615])).2 = .ok () ∧
    (i64DivS demoRuntime (stackVM [9223372036854775808, 18446744073709551615])).1.ctx.stack
      = [9223372036854775808] :=
  ⟨rfl, rfl, rfl, rfl⟩

/-- C15, amended: `i32.div_s` with `v1 = INT32_MIN` and `v2 = -1` (operand words whose low 32
bits are `0x80000000` and `0xFFFFFFFF`) does not trap: it pops both operands and pushes the
quotient `INT32_MIN`, the slot `0xFFFFFFFF80000000`; `i64.div_s` with `v1 = INT64_MIN` and
`v2 = -1` does not trap and pushes `INT64_MIN`, the slot `0x8000000000000000`. -/
theorem div_s_overflow_wraps (rt : Runtime) (vm : VMInterpreter) (s sp : List Nat) (a b : Nat)
    (ha : a % 4294967296 = 2147483648) (hb : b % 4294967296 = 4294967295) :
    i32DivS rt (withStack vm (s ++ [a, b]) sp)
      = (withStack vm (s ++ [18446744071562067968]) (b :: sp), .ok ()) ∧
    i64DivS rt (withStack vm (s ++ [9223372036854775808, 18446744073709551615]) sp)
      = (withStack vm (s ++ [9223372036854775808]) (18446744073709551615 :: sp), .ok ()) := by
  have e1 : divInt32 (toInt32 ((2147483648 : Nat) : Int)) (toInt32 ((4294967295 : Nat) : Int))
      = .ok (-2147483648) := rfl
  have e2 : toUint64 (-2147483648) = 18446744071562067968 := rfl
  have e3 : divInt64 (toInt64 ((9223372036854775808 : Nat) : Int))
      (toInt64 ((18446744073709551615 : Nat) : Int)) = .ok (-9223372036854775808) := rfl
  have e4 : toUint64 (-9223372036854775808) = 9223372036854775808 := rfl
  constructor
  · rw [two_words]
    simp only [i32DivS, Step_bind_apply, popInt32_concat, ha, hb, Step.lift, pushInt32, e1, e2,
      pushUint64_spare]
  · rw [two_words]
    simp only [i64DivS, Step_bind_apply, popInt64_concat, Step.lift, pushInt64, e3, e4,
      pushUint64_spare]

theorem div_s_overflow_wraps_witness :
    i32DivS demoRuntime (withStack demoVM ([7] ++ [18446744071562067968, 18446744073709551615]) [])
      = (withStack demoVM ([7] ++ [18446744071562067968]) [18446744073709551615], .ok ()) ∧
    i64DivS demoRuntime
        (withStack demoVM ([7] ++ [9223372036854775808, 18446744073709551615]) [])
      = (withStack demoVM ([7] ++ [9223372036854775808]) [18446744073709551615], .ok ()) :=
  div_s_overflow_wraps demoRuntime demoVM [7] [] 18446744071562067968 18446744073709551615
    (by decide) (by decide)

theorem neg_tmod' (a b : Int) : Int.tmod (-a) b = -Int.tmod a b := by
  rw [Int.tmod_def, Int.tmod_def, Int.neg_tdiv]
  simp only [Int.mul_neg]
  omega

theorem tmod_nonneg_bound (a b : Int) (ha : 0 ≤ a) (hb : b ≠ 0) :
    0 ≤ Int.tmod a b ∧ (Int.tmod a b).natAbs < b.natAbs := by
  have h0 := Int.tmod_nonneg b ha
  refine ⟨h0, ?_⟩
  rcases Int.lt_or_gt_of_ne hb with h | h
  · have h1 := Int.tmod_lt_of_pos a (show 0 < -b by omega)
    rw [Int.tmod_neg] at h1
    omega
  · have h1 := Int.tmod_lt_of_pos a h
    omega

theorem tmod_sign_bound (a b : Int) (hb : b ≠ 0) :
    (0 ≤ a → 0 ≤ Int.tmod a b) ∧ (a ≤ 0 → Int.tmod a b ≤ 0) ∧
    (Int.tmod a b).natAbs < b.natAbs := by
  rcases Int.le_total 0 a with ha | ha
  · obtain ⟨h1, h2⟩ := tmod_nonneg_bound a b ha hb
    refine ⟨fun _ => h1, fun h => ?_, h2⟩
    have : a = 0 := by omega
    subst this
    simp
  · obtain ⟨h1, h2⟩ := tmod_nonneg_bound (-a) b (by omega) hb
    rw [neg_tmod'] at h1 h2
    refine ⟨fun h => ?_, fun _ => by omega, by omega⟩
    have : a = 0 := by omega
    subst this
    simp

theorem signed32_range (w : Nat) : -2147483648 ≤ signed32 w ∧ signed32 w < 2147483648 := by
  unfold signed32 toInt32
  omega

theorem signed32_toUint64 (x : Int) (h0 : -2147483648 ≤ x) (h1 : x < 2147483648) :
    signed32 (toUint64 x) = x := by
  unfold signed32 toUint64 toInt32
  omega

theorem toInt32_congr (x : Int) :
    toInt32 x = x - 4294967296 * ((x + 2147483648) / 4294967296) := by
  unfold toInt32
  omega

/-- C16: for operand words `a` (dividend) and `b` (divisor, on top) with `v1`, `v2` their `i32`
values and `v2 ≠ 0`, `i32.rem_s` pushes a slot whose low 32 bits, read as signed, are
`r = v1 - v2 * trunc(v1 / v2)`, where `trunc(v1 / v2)` has magnitude `⌊|v1| / |v2|⌋`; `r` is zero
or has the sign of `v1`, and `|r| < |v2|`; and with `q` the `i32` value `i32.div_s` pushes for
the same operands, `q * v2 + r = v1` modulo `2 ^ 32`. -/
theorem i32RemS_truncated (rt : Runtime) (vm : VMInterpreter) (s sp : List Nat) (a b : Nat)
    (hb : b % 4294967296 ≠ 0) :
    i32RemS rt (withStack vm (s ++ [a, b]) sp)
      = (withStack vm (s ++ [toUint64 (Int.tmod (signed32 a) (signed32 b))]) (b :: sp),
          .ok ()) ∧
    signed32 (toUint64 (Int.tmod (signed32 a) (signed32 b)))
      = signed32 a - signed32 b * Int.tdiv (signed32 a) (signed32 b) ∧
    (Int.tdiv (signed32 a) (signed32 b)).natAbs = (signed32 a).natAbs / (signed32 b).natAbs ∧
    (0 ≤ signed32 a → 0 ≤ Int.tmod (signed32 a) (signed32 b)) ∧
    (signed32 a ≤ 0 → Int.tmod (signed32 a) (signed32 b) ≤ 0) ∧
    (Int.tmod (signed32 a) (signed32 b)).natAbs < (signed32 b).natAbs ∧
    i32DivS rt (withStack vm (s ++ [a, b]) sp)
      = (withStack vm (s ++ [toUint64 (toInt32 (Int.tdiv (signed32 a) (signed32 b)))]) (b :: sp),
          .ok ()) ∧
    (signed32 (toUint64 (toInt32 (Int.tdiv (signed32 a) (signed32 b)))) * signed32 b
        + signed32 (toUint64 (Int.tmod (signed32 a) (signed32 b))) - signed32 a) % 4294967296
      = 0 := by
  have hv2 : signed32 b ≠ 0 := by
    unfold signed32 toInt32
    omega
  have hv2' : toInt32 ((b % 4294967296 : Nat) : Int) ≠ 0 := hv2
  obtain ⟨ha0, ha1⟩ := signed32_range a
  obtain ⟨hb0, hb1⟩ := signed32_range b
  obtain ⟨hs1, hs2, hs3⟩ := tmod_sign_bound (signed32 a) (signed32 b) hv2
  have hr0 : -2147483648 ≤ Int.tmod (signed32 a) (signed32 b) := by omega
  have hr1 : Int.tmod (signed32 a) (signed32 b) < 2147483648 := by omega
  have hr : signed32 (toUint64 (Int.tmod (signed32 a) (signed32 b)))
      = Int.tmod (signed32 a) (signed32 b) := signed32_toUint64 _ hr0 hr1
  have hq : signed32 (toUint64 (toInt32 (Int.tdiv (signed32 a) (signed32 b))))
      = toInt32 (Int.tdiv (signed32 a) (signed32 b)) := by
    apply signed32_toUint64 <;> (unfold toInt32; omega)
  refine ⟨?_, ?_, Int.natAbs_tdiv _ _, hs1, hs2, hs3, ?_, ?_⟩
  · rw [two_words]
    simp only [i32RemS, Step_bind_apply, popInt32_concat, Step.lift, remInt, if_neg hv2',
      pushInt32, pushUint64_spare]
    rfl
  · rw [hr, Int.tmod_def]
  · rw [two_words]
    simp only [i32DivS, Step_bind_apply, popInt32_concat, Step.lift, divInt32, if_neg hv2',
      pushInt32, pushUint64_spare]
    rfl
  · rw [hr, hq, toInt32_congr]
    have hT := Int.tmod_add_tdiv (signed32 a) (signed32 b)
    apply Int.emod_eq_zero_of_dvd
    refine ⟨-(((Int.tdiv (signed32 a) (signed32 b) + 2147483648) / 4294967296) * signed32 b), ?_⟩
    linear_combination hT

theorem i32RemS_truncated_witness :
    i32RemS demoRuntime (withStack demoVM ([] ++ [4294967289, 2]) [])
      = (withStack demoVM ([] ++ [18446744073709551615]) [2], .ok ()) ∧
    signed32 18446744073709551615 = (-7) - 2 * (-3) ∧
    (Int.tdiv (-7) 2).natAbs = 7 / 2 ∧
    ((0 : Int) ≤ -7 → (0 : Int) ≤ -1) ∧
    ((-7 : Int) ≤ 0 → (-1 : Int) ≤ 0) ∧
    (-1 : Int).natAbs < (2 : Int).natAbs ∧
    i32DivS demoRuntime (withStack demoVM ([] ++ [4294967289, 2]) [])
      = (withStack demoVM ([] ++ [18446744073709551613]) [2], .ok ()) ∧
    (signed32 18446744073709551613 * 2 + signed32 18446744073709551615 - (-7)) % 4294967296
      = 0 :=
  i32RemS_truncated demoRuntime demoVM [] [] 4294967289 2 (by decide)

/-! ## Operand order -/

/-- C17: on a stack `s` followed by `a` then `b` (`b` on top), each of the `i32` operators `sub`,
`div_s`, `div_u`, `rem_s`, `rem_u`, `shl`, `shr_s`, `shr_u` pops `b` first as `v2` and `a` second
as `v1` and pushes the one value `v1 op v2`: the stack after it is `s` followed by that value,
the words of `s` and the rest of the instance being unchanged.  For `sub`, `shl`, `shr_s` and
`shr_u` this holds for all operands (a second operand 0 included); for `div_s`, `div_u`,
`rem_s`, `rem_u` it holds when the divisor `b` has non-zero low 32 bits.  For `sub` the value is
`(a - b) mod 2 ^ 32`.  The same holds for the `i64` operators on the words `c` then `d`, the
divisions and remainders for `d mod 2 ^ 64 ≠ 0`, with `(c - d) mod 2 ^ 64` for `sub`. -/
theorem operand_order (rt : Runtime) (vm : VMInterpreter) (s sp : List Nat) (a b c d : Nat) :
    (i32Sub rt (withStack vm (s ++ [a, b]) sp)
      = (withStack vm
          (s ++ [toUint32 (((a % 4294967296 : Nat) : Int) - ((b % 4294967296 : Nat) : Int))])
          (b :: sp), .ok ()) ∧
    (b % 4294967296 ≠ 0 →
      i32DivS rt (withStack vm (s ++ [a, b]) sp)
        = (withStack vm (s ++ [toUint64 (toInt32 (Int.tdiv (signed32 a) (signed32 b)))])
            (b :: sp), .ok ())) ∧
    (b % 4294967296 ≠ 0 →
      i32DivU rt (withStack vm (s ++ [a, b]) sp)
        = (withStack vm (s ++ [a % 4294967296 / (b % 4294967296)]) (b :: sp), .ok ())) ∧
    (b % 4294967296 ≠ 0 →
      i32RemS rt (withStack vm (s ++ [a, b]) sp)
        = (withStack vm (s ++ [toUint64 (Int.tmod (signed32 a) (signed32 b))]) (b :: sp),
            .ok ())) ∧
    (b % 4294967296 ≠ 0 →
      i32RemU rt (withStack vm (s ++ [a, b]) sp)
        = (withStack vm (s ++ [a % 4294967296 % (b % 4294967296)]) (b :: sp), .ok ())) ∧
    i32Shl rt (withStack vm (s ++ [a, b]) sp)
      = (withStack vm (s ++ [(a % 4294967296) <<< (b % 4294967296) % 4294967296]) (b :: sp),
          .ok ()) ∧
    i32ShrS rt (withStack vm (s ++ [a, b]) sp)
      = (withStack vm (s ++ [toUint64 (signed32 a >>> (b % 4294967296))]) (b :: sp), .ok ()) ∧
    i32ShrU rt (withStack vm (s ++ [a, b]) sp)
      = (withStack vm (s ++ [(a % 4294967296) >>> (b % 4294967296)]) (b :: sp), .ok ())) ∧
    (i64Sub rt (withStack vm (s ++ [c, d]) sp)
      = (withStack vm (s ++ [toUint64 ((c : Int) - (d : Int))]) (d :: sp), .ok ()) ∧
    (d % 18446744073709551616 ≠ 0 →
      i64DivS rt (withStack vm (s ++ [c, d]) sp)
        = (withStack vm (s ++ [toUint64 (toInt64 (Int.tdiv (signed64 c) (signed64 d)))])
            (d :: sp), .ok ())) ∧
    (d % 18446744073709551616 ≠ 0 →
      i64DivU rt (withStack vm (s ++ [c, d]) sp)
        = (withStack vm (s ++ [c / d]) (d :: sp), .ok ())) ∧
    (d % 18446744073709551616 ≠ 0 →
      i64RemS rt (withStack vm (s ++ [c, d]) sp)
        = (withStack vm (s ++ [toUint64 (Int.tmod (signed64 c) (signed64 d))]) (d :: sp),
            .ok ())) ∧
    (d % 18446744073709551616 ≠ 0 →
      i64RemU rt (withStack vm (s ++ [c, d]) sp)
        = (withStack vm (s ++ [c % d]) (d :: sp), .ok ())) ∧
    i64Shl rt (withStack vm (s ++ [c, d]) sp)
      = (withStack vm (s ++ [c <<< d % 18446744073709551616]) (d :: sp), .ok ()) ∧
    i64ShrS rt (withStack vm (s ++ [c, d]) sp)
      = (withStack vm (s ++ [toUint64 (signed64 c >>> d)]) (d :: sp), .ok ()) ∧
    i64ShrU rt (withStack vm (s ++ [c, d]) sp)
      = (withStack vm (s ++ [c >>> d]) (d :: sp), .ok ())) := by
  have hv2 : b % 4294967296 ≠ 0 → toInt32 ((b % 4294967296 : Nat) : Int) ≠ 0 := by
    intro hb
    unfold toInt32
    omega
  have hw2 : d % 18446744073709551616 ≠ 0 → toInt64 (d : Int) ≠ 0 := by
    intro hd
    unfold toInt64
    omega
  have hd0 : d % 18446744073709551616 ≠ 0 → d ≠ 0 := by
    intro hd h0
    rw [h0] at hd
    exact hd rfl
  refine ⟨⟨?_, ?_, ?_, ?_, ?_, ?_, ?_, ?_⟩, ?_, ?_, ?_, ?_, ?_, ?_, ?_, ?_⟩
  all_goals rw [two_words]
  · simp only [i32Sub, Step_bind_apply, popUint32_concat, pushUint32, pushUint64_spare]
  · intro hb
    simp only [i32DivS, Step_bind_apply, popInt32_concat, Step.lift, divInt32, if_neg (hv2 hb),
      pushInt32, pushUint64_spare]
    rfl
  · intro hb
    simp only [i32DivU, Step_bind_apply, popUint32_concat, Step.lift, divUint, if_neg hb,
      pushUint32, pushUint64_spare]
  · intro hb
    simp only [i32RemS, Step_bind_apply, popInt32_concat, Step.lift, remInt, if_neg (hv2 hb),
      pushInt32, pushUint64_spare]
    rfl
  · intro hb
    simp only [i32RemU, Step_bind_apply, popUint32_concat, Step.lift, remUint, if_neg hb,
      pushUint32, pushUint64_spare]
  · simp only [i32Shl, Step_bind_apply, popUint32_concat, pushUint32, pushUint64_spare]
  · simp only [i32ShrS, Step_bind_apply, popUint32_concat, popInt32_concat, pushInt32,
      pushUint64_spare]
    rfl
  · simp only [i32ShrU, Step_bind_apply, popUint32_concat, pushUint32, pushUint64_spare]
  · simp only [i64Sub, Step_bind_apply, popUint64_concat, pushUint64_spare]
  · intro hd
    simp only [i64DivS, Step_bind_apply, popInt64_concat, Step.lift, divInt64, if_neg (hw2 hd),
      pushInt64, pushUint64_spare]
    rfl
  · intro hd
    simp only [i64DivU, Step_bind_apply, popUint64_concat, Step.lift, divUint, if_neg (hd0 hd),
      pushUint64_spare]
  · intro hd
    simp only [i64RemS, Step_bind_apply, popInt64_concat, Step.lift, remInt, if_neg (hw2 hd),
      pushInt64, pushUint64_spare]
    rfl
  · intro hd
    simp only [i64RemU, Step_bind_apply, popUint64_concat, Step.lift, remUint, if_neg (hd0 hd),
      pushUint64_spare]
  · simp only [i64Shl, Step_bind_apply, popUint64_concat, pushUint64_spare]
  · simp only [i64ShrS, Step_bind_apply, popUint64_concat, popInt64_concat, pushInt64,
      pushUint64_spare]
    rfl
  · simp only [i64ShrU, Step_bind_apply, popUint64_concat, pushUint64_spare]

theorem operand_order_witness :
    ((i32Sub demoRuntime (withStack demoVM ([9] ++ [20, 3]) [])
      = (withStack demoVM ([9] ++ [17]) [3], .ok ()) ∧
    i32DivS demoRuntime (withStack demoVM ([9] ++ [20, 3]) [])
      = (withStack demoVM ([9] ++ [6]) [3], .ok ()) ∧
    i32DivU demoRuntime (withStack demoVM ([9] ++ [20, 3]) [])
      = (withStack demoVM ([9] ++ [6]) [3], .ok ()) ∧
    i32RemS demoRuntime (withStack demoVM ([9] ++ [20, 3]) [])
      = (withStack demoVM ([9] ++ [2]) [3], .ok ()) ∧
    i32RemU demoRuntime (withStack demoVM ([9] ++ [20, 3]) [])
      = (withStack demoVM ([9] ++ [2]) [3], .ok ()) ∧
    i32Shl demoRuntime (withStack demoVM ([9] ++ [20, 3]) [])
      = (withStack demoVM ([9] ++ [160]) [3], .ok ()) ∧
    i32ShrS demoRuntime (withStack demoVM ([9] ++ [20, 3]) [])
      = (withStack demoVM ([9] ++ [2]) [3], .ok ()) ∧
    i32ShrU demoRuntime (withStack demoVM ([9] ++ [20, 3]) [])
      = (withStack demoVM ([9] ++ [2]) [3], .ok ())) ∧
    (i64Sub demoRuntime (withStack demoVM ([9] ++ [3, 20]) [])
      = (withStack demoVM ([9] ++ [18446744073709551599]) [20], .ok ()) ∧
    i64DivS demoRuntime (withStack demoVM ([9] ++ [3, 20]) [])
      = (withStack demoVM ([9] ++ [0]) [20], .ok ()) ∧
    i64DivU demoRuntime (withStack demoVM ([9] ++ [3, 20]) [])
      = (withStack demoVM ([9] ++ [0]) [20], .ok ()) ∧
    i64RemS demoRuntime (withStack demoVM ([9] ++ [3, 20]) [])
      = (withStack demoVM ([9] ++ [3]) [20], .ok ()) ∧
    i64RemU demoRuntime (withStack demoVM ([9] ++ [3, 20]) [])
      = (withStack demoVM ([9] ++ [3]) [20], .ok ()) ∧
    i64Shl demoRuntime (withStack demoVM ([9] ++ [3, 20]) [])
      = (withStack demoVM ([9] ++ [3145728]) [20], .ok ()) ∧
    i64ShrS demoRuntime (withStack demoVM ([9] ++ [3, 20]) [])
      = (withStack demoVM ([9] ++ [0]) [20], .ok ()) ∧
    i64ShrU demoRuntime (withStack demoVM ([9] ++ [3, 20]) [])
      = (withStack demoVM ([9] ++ [0]) [20], .ok ()))) ∧
    (i32Sub demoRuntime (withStack demoVM ([9] ++ [20, 0]) [])
      = (withStack demoVM ([9] ++ [20]) [0], .ok ()) ∧
    i32Shl demoRuntime (withStack demoVM ([9] ++ [20, 0]) [])
      = (withStack demoVM ([9] ++ [20]) [0], .ok ()) ∧
    i32ShrS demoRuntime (withStack demoVM ([9] ++ [20, 0]) [])
      = (withStack demoVM ([9] ++ [20]) [0], .ok ()) ∧
    i32ShrU demoRuntime (withStack demoVM ([9] ++ [20, 0]) [])
      = (withStack demoVM ([9] ++ [20]) [0], .ok ()) ∧
    i64Sub demoRuntime (withStack demoVM ([9] ++ [20, 0]) [])
      = (withStack demoVM ([9] ++ [20]) [0], .ok ()) ∧
    i64Shl demoRuntime (withStack demoVM ([9] ++ [20, 0]) [])
      = (withStack demoVM ([9] ++ [20]) [0], .ok ()) ∧
    i64ShrS demoRuntime (withStack demoVM ([9] ++ [20, 0]) [])
      = (withStack demoVM ([9] ++ [20]) [0], .ok ()) ∧
    i64ShrU demoRuntime (withStack demoVM ([9] ++ [20, 0]) [])
      = (withStack demoVM ([9] ++ [20]) [0], .ok ())) :=
  have h := operand_order demoRuntime demoVM [9] [] 20 3 3 20
  have z := operand_order demoRuntime demoVM [9] [] 20 0 20 0
  ⟨⟨⟨h.1.1, h.1.2.1 (by decide), h.1.2.2.1 (by decide), h.1.2.2.2.1 (by decide),
      h.1.2.2.2.2.1 (by decide), h.1.2.2.2.2.2.1, h.1.2.2.2.2.2.2.1, h.1.2.2.2.2.2.2.2⟩,
    h.2.1, h.2.2.1 (by decide), h.2.2.2.1 (by decide), h.2.2.2.2.1 (by decide),
      h.2.2.2.2.2.1 (by decide), h.2.2.2.2.2.2.1, h.2.2.2.2.2.2.2.1, h.2.2.2.2.2.2.2.2⟩,
    z.1.1, z.1.2.2.2.2.2.1, z.1.2.2.2.2.2.2.1, z.1.2.2.2.2.2.2.2,
    z.2.1, z.2.2.2.2.2.2.1, z.2.2.2.2.2.2.2.1, z.2.2.2.2.2.2.2.2⟩

/-! ## Shifts and rotations -/

theorem low32_toUint64 (z : Int) :
    ((toUint64 z % 4294967296 : Nat) : Int) = z % 4294967296 := by
  unfold toUint64
  omega

theorem toUint64_cast (z : Int) : ((toUint64 z : Nat) : Int) = z % 18446744073709551616 := by
  unfold toUint64
  omega

/-- C18: for a shift amount `n < 32` on top of the word `x`, `i32.shr_s` pushes a slot whose low
32 bits are `⌊v / 2 ^ n⌋ mod 2 ^ 32`, with `v` the signed `i32` value of `x` (an arithmetic
shift), and `i32.shr_u` pushes `⌊x32 / 2 ^ n⌋`, with `x32` the low 32 bits of `x` (a logical
shift); for a shift amount `m` on top of the word `y` (in particular for `m < 64`), `i64.shr_s`
pushes `⌊w / 2 ^ m⌋ mod 2 ^ 64`, with `w` the signed value of `y`, and `i64.shr_u` pushes
`⌊y / 2 ^ m⌋`. -/
theorem shr_arithmetic_logical (rt : Runtime) (vm : VMInterpreter) (s sp : List Nat)
    (x n y m : Nat) (hn : n < 32) :
    i32ShrS rt (withStack vm (s ++ [x, n]) sp)
      = (withStack vm (s ++ [toUint64 (signed32 x >>> n)]) (n :: sp), .ok ()) ∧
    ((toUint64 (signed32 x >>> n) % 4294967296 : Nat) : Int)
      = (signed32 x / 2 ^ n) % 4294967296 ∧
    i32ShrU rt (withStack vm (s ++ [x, n]) sp)
      = (withStack vm (s ++ [x % 4294967296 / 2 ^ n]) (n :: sp), .ok ()) ∧
    i64ShrS rt (withStack vm (s ++ [y, m]) sp)
      = (withStack vm (s ++ [toUint64 (signed64 y >>> m)]) (m :: sp), .ok ()) ∧
    ((toUint64 (signed64 y >>> m) : Nat) : Int)
      = (signed64 y / 2 ^ m) % 18446744073709551616 ∧
    i64ShrU rt (withStack vm (s ++ [y, m]) sp)
      = (withStack vm (s ++ [y / 2 ^ m]) (m :: sp), .ok ()) := by
  have hn32 : n % 4294967296 = n := Nat.mod_eq_of_lt (by omega)
  refine ⟨?_, ?_, ?_, ?_, ?_, ?_⟩
  · rw [two_words]
    simp only [i32ShrS, Step_bind_apply, popUint32_concat, popInt32_concat, pushInt32,
      pushUint64_spare, hn32]
    rfl
  · rw [low32_toUint64, Int.shiftRight_eq_div_pow]
    norm_cast
  · rw [two_words]
    simp only [i32ShrU, Step_bind_apply, popUint32_concat, pushUint32, pushUint64_spare, hn32,
      Nat.shiftRight_eq_div_pow]
  · rw [two_words]
    simp only [i64ShrS, Step_bind_apply, popUint64_concat, popInt64_concat, pushInt64,
      pushUint64_spare]
    rfl
  · rw [toUint64_cast, Int.shiftRight_eq_div_pow]
    norm_cast
  · rw [two_words]
    simp only [i64ShrU, Step_bind_apply, popUint64_concat, pushUint64_spare,
      Nat.shiftRight_eq_div_pow]

theorem shr_arithmetic_logical_witness :
    i32ShrS demoRuntime (withStack demoVM ([] ++ [2147483648, 1]) [])
      = (withStack demoVM ([] ++ [18446744072635809792]) [1], .ok ()) ∧
    (3221225472 : Int) = (-2147483648 / 2 ^ 1) % 4294967296 ∧
    i32ShrU demoRuntime (withStack demoVM ([] ++ [2147483648, 1]) [])
      = (withStack demoVM ([] ++ [1073741824]) [1], .ok ()) ∧
    i64ShrS demoRuntime (withStack demoVM ([] ++ [9223372036854775808, 4]) [])
      = (withStack demoVM ([] ++ [17870283321406128128]) [4], .ok ()) ∧
    ((17870283321406128128 : Nat) : Int)
      = (-9223372036854775808 / 2 ^ 4) % 18446744073709551616 ∧
    i64ShrU demoRuntime (withStack demoVM ([] ++ [9223372036854775808, 4]) [])
      = (withStack demoVM ([] ++ [576460752303423488]) [4], .ok ()) :=
  shr_arithmetic_logical demoRuntime demoVM [] [] 2147483648 1 9223372036854775808 4
    (by decide)

theorem shl_ge_width (w a n : Nat) (hn : w ≤ n) : (a <<< n) % 2 ^ w = 0 := by
  rw [Nat.shiftLeft_eq]
  exact Nat.mod_eq_zero_of_dvd (Dvd.dvd.mul_left (pow_dvd_pow 2 hn) a)

theorem shr_ge_width (w a n : Nat) (ha : a < 2 ^ w) (hn : w ≤ n) : a >>> n = 0 := by
  rw [Nat.shiftRight_eq_div_pow]
  exact Nat.div_eq_of_lt (lt_of_lt_of_le ha (Nat.pow_le_pow_right (by decide) hn))

theorem sshr_ge_width (w : Nat) (v : Int) (n : Nat) (h0 : -(2 ^ w : Int) ≤ v)
    (h1 : v < (2 ^ w : Int)) (hn : w ≤ n) :
    v >>> n = if 0 ≤ v then 0 else -1 := by
  rw [Int.shiftRight_eq_div_pow]
  have hp : (2 ^ w : Int) ≤ ((2 ^ n : Nat) : Int) := by
    have := Nat.pow_le_pow_right (show 0 < 2 by decide) hn
    exact_mod_cast this
  have hpos : (0 : Int) < ((2 ^ n : Nat) : Int) := by positivity
  split
  · exact Int.ediv_eq_zero_of_lt (by assumption) (by omega)
  · have hlo : -1 ≤ v / ((2 ^ n : Nat) : Int) := by
      rw [Int.le_ediv_iff_mul_le hpos]
      omega
    have hhi : v / ((2 ^ n : Nat) : Int) < 0 := by
      rw [Int.ediv_lt_iff_lt_mul hpos]
      omega
    omega

theorem toInt64_range (x : Int) :
    -(2 ^ 63 : Int) ≤ toInt64 x ∧ toInt64 x < (2 ^ 63 : Int) := by
  unfold toInt64
  omega

theorem signed32_range_pow (w : Nat) :
    -(2 ^ 31 : Int) ≤ signed32 w ∧ signed32 w < (2 ^ 31 : Int) := by
  unfold signed32 toInt32
  omega

/-- C19 (as stated, refuted): the shift amount is not reduced modulo the bit width. With `x = 1`
and the amount 32, `i32.shl` leaves 0 on the stack, not `x = 1` (the shift by `32 mod 32`);
`i32.shr_u` of `0x80000000` by 32 leaves 0, `i32.shr_s` of `0x80000000` by 32 leaves −1 (all
bits set), and `i64.shl` of 1 by 64 leaves 0. No operator traps. -/
theorem shift_amount_not_masked :
    i32Shl demoRuntime (stackVM [1, 32]) = (withStack demoVM [0] [32], .ok ()) ∧
    (1 <<< (32 % 32)) % 4294967296 = 1 ∧
    i32ShrU demoRuntime (stackVM [2147483648, 32]) = (withStack demoVM [0] [32], .ok ()) ∧
    2147483648 >>> (32 % 32) = 2147483648 ∧
    i32ShrS demoRuntime (stackVM [2147483648, 32])
      = (withStack demoVM [18446744073709551615] [32], .ok ()) ∧
    toUint64 ((-2147483648 : Int) >>> (32 % 32)) = 18446744071562067968 ∧
    i64Shl demoRuntime (stackVM [1, 64]) = (withStack demoVM [0] [64], .ok ()) ∧
    (1 <<< (64 % 64)) % 18446744073709551616 = 1 :=
  ⟨rfl, rfl, rfl, rfl, rfl, rfl, rfl, rfl⟩

/-- C19 (amended): the shift operators shift by the amount itself.  For every word `x` with
the amount word `n` on top, `n32` being the low 32 bits of `n` and `x32` those of `x`,
`i32.shl` pushes `x32 * 2 ^ n32 mod 2 ^ 32`, `i32.shr_u` pushes `⌊x32 / 2 ^ n32⌋` and
`i32.shr_s` pushes `⌊v / 2 ^ n32⌋` for the signed value `v` of `x`; for every word `y` with the
amount `m` on top, `i64.shl` pushes `y * 2 ^ m mod 2 ^ 64`, `i64.shr_u` pushes `⌊y / 2 ^ m⌋` and
`i64.shr_s` pushes `⌊w / 2 ^ m⌋` for the signed value `w` of `y`.  For `n32 < 32` (for `m < 64`)
this is the shift by `n32 mod 32` (by `m mod 64`).  For `n32 ≥ 32`, `i32.shl` and `i32.shr_u`
push 0 and `i32.shr_s` pushes 0 when `v` is non-negative and −1 (all 64 bits of the slot set)
when it is negative; for `m ≥ 64` on top of a 64-bit word `y`, `i64.shl` and `i64.shr_u` push 0
and `i64.shr_s` pushes 0 or −1 by the sign of `y`.  None of them traps. -/
theorem shift_amount_unmasked (rt : Runtime) (vm : VMInterpreter) (s sp : List Nat)
    (x n y m : Nat) :
    (i32Shl rt (withStack vm (s ++ [x, n]) sp)
        = (withStack vm (s ++ [x % 4294967296 * 2 ^ (n % 4294967296) % 4294967296]) (n :: sp),
            .ok ()) ∧
      i32ShrU rt (withStack vm (s ++ [x, n]) sp)
        = (withStack vm (s ++ [x % 4294967296 / 2 ^ (n % 4294967296)]) (n :: sp), .ok ()) ∧
      i32ShrS rt (withStack vm (s ++ [x, n]) sp)
        = (withStack vm (s ++ [toUint64 (signed32 x / 2 ^ (n % 4294967296))]) (n :: sp),
            .ok ()) ∧
      i64Shl rt (withStack vm (s ++ [y, m]) sp)
        = (withStack vm (s ++ [y * 2 ^ m % 18446744073709551616]) (m :: sp), .ok ()) ∧
      i64ShrU rt (withStack vm (s ++ [y, m]) sp)
        = (withStack vm (s ++ [y / 2 ^ m]) (m :: sp), .ok ()) ∧
      i64ShrS rt (withStack vm (s ++ [y, m]) sp)
        = (withStack vm (s ++ [toUint64 (signed64 y / 2 ^ m)]) (m :: sp), .ok ())) ∧
    (n % 4294967296 < 32 →
      i32Shl rt (withStack vm (s ++ [x, n]) sp)
        = (withStack vm (s ++ [x % 4294967296 * 2 ^ (n % 4294967296 % 32) % 4294967296])
            (n :: sp), .ok ()) ∧
      i32ShrU rt (withStack vm (s ++ [x, n]) sp)
        = (withStack vm (s ++ [x % 4294967296 / 2 ^ (n % 4294967296 % 32)]) (n :: sp),
            .ok ()) ∧
      i32ShrS rt (withStack vm (s ++ [x, n]) sp)
        = (withStack vm (s ++ [toUint64 (signed32 x / 2 ^ (n % 4294967296 % 32))]) (n :: sp),
            .ok ())) ∧
    (m < 64 →
      i64Shl rt (withStack vm (s ++ [y, m]) sp)
        = (withStack vm (s ++ [y * 2 ^ (m % 64) % 18446744073709551616]) (m :: sp), .ok ()) ∧
      i64ShrU rt (withStack vm (s ++ [y, m]) sp)
        = (withStack vm (s ++ [y / 2 ^ (m % 64)]) (m :: sp), .ok ()) ∧
      i64ShrS rt (withStack vm (s ++ [y, m]) sp)
        = (withStack vm (s ++ [toUint64 (signed64 y / 2 ^ (m % 64))]) (m :: sp), .ok ())) ∧
    (32 ≤ n % 4294967296 →
      i32Shl rt (withStack vm (s ++ [x, n]) sp)
        = (withStack vm (s ++ [0]) (n :: sp), .ok ()) ∧
      i32ShrU rt (withStack vm (s ++ [x, n]) sp)
        = (withStack vm (s ++ [0]) (n :: sp), .ok ()) ∧
      i32ShrS rt (withStack vm (s ++ [x, n]) sp)
        = (withStack vm (s ++ [if 0 ≤ signed32 x then 0 else 18446744073709551615]) (n :: sp),
            .ok ())) ∧
    (64 ≤ m → y < 18446744073709551616 →
      i64Shl rt (withStack vm (s ++ [y, m]) sp)
        = (withStack vm (s ++ [0]) (m :: sp), .ok ()) ∧
      i64ShrU rt (withStack vm (s ++ [y, m]) sp)
        = (withStack vm (s ++ [0]) (m :: sp), .ok ()) ∧
      i64ShrS rt (withStack vm (s ++ [y, m]) sp)
        = (withStack vm (s ++ [if 0 ≤ signed64 y then 0 else 18446744073709551615]) (m :: sp),
            .ok ())) := by
  have sdiv : ∀ (v : Int) (k : Nat), v >>> k = v / 2 ^ k := by
    intro v k
    rw [Int.shiftRight_eq_div_pow]
    norm_cast
  have g1 : i32Shl rt (withStack vm (s ++ [x, n]) sp)
      = (withStack vm (s ++ [x % 4294967296 * 2 ^ (n % 4294967296) % 4294967296]) (n :: sp),
          .ok ()) := by
    rw [two_words, ← Nat.shiftLeft_eq]
    simp only [i32Shl, Step_bind_apply, popUint32_concat, pushUint32, pushUint64_spare]
  have g2 : i32ShrU rt (withStack vm (s ++ [x, n]) sp)
      = (withStack vm (s ++ [x % 4294967296 / 2 ^ (n % 4294967296)]) (n :: sp), .ok ()) := by
    rw [two_words, ← Nat.shiftRight_eq_div_pow]
    simp only [i32ShrU, Step_bind_apply, popUint32_concat, pushUint32, pushUint64_spare]
  have g3 : i32ShrS rt (withStack vm (s ++ [x, n]) sp)
      = (withStack vm (s ++ [toUint64 (signed32 x / 2 ^ (n % 4294967296))]) (n :: sp),
          .ok ()) := by
    rw [two_words, ← sdiv]
    simp only [i32ShrS, Step_bind_apply, popUint32_concat, popInt32_concat, pushInt32,
      pushUint64_spare]
    rfl
  have g4 : i64Shl rt (withStack vm (s ++ [y, m]) sp)
      = (withStack vm (s ++ [y * 2 ^ m % 18446744073709551616]) (m :: sp), .ok ()) := by
    rw [two_words, ← Nat.shiftLeft_eq]
    simp only [i64Shl, Step_bind_apply, popUint64_concat, pushUint64_spare]
  have g5 : i64ShrU rt (withStack vm (s ++ [y, m]) sp)
      = (withStack vm (s ++ [y / 2 ^ m]) (m :: sp), .ok ()) := by
    rw [two_words, ← Nat.shiftRight_eq_div_pow]
    simp only [i64ShrU, Step_bind_apply, popUint64_concat, pushUint64_spare]
  have g6 : i64ShrS rt (withStack vm (s ++ [y, m]) sp)
      = (withStack vm (s ++ [toUint64 (signed64 y / 2 ^ m)]) (m :: sp), .ok ()) := by
    rw [two_words, ← sdiv]
    simp only [i64ShrS, Step_bind_apply, popUint64_concat, popInt64_concat, pushInt64,
      pushUint64_spare]
    rfl
  refine ⟨⟨g1, g2, g3, g4, g5, g6⟩, ?_, ?_, ?_, ?_⟩
  · intro hn
    rw [Nat.mod_eq_of_lt hn]
    exact ⟨g1, g2, g3⟩
  · intro hm
    rw [Nat.mod_eq_of_lt hm]
    exact ⟨g4, g5, g6⟩
  · intro hn
    have hx : x % 4294967296 < 2 ^ 32 := Nat.mod_lt _ (by decide)
    have e1 : x % 4294967296 * 2 ^ (n % 4294967296) % 4294967296 = 0 := by
      rw [← Nat.shiftLeft_eq]
      exact shl_ge_width 32 _ _ hn
    have e2 : x % 4294967296 / 2 ^ (n % 4294967296) = 0 := by
      rw [← Nat.shiftRight_eq_div_pow]
      exact shr_ge_width 32 _ _ hx hn
    have e3 : toUint64 (signed32 x / 2 ^ (n % 4294967296))
        = if 0 ≤ signed32 x then 0 else 18446744073709551615 := by
      rw [← sdiv, sshr_ge_width 31 (signed32 x) _ (signed32_range_pow x).1
        (signed32_range_pow x).2 (by omega)]
      split <;> rfl
    rw [g1, g2, g3, e1, e2, e3]
    exact ⟨rfl, rfl, rfl⟩
  · intro hm hy
    have e4 : y * 2 ^ m % 18446744073709551616 = 0 := by
      rw [← Nat.shiftLeft_eq]
      exact shl_ge_width 64 _ m hm
    have e5 : y / 2 ^ m = 0 := by
      rw [← Nat.shiftRight_eq_div_pow]
      exact shr_ge_width 64 _ m hy hm
    have e6 : toUint64 (signed64 y / 2 ^ m)
        = if 0 ≤ signed64 y then 0 else 18446744073709551615 := by
      rw [← sdiv, sshr_ge_width 63 (signed64 y) m (toInt64_range y).1 (toInt64_range y).2
        (by omega)]
      split <;> rfl
    rw [g4, g5, g6, e4, e5, e6]
    exact ⟨rfl, rfl, rfl⟩

theorem shift_amount_unmasked_witness :
    (i32Shl demoRuntime (withStack demoVM ([] ++ [1, 32]) [])
        = (withStack demoVM ([] ++ [0]) [32], .ok ()) ∧
      i32ShrU demoRuntime (withStack demoVM ([] ++ [1, 32]) [])
        = (withStack demoVM ([] ++ [0]) [32], .ok ()) ∧
      i32ShrS demoRuntime (withStack demoVM ([] ++ [1, 32]) [])
        = (withStack demoVM ([] ++ [if 0 ≤ signed32 1 then 0 else 18446744073709551615]) [32],
            .ok ())) ∧
    (i64Shl demoRuntime (withStack demoVM ([] ++ [9223372036854775808, 64]) [])
        = (withStack demoVM ([] ++ [0]) [64], .ok ()) ∧
      i64ShrU demoRuntime (withStack demoVM ([] ++ [9223372036854775808, 64]) [])
        = (withStack demoVM ([] ++ [0]) [64], .ok ()) ∧
      i64ShrS demoRuntime (withStack demoVM ([] ++ [9223372036854775808, 64]) [])
        = (withStack demoVM
            ([] ++ [if 0 ≤ signed64 9223372036854775808 then 0 else 18446744073709551615])
            [64], .ok ())) ∧
    (i32Shl demoRuntime (withStack demoVM ([] ++ [5, 0]) [])
        = (withStack demoVM ([] ++ [5 % 4294967296 * 2 ^ (0 % 4294967296 % 32) % 4294967296])
            [0], .ok ()) ∧
      i32ShrU demoRuntime (withStack demoVM ([] ++ [5, 0]) [])
        = (withStack demoVM ([] ++ [5 % 4294967296 / 2 ^ (0 % 4294967296 % 32)]) [0],
            .ok ()) ∧
      i32ShrS demoRuntime (withStack demoVM ([] ++ [5, 0]) [])
        = (withStack demoVM ([] ++ [toUint64 (signed32 5 / 2 ^ (0 % 4294967296 % 32))]) [0],
            .ok ())) :=
  ⟨(shift_amount_unmasked demoRuntime demoVM [] [] 1 32 9223372036854775808 64).2.2.2.1
      (by decide),
    (shift_amount_unmasked demoRuntime demoVM [] [] 1 32 9223372036854775808 64).2.2.2.2
      (by decide) (by decide),
    (shift_amount_unmasked demoRuntime demoVM [] [] 5 0 7 3).2.1 (by decide)⟩

theorem rot_arith (w s x : Nat) (hs : s ≤ w) (hx : x < 2 ^ w) :
    ((x <<< s) % 2 ^ w) ||| (x >>> (w - s)) = specRotl w x s := by
  unfold specRotl
  have hw : 2 ^ w = 2 ^ s * 2 ^ (w - s) := by
    rw [← pow_add]
    congr 1
    omega
  have e1 : (x <<< s) % 2 ^ w = 2 ^ s * (x % 2 ^ (w - s)) := by
    rw [Nat.shiftLeft_eq, hw, Nat.mul_comm x, Nat.mul_mod_mul_left]
  have e2 : x >>> (w - s) < 2 ^ s := by
    rw [Nat.shiftRight_eq_div_pow]
    apply Nat.div_lt_of_lt_mul
    rw [Nat.mul_comm, ← hw]
    exact hx
  rw [e1, ← Nat.mul_add_lt_is_or e2, Nat.shiftRight_eq_div_pow]

theorem specRotl_zero (w x : Nat) (hx : x < 2 ^ w) : specRotl w x 0 = x := by
  unfold specRotl
  simp [Nat.mod_eq_of_lt hx, Nat.div_eq_of_lt hx]

theorem specRotr_zero (w x : Nat) : specRotr w x 0 = x := by
  unfold specRotr
  simp [Nat.mod_one]

theorem specRotl_compl (w x k : Nat) (hk : k ≤ w) : specRotl w x (w - k) = specRotr w x k := by
  unfold specRotl specRotr
  have : w - (w - k) = k := by omega
  rw [this]

theorem specRotr_lt (w x k : Nat) (hk : k ≤ w) (hx : x < 2 ^ w) : specRotr w x k < 2 ^ w := by
  unfold specRotr
  have hw : 2 ^ w = 2 ^ (w - k) * 2 ^ k := by
    rw [← pow_add]
    congr 1
    omega
  have h1 : x % 2 ^ k < 2 ^ k := Nat.mod_lt _ (by positivity)
  have h2 : x / 2 ^ k < 2 ^ (w - k) := by
    apply Nat.div_lt_of_lt_mul
    rw [Nat.mul_comm, ← hw]
    exact hx
  rw [hw]
  calc 2 ^ (w - k) * (x % 2 ^ k) + x / 2 ^ k
      < 2 ^ (w - k) * (x % 2 ^ k) + 2 ^ (w - k) := by omega
    _ = 2 ^ (w - k) * (x % 2 ^ k + 1) := by ring
    _ ≤ 2 ^ (w - k) * 2 ^ k := Nat.mul_le_mul_left _ h1

theorem specRotl_specRotr (w x k : Nat) (hk : k ≤ w) (hx : x < 2 ^ w) :
    specRotl w (specRotr w x k) k = x := by
  unfold specRotl specRotr
  have hw : 2 ^ w = 2 ^ (w - k) * 2 ^ k := by
    rw [← pow_add]
    congr 1
    omega
  have h2 : x / 2 ^ k < 2 ^ (w - k) := by
    apply Nat.div_lt_of_lt_mul
    rw [Nat.mul_comm, ← hw]
    exact hx
  have hp : 0 < 2 ^ (w - k) := by positivity
  rw [Nat.mul_add_mod, Nat.mod_eq_of_lt h2, Nat.mul_add_div hp, Nat.div_eq_of_lt h2,
    Nat.add_zero]
  exact Nat.div_add_mod x (2 ^ k)

theorem specRotl_neg (w x k : Nat) (hk : k < w) (hx : x < 2 ^ w) :
    specRotl w x ((w - k) % w) = specRotr w x k := by
  rcases Nat.eq_zero_or_pos k with h0 | hpos
  · subst h0
    rw [Nat.sub_zero, Nat.mod_self, specRotl_zero w x hx, specRotr_zero]
  · rw [Nat.mod_eq_of_lt (by omega), specRotl_compl w x k (by omega)]

theorem RotateLeft32_eq (x : Nat) (k : Int) (hx : x < 4294967296) :
    RotateLeft32 x k = specRotl 32 x (k % 32).toNat := by
  have h := rot_arith 32 (k % 32).toNat x (by omega) hx
  exact h

theorem RotateLeft64_eq (x : Nat) (k : Int) (hx : x < 18446744073709551616) :
    RotateLeft64 x k = specRotl 64 x (k % 64).toNat := by
  have h := rot_arith 64 (k % 64).toNat x (by omega) hx
  exact h

theorem slice_eq_none (s : List Byte) (lo hi : Int)
    (h : lo < 0 ∨ hi < lo ∨ (s.length : Int) < hi) : slice s lo hi = none := by
  unfold slice
  rw [if_neg]
  omega

/-- C11 (refuted): for an offset outside the memory, `off < 0` or `len(mem) < off`, both
`ReadAt(p, off)` and `WriteAt(p, off)` panic on a slice expression (`mem[off:off+length]`,
`mem[off:]`) for every buffer `p`: no count and no error is returned. -/
theorem ReadAt_WriteAt_panic_outside (proc : Process) (p : List Byte) (off : Int)
    (h : off < 0 ∨ (proc.vm.Mem.ByteMem.length : Int) < off) :
    proc.ReadAt p off = none ∧ proc.WriteAt p off = none := by
  constructor
  · unfold Process.ReadAt
    dsimp only
    rw [slice_eq_none]
    split <;> omega
  · unfold Process.WriteAt
    dsimp only
    rw [slice_eq_none _ off _ (by omega)]

theorem ReadAt_WriteAt_panic_outside_witness :
    smallMemoryProcess.ReadAt tooBigABuffer 4 = none ∧
    smallMemoryProcess.WriteAt tooBigABuffer 4 = none :=
  ReadAt_WriteAt_panic_outside smallMemoryProcess tooBigABuffer 4 (Or.inr (by decide))

theorem setupFrame_ok (c : compiledFunction) (fnIndex : Int) (args : List Nat)
    (vm : VMInterpreter) (h0 : 0 ≤ c.totalLocalVars)
    (h1 : (args.length : Int) ≤ c.totalLocalVars) :
    setupFrame c fnIndex args vm = ((setupFrame c fnIndex args vm).1, .ok ()) := by
  unfold setupFrame
  dsimp only
  rw [if_neg (by omega), if_neg (by omega)]

theorem compiledAt_eq (vm : VMInterpreter) (i : Int) (c : compiledFunction) (h0 : 0 ≤ i)
    (hc : vm.funcs.get? i.toNat = some (function.compiled c)) :
    compiledAt i vm = (vm, .ok c) := by
  unfold compiledAt
  rw [if_pos h0, hc]

theorem functionSig_eq (rt : Runtime) (vm : VMInterpreter) (i : Int) (f : Function)
    (hf : rt.getFunction vm.module i = some f) :
    functionSig rt i vm = (vm, .ok f.Sig) := by
  unfold functionSig
  rw [hf]

theorem rot_amount32 (n : Nat) : ((((n % 4294967296 : Nat) : Int)) % 32).toNat = n % 32 := by
  omega

theorem rot_amount_neg32 (n : Nat) :
    ((-((n % 4294967296 : Nat) : Int)) % 32).toNat = (32 - n % 32) % 32 := by
  omega

theorem rot_amount_negword32 (n : Nat) :
    ((((toUint32 (-(n : Int))) % 4294967296 : Nat) : Int) % 32).toNat = (32 - n % 32) % 32 := by
  unfold toUint32
  omega

theorem rot_amount64 (m : Nat) : (toInt64 (m : Int) % 64).toNat = m % 64 := by
  unfold toInt64
  omega

theorem rot_amount_neg64 (m : Nat) :
    (toInt64 (-(toInt64 (m : Int))) % 64).toNat = (64 - m % 64) % 64 := by
  unfold toInt64
  omega

theorem rot_amount_negword64 (m : Nat) :
    (toInt64 ((toUint64 (-(m : Int)) : Nat) : Int) % 64).toNat = (64 - m % 64) % 64 := by
  unfold toInt64 toUint64
  omega

/-- C20: on the words `x` and `n`, `i32.rotr` pushes the rotation of the low 32 bits of `x` by
`n mod 32` positions to the right, and so does `i32.rotl` with the amount `-n mod 2 ^ 32`;
`i32.rotl` pushes the rotation by `n mod 32` to the left, and `i32.rotl` by `n` of the word
that `i32.rotr` by `n` produced gives back the low 32 bits of `x`. The same holds for `i64`
with width 64 on a 64-bit word `y` and the amount `m`. -/
theorem rotation_identity (rt : Runtime) (vm : VMInterpreter) (s sp : List Nat)
    (x n y m : Nat) (hy : y < 18446744073709551616) :
    i32Rotr rt (withStack vm (s ++ [x, n]) sp)
      = (withStack vm (s ++ [specRotr 32 (x % 4294967296) (n % 32)]) (n :: sp), .ok ()) ∧
    i32Rotl rt (withStack vm (s ++ [x, toUint32 (-(n : Int))]) sp)
      = (withStack vm (s ++ [specRotr 32 (x % 4294967296) (n % 32)])
          (toUint32 (-(n : Int)) :: sp), .ok ()) ∧
    i32Rotl rt (withStack vm (s ++ [x, n]) sp)
      = (withStack vm (s ++ [specRotl 32 (x % 4294967296) (n % 32)]) (n :: sp), .ok ()) ∧
    i32Rotl rt (withStack vm (s ++ [specRotr 32 (x % 4294967296) (n % 32), n]) sp)
      = (withStack vm (s ++ [x % 4294967296]) (n :: sp), .ok ()) ∧
    i64Rotr rt (withStack vm (s ++ [y, m]) sp)
      = (withStack vm (s ++ [specRotr 64 y (m % 64)]) (m :: sp), .ok ()) ∧
    i64Rotl rt (withStack vm (s ++ [y, toUint64 (-(m : Int))]) sp)
      = (withStack vm (s ++ [specRotr 64 y (m % 64)]) (toUint64 (-(m : Int)) :: sp), .ok ()) ∧
    i64Rotl rt (withStack vm (s ++ [y, m]) sp)
      = (withStack vm (s ++ [specRotl 64 y (m % 64)]) (m :: sp), .ok ()) ∧
    i64Rotl rt (withStack vm (s ++ [specRotr 64 y (m % 64), m]) sp)
      = (withStack vm (s ++ [y]) (m :: sp), .ok ()) := by
  have hx : x % 4294967296 < 4294967296 := Nat.mod_lt _ (by decide)
  have hn : n % 32 < 32 := Nat.mod_lt _ (by decide)
  have hm : m % 64 < 64 := Nat.mod_lt _ (by decide)
  have r32 : specRotr 32 (x % 4294967296) (n % 32) < 4294967296 :=
    specRotr_lt 32 _ _ (Nat.le_of_lt hn) hx
  have r32m : specRotr 32 (x % 4294967296) (n % 32) % 4294967296
      = specRotr 32 (x % 4294967296) (n % 32) := Nat.mod_eq_of_lt r32
  have r64 : specRotr 64 y (m % 64) < 18446744073709551616 :=
    specRotr_lt 64 _ _ (Nat.le_of_lt hm) hy
  refine ⟨?_, ?_, ?_, ?_, ?_, ?_, ?_, ?_⟩
  · rw [two_words]
    simp only [i32Rotr, Step_bind_apply, popUint32_concat, pushUint32, pushUint64_spare]
    rw [RotateLeft32_eq _ _ hx, rot_amount_neg32, specRotl_neg 32 _ _ hn hx]
  · rw [two_words]
    simp only [i32Rotl, Step_bind_apply, popUint32_concat, pushUint32, pushUint64_spare]
    rw [RotateLeft32_eq _ _ hx, rot_amount_negword32, specRotl_neg 32 _ _ hn hx]
  · rw [two_words]
    simp only [i32Rotl, Step_bind_apply, popUint32_concat, pushUint32, pushUint64_spare]
    rw [RotateLeft32_eq _ _ hx, rot_amount32]
  · rw [two_words]
    simp only [i32Rotl, Step_bind_apply, popUint32_concat, pushUint32, pushUint64_spare]
    rw [r32m, RotateLeft32_eq _ _ r32, rot_amount32, specRotl_specRotr 32 _ _ (Nat.le_of_lt hn) hx]
  · rw [two_words]
    simp only [i64Rotr, Step_bind_apply, popUint64_concat, popInt64_concat, pushUint64_spare]
    rw [RotateLeft64_eq _ _ hy, rot_amount_neg64, specRotl_neg 64 _ _ hm hy]
  · rw [two_words]
    simp only [i64Rotl, Step_bind_apply, popUint64_concat, popInt64_concat, pushUint64_spare]
    rw [RotateLeft64_eq _ _ hy, rot_amount_negword64, specRotl_neg 64 _ _ hm hy]
  · rw [two_words]
    simp only [i64Rotl, Step_bind_apply, popUint64_concat, popInt64_concat, pushUint64_spare]
    rw [RotateLeft64_eq _ _ hy, rot_amount64]
  · rw [two_words]
    simp only [i64Rotl, Step_bind_apply, popUint64_concat, popInt64_concat, pushUint64_spare]
    rw [RotateLeft64_eq _ _ r64, rot_amount64, specRotl_specRotr 64 _ _ (Nat.le_of_lt hm) hy]

theorem rotation_identity_witness :
    i32Rotr demoRuntime (withStack demoVM ([] ++ [3, 33]) [])
      = (withStack demoVM ([] ++ [2147483649]) [33], .ok ()) ∧
    i32Rotl demoRuntime (withStack demoVM ([] ++ [3, 4294967263]) [])
      = (withStack demoVM ([] ++ [2147483649]) [4294967263], .ok ()) ∧
    i32Rotl demoRuntime (withStack demoVM ([] ++ [3, 33]) [])
      = (withStack demoVM ([] ++ [6]) [33], .ok ()) ∧
    i32Rotl demoRuntime (withStack demoVM ([] ++ [2147483649, 33]) [])
      = (withStack demoVM ([] ++ [3]) [33], .ok ()) ∧
    i64Rotr demoRuntime (withStack demoVM ([] ++ [3, 65]) [])
      = (withStack demoVM ([] ++ [9223372036854775809]) [65], .ok ()) ∧
    i64Rotl demoRuntime (withStack demoVM ([] ++ [3, 18446744073709551551]) [])
      = (withStack demoVM ([] ++ [9223372036854775809]) [18446744073709551551], .ok ()) ∧
    i64Rotl demoRuntime (withStack demoVM ([] ++ [3, 65]) [])
      = (withStack demoVM ([] ++ [6]) [65], .ok ()) ∧
    i64Rotl demoRuntime (withStack demoVM ([] ++ [9223372036854775809, 65]) [])
      = (withStack demoVM ([] ++ [3]) [65], .ok ()) :=
  rotation_identity demoRuntime demoVM [] [] 3 33 3 65 (by decide)

theorem execCode_void (rt : Runtime) (c : compiledFunction) (fuel : Nat)
    (vm0 vm1 : VMInterpreter) (hrun : execLoop rt fuel vm0 = (vm1, .ok (some ())))
    (hr : c.returns = false) :
    execCode rt c fuel vm0 = (vm1, .ok (some 0)) := by
  unfold execCode
  rw [hrun]
  simp only [hr, Bool.false_eq_true, if_false]

theorem execCode_top (rt : Runtime) (c : compiledFunction) (fuel : Nat)
    (vm0 vm1 : VMInterpreter) (t : Nat) (hrun : execLoop rt fuel vm0 = (vm1, .ok (some ())))
    (hr : c.returns = true) (htop : vm1.ctx.stack.getLast? = some t) :
    execCode rt c fuel vm0 = (vm1, .ok (some t)) := by
  unfold execCode
  rw [hrun]
  simp only [hr, if_true, stackTop, htop]

theorem ExecCodeBody_run (rt : Runtime) (vm vm1 : VMInterpreter) (fnIndex : Int)
    (args : List Nat) (fuel : Nat) (f : Function) (c : compiledFunction)
    (h0 : 0 ≤ fnIndex)
    (hc : vm.funcs.get? fnIndex.toNat = some (function.compiled c))
    (hf : rt.getFunction vm.module fnIndex = some f)
    (harity : f.Sig.ParamTypes.length = args.length)
    (hl1 : (args.length : Int) ≤ c.totalLocalVars)
    (hrun : execLoop rt fuel (setupFrame c fnIndex args vm).1 = (vm1, .ok (some ()))) :
    (c.returns = false →
      ExecCodeBody rt fnIndex args fuel vm = (vm1, .ok (some (RetVal.nil, none)))) ∧
    (∀ (t : Nat) (f1 : Function) (ty : ValueType), c.returns = true →
      vm1.ctx.stack.getLast? = some t →
      rt.getFunction vm1.module fnIndex = some f1 →
      f1.Sig.ReturnTypes.head? = some ty →
      ExecCodeBody rt fnIndex args fuel vm = (vm1, .ok (some (returnValue ty t)))) := by
  have hlen : ¬ (vm.funcs.length : Int) < fnIndex := by
    have := List.get?_eq_some.mp hc
    obtain ⟨h, _⟩ := this
    omega
  have hl0 : 0 ≤ c.totalLocalVars := by omega
  constructor
  · intro hr
    unfold ExecCodeBody
    rw [if_neg hlen]
    simp only [Step_bind_apply, functionSig_eq rt vm fnIndex f hf, harity, ne_eq,
      not_true_eq_false, if_false, compiledAt_eq vm fnIndex c h0 hc]
    rw [setupFrame_ok c fnIndex args vm hl0 hl1]
    simp only [execCode_void rt c fuel _ vm1 hrun hr, hr, Bool.false_eq_true, if_false,
      Step_pure_apply]
  · intro t f1 ty hr htop hf1 hty
    unfold ExecCodeBody
    rw [if_neg hlen]
    simp only [Step_bind_apply, functionSig_eq rt vm fnIndex f hf, harity, ne_eq,
      not_true_eq_false, if_false, compiledAt_eq vm fnIndex c h0 hc]
    rw [setupFrame_ok c fnIndex args vm hl0 hl1]
    simp only [execCode_top rt c fuel _ vm1 t hrun hr htop, hr, if_true, Step_bind_apply,
      functionSig_eq rt vm1 fnIndex f1 hf1, hty, Step_pure_apply]

theorem execLoop_next (rt : Runtime) (fuel : Nat) (vm vm1 : VMInterpreter)
    (hpc : vm.ctx.pc < (vm.ctx.code.length : Int)) (hab : vm.abort = false)
    (hstep : execStep rt vm = (vm1, .ok Flow.next)) :
    execLoop rt (fuel + 1) vm = execLoop rt fuel vm1 := by
  rw [execLoop]
  simp only [hpc, hab, and_self, if_true, hstep]

theorem execLoop_done (rt : Runtime) (fuel : Nat) (vm : VMInterpreter)
    (h : ¬ (vm.ctx.pc < (vm.ctx.code.length : Int) ∧ vm.abort = false)) :
    execLoop rt (fuel + 1) vm = (vm, .ok (some ())) := by
  rw [execLoop]
  simp only [h, if_false]

theorem fct1_run :
    execLoop exampleRuntime 2 (setupFrame fct1 0 [] exampleVM).1
      = (exampleFrame 0 fct1.code [42] [0] 5, .ok (some ())) :=
  (execLoop_next exampleRuntime 1 (exampleFrame 0 fct1.code [] [0, 0] 0)
      (exampleFrame 0 fct1.code [42] [0] 5) (by decide) rfl rfl).trans
    (execLoop_done exampleRuntime 0 (exampleFrame 0 fct1.code [42] [0] 5) (by decide))

theorem fct2_run :
    execLoop exampleRuntime 4 (setupFrame fct2 1 [] exampleVM).1
      = (exampleFrame 1 fct2.code [46] [6, 0] 11, .ok (some ())) :=
  (execLoop_next exampleRuntime 3 (exampleFrame 1 fct2.code [] [0, 0, 0] 0)
      (exampleFrame 1 fct2.code [40] [0, 0] 5) (by decide) rfl rfl).trans
    ((execLoop_next exampleRuntime 2 (exampleFrame 1 fct2.code [40] [0, 0] 5)
        (exampleFrame 1 fct2.code [40, 6] [0] 10) (by decide) rfl rfl).trans
      ((execLoop_next exampleRuntime 1 (exampleFrame 1 fct2.code [40, 6] [0] 10)
          (exampleFrame 1 fct2.code [46] [6, 0] 11) (by decide) rfl rfl).trans
        (execLoop_done exampleRuntime 0 (exampleFrame 1 fct2.code [46] [6, 0] 11)
          (by decide))))

theorem fct3_run :
    execLoop exampleRuntime 1 (setupFrame fct3 2 [] exampleVM).1
      = (exampleFrame 2 fct3.code [] [0] 0, .ok (some ())) :=
  execLoop_done exampleRuntime 0 (exampleFrame 2 fct3.code [] [0] 0) (by decide)

theorem fct4_run :
    execLoop exampleRuntime 2 (setupFrame fct4 3 [] exampleVM).1
      = (exampleFrame 3 fct4.code [4294967303] [0] 9, .ok (some ())) :=
  (execLoop_next exampleRuntime 1 (exampleFrame 3 fct4.code [] [0, 0] 0)
      (exampleFrame 3 fct4.code [4294967303] [0] 9) (by decide) rfl rfl).trans
    (execLoop_done exampleRuntime 0 (exampleFrame 3 fct4.code [4294967303] [0] 9) (by decide))

theorem fct5_run :
    execLoop exampleRuntime 2 (setupFrame fct1 4 [] exampleVM).1
      = (exampleFrame 4 fct1.code [42] [0] 5, .ok (some ())) :=
  (execLoop_next exampleRuntime 1 (exampleFrame 4 fct1.code [] [0, 0] 0)
      (exampleFrame 4 fct1.code [42] [0] 5) (by decide) rfl rfl).trans
    (execLoop_done exampleRuntime 0 (exampleFrame 4 fct1.code [42] [0] 5) (by decide))

theorem ExecCode_of_body (rt : Runtime) (vm vm1 : VMInterpreter) (fnIndex : Int)
    (args : List Nat) (fuel : Nat) (r : Option (RetVal × Option Err))
    (h : ExecCodeBody rt fnIndex args fuel vm = (vm1, .ok r)) :
    ExecCode rt vm fnIndex args fuel = (vm1, .ok r) := by
  unfold ExecCode
  rw [h]

/-- C13: let `fnIndex` name the compiled function `c` of an instance whose signature has as many
parameters as there are arguments (and `c` at least as many locals), and let the loop of
`execCode`, started on the frame that `ExecCode` sets up, end within `fuel` turns in the state
`vm1`.  Then `ExecCode` returns in the state `vm1`: with no value and no error when `c`
declares no result; and, when `c` declares a result, the top of the stack of `vm1` is `t` and the
declared return type is `ty`, with `t mod 2 ^ 32` as `u32` for `I32`, `t` as `u64` for `I64`,
the bit pattern `t mod 2 ^ 32` as `f32` for `F32`, the bit pattern `t` as `f64` for `F64`, and
with no value and `InvalidReturnTypeError` for every other type. -/
theorem ExecCode_result (rt : Runtime) (vm vm1 : VMInterpreter) (fnIndex : Int)
    (args : List Nat) (fuel : Nat) (f f1 : Function) (c : compiledFunction) (t : Nat)
    (ty : ValueType)
    (h0 : 0 ≤ fnIndex)
    (hc : vm.funcs.get? fnIndex.toNat = some (function.compiled c))
    (hf : rt.getFunction vm.module fnIndex = some f)
    (harity : f.Sig.ParamTypes.length = args.length)
    (hl1 : (args.length : Int) ≤ c.totalLocalVars)
    (hrun : execLoop rt fuel (setupFrame c fnIndex args vm).1 = (vm1, .ok (some ())))
    (htop : c.returns = true → vm1.ctx.stack.getLast? = some t)
    (hty : c.returns = true →
      rt.getFunction vm1.module fnIndex = some f1 ∧ f1.Sig.ReturnTypes.head? = some ty) :
    (c.returns = false →
      ExecCode rt vm fnIndex args fuel = (vm1, .ok (some (RetVal.nil, none)))) ∧
    (c.returns = true → ty = ValueType.I32 →
      ExecCode rt vm fnIndex args fuel
        = (vm1, .ok (some (RetVal.u32 (t % 4294967296), none)))) ∧
    (c.returns = true → ty = ValueType.I64 →
      ExecCode rt vm fnIndex args fuel = (vm1, .ok (some (RetVal.u64 t, none)))) ∧
    (c.returns = true → ty = ValueType.F32 →
      ExecCode rt vm fnIndex args fuel
        = (vm1, .ok (some (RetVal.f32 (t % 4294967296), none)))) ∧
    (c.returns = true → ty = ValueType.F64 →
      ExecCode rt vm fnIndex args fuel = (vm1, .ok (some (RetVal.f64 t, none)))) ∧
    (c.returns = true → ∀ v : Int, ty = ValueType.other v →
      ExecCode rt vm fnIndex args fuel
        = (vm1, .ok (some (RetVal.nil,
            some (Err.InvalidReturnTypeError (ValueType.other v)))))) := by
  have hb := ExecCodeBody_run rt vm vm1 fnIndex args fuel f c h0 hc hf harity hl1 hrun
  refine ⟨?_, ?_, ?_, ?_, ?_, ?_⟩
  · intro hr
    exact ExecCode_of_body _ _ _ _ _ _ _ (hb.1 hr)
  · intro hr he
    have h := hb.2 t f1 ty hr (htop hr) (hty hr).1 (hty hr).2
    rw [he] at h
    exact ExecCode_of_body _ _ _ _ _ _ _ h
  · intro hr he
    have h := hb.2 t f1 ty hr (htop hr) (hty hr).1 (hty hr).2
    rw [he] at h
    exact ExecCode_of_body _ _ _ _ _ _ _ h
  · intro hr he
    have h := hb.2 t f1 ty hr (htop hr) (hty hr).1 (hty hr).2
    rw [he] at h
    exact ExecCode_of_body _ _ _ _ _ _ _ h
  · intro hr he
    have h := hb.2 t f1 ty hr (htop hr) (hty hr).1 (hty hr).2
    rw [he] at h
    exact ExecCode_of_body _ _ _ _ _ _ _ h
  · intro hr v he
    have h := hb.2 t f1 ty hr (htop hr) (hty hr).1 (hty hr).2
    rw [he] at h
    exact ExecCode_of_body _ _ _ _ _ _ _ h

theorem ExecCode_result_witness :
    ExecCode exampleRuntime exampleVM 0 [] 2
      = (exampleFrame 0 fct1.code [42] [0] 5, .ok (some (RetVal.u32 42, none))) ∧
    ExecCode exampleRuntime exampleVM 1 [] 4
      = (exampleFrame 1 fct2.code [46] [6, 0] 11, .ok (some (RetVal.u32 46, none))) ∧
    ExecCode exampleRuntime exampleVM 2 [] 1
      = (exampleFrame 2 fct3.code [] [0] 0, .ok (some (RetVal.nil, none))) ∧
    ExecCode exampleRuntime exampleVM 3 [] 2
      = (exampleFrame 3 fct4.code [4294967303] [0] 9,
          .ok (some (RetVal.u64 4294967303, none))) ∧
    ExecCode exampleRuntime exampleVM 4 [] 2
      = (exampleFrame 4 fct1.code [42] [0] 5,
          .ok (some (RetVal.nil, some (Err.InvalidReturnTypeError (ValueType.other 5))))) :=
  ⟨(ExecCode_result exampleRuntime exampleVM (exampleFrame 0 fct1.code [42] [0] 5) 0 [] 2
      { Sig := { ReturnTypes := [ValueType.I32] } }
      { Sig := { ReturnTypes := [ValueType.I32] } } fct1 42 ValueType.I32 (by decide) rfl rfl rfl
      (by decide) fct1_run (fun _ => rfl) (fun _ => ⟨rfl, rfl⟩)).2.1 rfl rfl,
    (ExecCode_result exampleRuntime exampleVM (exampleFrame 1 fct2.code [46] [6, 0] 11) 1 [] 4
      { Sig := { ReturnTypes := [ValueType.I32] } }
      { Sig := { ReturnTypes := [ValueType.I32] } } fct2 46 ValueType.I32 (by decide) rfl rfl rfl
      (by decide) fct2_run (fun _ => rfl) (fun _ => ⟨rfl, rfl⟩)).2.1 rfl rfl,
    (ExecCode_result exampleRuntime exampleVM (exampleFrame 2 fct3.code [] [0] 0) 2 [] 1
      { Sig := {} } { Sig := {} } fct3 0 ValueType.I32 (by decide) rfl rfl rfl (by decide)
      fct3_run (fun h => absurd h (by decide)) (fun h => absurd h (by decide))).1 rfl,
    (ExecCode_result exampleRuntime exampleVM (exampleFrame 3 fct4.code [4294967303] [0] 9) 3 []
      2 { Sig := { ReturnTypes := [ValueType.I64] } }
      { Sig := { ReturnTypes := [ValueType.I64] } } fct4 4294967303 ValueType.I64 (by decide) rfl
      rfl rfl (by decide) fct4_run (fun _ => rfl) (fun _ => ⟨rfl, rfl⟩)).2.2.1 rfl rfl,
    (ExecCode_result exampleRuntime exampleVM (exampleFrame 4 fct1.code [42] [0] 5) 4 [] 2
      { Sig := { ReturnTypes := [ValueType.other 5] } }
      { Sig := { ReturnTypes := [ValueType.other 5] } } fct1 42 (ValueType.other 5) (by decide)
      rfl rfl rfl (by decide) fct5_run (fun _ => rfl) (fun _ => ⟨rfl, rfl⟩)).2.2.2.2.2 rfl 5
      rfl⟩

theorem ExecCode_of_body_panic (rt : Runtime) (vm vm1 : VMInterpreter) (fnIndex : Int)
    (args : List Nat) (fuel : Nat) (p : Panic)
    (h : ExecCodeBody rt fnIndex args fuel vm = (vm1, .error p)) :
    ExecCode rt vm fnIndex args fuel
      = (vm1, if vm.RecoverPanic = true then .ok (some (RetVal.nil, some (recoverErr p)))
              else .error p) := by
  unfold ExecCode
  rw [h]
  dsimp only
  split <;> rfl

theorem compiledAt_outside (vm : VMInterpreter) (i : Int)
    (h : i < 0 ∨ (vm.funcs.length : Int) ≤ i) :
    compiledAt i vm = (vm, .error (Panic.runtimeError "index out of range")) := by
  unfold compiledAt
  by_cases h0 : 0 ≤ i
  · rw [if_pos h0, List.get?_eq_none.mpr (by omega)]
  · rw [if_neg h0]

/-- C12 (refuted for `fnIndex = len(funcs)` and for negative `fnIndex`): for an index outside
`[0, len(funcs))`, `ExecCode` returns `InvalidFunctionIndexError(fnIndex)` in the unchanged
instance when `fnIndex > len(funcs)`; for every other such index (negative, or equal to
`len(funcs)`) it does not: it returns `ErrInvalidArgumentCount`, or it panics with a run-time
error (nil dereference of the result of `GetFunction`, or index out of range on `funcs`), which
leaves the call when `RecoverPanic` is not set and is returned as the error when it is set. -/
theorem ExecCode_index_check (rt : Runtime) (vm : VMInterpreter) (fnIndex : Int)
    (args : List Nat) (fuel : Nat)
    (h : fnIndex < 0 ∨ (vm.funcs.length : Int) ≤ fnIndex) :
    ((vm.funcs.length : Int) < fnIndex →
      ExecCode rt vm fnIndex args fuel
        = (vm, .ok (some (RetVal.nil, some (Err.InvalidFunctionIndexError fnIndex))))) ∧
    (fnIndex ≤ (vm.funcs.length : Int) →
      ExecCode rt vm fnIndex args fuel
        = (vm, .ok (some (RetVal.nil, some Err.ErrInvalidArgumentCount))) ∨
      ∃ msg : String,
        ExecCode rt vm fnIndex args fuel
          = (vm, if vm.RecoverPanic = true then .ok (some (RetVal.nil, some (Err.other msg)))
                 else .error (Panic.runtimeError msg))) := by
  constructor
  · intro hgt
    apply ExecCode_of_body
    unfold ExecCodeBody
    rw [if_pos hgt]
  · intro hle
    have hlen : ¬ (vm.funcs.length : Int) < fnIndex := by omega
    cases hg : rt.getFunction vm.module fnIndex with
    | none =>
      right
      refine ⟨"invalid memory address or nil pointer dereference", ?_⟩
      apply ExecCode_of_body_panic
      unfold ExecCodeBody
      rw [if_neg hlen]
      simp only [Step_bind_apply, functionSig, hg]
    | some f =>
      by_cases ha : f.Sig.ParamTypes.length = args.length
      · right
        refine ⟨"index out of range", ?_⟩
        apply ExecCode_of_body_panic
        unfold ExecCodeBody
        rw [if_neg hlen]
        simp only [Step_bind_apply, functionSig_eq rt vm fnIndex f hg, ha, ne_eq,
          not_true_eq_false, if_false, compiledAt_outside vm fnIndex h]
      · left
        apply ExecCode_of_body
        unfold ExecCodeBody
        rw [if_neg hlen]
        simp only [Step_bind_apply, functionSig_eq rt vm fnIndex f hg, ne_eq, ha,
          not_false_eq_true, if_true, Step_pure_apply]

theorem ExecCode_index_check_witness :
    (((exampleVM.funcs.length : Nat) : Int) < 5 →
      ExecCode exampleRuntime exampleVM 5 [] 2
        = (exampleVM, .ok (some (RetVal.nil, some (Err.InvalidFunctionIndexError 5))))) ∧
    ((5 : Int) ≤ ((exampleVM.funcs.length : Nat) : Int) →
      ExecCode exampleRuntime exampleVM 5 [] 2
        = (exampleVM, .ok (some (RetVal.nil, some Err.ErrInvalidArgumentCount))) ∨
      ∃ msg : String,
        ExecCode exampleRuntime exampleVM 5 [] 2
          = (exampleVM,
              if exampleVM.RecoverPanic = true then
                .ok (some (RetVal.nil, some (Err.other msg)))
              else .error (Panic.runtimeError msg))) ∧
    ExecCode exampleRuntime exampleVM 5 [] 2
      = (exampleVM,
          .error (Panic.runtimeError "invalid memory address or nil pointer dereference")) ∧
    ExecCode exampleRuntime exampleVM (-1) [] 2
      = (exampleVM,
          .error (Panic.runtimeError "invalid memory address or nil pointer dereference")) ∧
    ExecCode exampleRuntime exampleVM 6 [] 2
      = (exampleVM, .ok (some (RetVal.nil, some (Err.InvalidFunctionIndexError 6)))) :=
  ⟨(ExecCode_index_check exampleRuntime exampleVM 5 [] 2 (Or.inr (by decide))).1,
    (ExecCode_index_check exampleRuntime exampleVM 5 [] 2 (Or.inr (by decide))).2,
    rfl, rfl, rfl⟩

/-! ## Typed pushes -/

theorem pushUint64_ok (rt : Runtime) (vm : VMInterpreter) (i : Nat)
    (h : rt.debugStackDepth = false ∨ vm.ctx.stackSpare ≠ []) :
    ∃ sp : List Nat, pushUint64 rt i vm = (withStack vm (vm.ctx.stack ++ [i]) sp, .ok ()) := by
  unfold pushUint64
  have hc : ¬ (rt.debugStackDepth = true ∧ vm.ctx.stackSpare = []) := by
    rintro ⟨h1, h2⟩
    rcases h with h | h
    · rw [h] at h1
      exact absurd h1 (by decide)
    · exact h h2
  rw [if_neg hc]
  cases hsp : vm.ctx.stackSpare with
  | nil => exact ⟨_, rfl⟩
  | cons x rest => exact ⟨_, rfl⟩

theorem toUint64_low32 (i : Int) : toUint64 i % 4294967296 = toUint32 i := by
  unfold toUint64 toUint32
  omega

theorem toUint64_nonneg (i : Int) (h0 : 0 ≤ i) (h1 : i < 2147483648) :
    toUint64 i = i.toNat ∧ toUint64 i / 4294967296 = 0 := by
  unfold toUint64
  omega

theorem toUint64_neg (i : Int) (h0 : -2147483648 ≤ i) (h1 : i < 0) :
    toUint64 i = 18446744069414584320 + toUint32 i ∧ toUint64 i / 4294967296 = 4294967295 := by
  unfold toUint64 toUint32
  omega

/-- C21 (as stated, refuted): `pushInt32(-1)` writes the slot `0xFFFFFFFFFFFFFFFF`, whose upper
32 bits are all ones, and not `uint64(uint32(-1)) = 0x00000000FFFFFFFF`. -/
theorem pushInt32_minus_one_sign_extended :
    pushInt32 demoRuntime (-1) (stackVM [])
      = (withStack demoVM [18446744073709551615] [], .ok ()) ∧
    (18446744073709551615 : Nat) ≠ toUint32 (-1) ∧
    (18446744073709551615 : Nat) / 4294967296 = 4294967295 :=
  ⟨rfl, by decide, by decide⟩

/-- C21 (amended): `pushInt32` extends the sign.  For every signed 32-bit `i`, a push that does
not trap appends the slot `uint64(i) = i mod 2 ^ 64` to the stack and changes nothing else but
the spare cells; the low 32 bits of the slot are `uint32(i)`; for `i ≥ 0` the upper 32 bits are
zero, and for `i < 0` they are all ones (the slot is `0xFFFFFFFF00000000 + uint32(i)`). -/
theorem pushInt32_sign_extends (rt : Runtime) (vm : VMInterpreter) (i : Int)
    (h0 : -2147483648 ≤ i) (h1 : i < 2147483648)
    (h : rt.debugStackDepth = false ∨ vm.ctx.stackSpare ≠ []) :
    (∃ sp : List Nat,
      pushInt32 rt i vm = (withStack vm (vm.ctx.stack ++ [toUint64 i]) sp, .ok ())) ∧
    toUint64 i % 4294967296 = toUint32 i ∧
    (0 ≤ i → toUint64 i = i.toNat ∧ toUint64 i / 4294967296 = 0) ∧
    (i < 0 → toUint64 i = 18446744069414584320 + toUint32 i ∧
      toUint64 i / 4294967296 = 4294967295) :=
  ⟨pushUint64_ok rt vm (toUint64 i) h, toUint64_low32 i, fun hi => toUint64_nonneg i hi h1,
    fun hi => toUint64_neg i h0 hi⟩

theorem pushInt32_sign_extends_witness :
    (∃ sp : List Nat,
      pushInt32 demoRuntime (-1) (stackVM [7])
        = (withStack (stackVM [7]) ([7] ++ [18446744073709551615]) sp, .ok ())) ∧
    18446744073709551615 % 4294967296 = 4294967295 ∧
    ((0 : Int) ≤ -1 → toUint64 (-1) = (-1 : Int).toNat ∧ toUint64 (-1) / 4294967296 = 0) ∧
    ((-1 : Int) < 0 → 18446744073709551615 = 18446744069414584320 + 4294967295 ∧
      18446744073709551615 / 4294967296 = 4294967295) :=
  pushInt32_sign_extends demoRuntime (stackVM [7]) (-1) (by decide) (by decide)
    (Or.inl rfl)

/-- C22: with `f32` and `f64` values given by their bit patterns, for every 32-bit pattern `b`
`pushFloat32` followed by `popFloat32` returns `b`, and for every 64-bit pattern `c`
`pushFloat64` followed by `popFloat64` returns `c`, whenever the push does not trap on a full
stack (which it only does with `debugStackDepth`); after the two calls the stack holds the words
it held before, and only the cells of the buffer beyond its length may differ. -/
theorem float_push_pop (rt : Runtime) (vm : VMInterpreter) (b c : Nat)
    (hb : b < 4294967296)
    (h : rt.debugStackDepth = false ∨ vm.ctx.stackSpare ≠ []) :
    (∃ sp : List Nat,
      (pushFloat32 rt b >>= fun _ => popFloat32) vm = (withStack vm vm.ctx.stack sp, .ok b)) ∧
    (∃ sp : List Nat,
      (pushFloat64 rt c >>= fun _ => popFloat64) vm = (withStack vm vm.ctx.stack sp, .ok c)) := by
  constructor
  · obtain ⟨sp, hp⟩ := pushUint64_ok rt vm b h
    refine ⟨b :: sp, ?_⟩
    simp only [Step_bind_apply, pushFloat32, pushUint32, hp, popFloat32, popUint32_concat,
      Nat.mod_eq_of_lt hb]
  · obtain ⟨sp, hp⟩ := pushUint64_ok rt vm c h
    refine ⟨c :: sp, ?_⟩
    simp only [Step_bind_apply, pushFloat64, hp, popFloat64, popUint64_concat]

theorem float_push_pop_witness :
    (∃ sp : List Nat,
      (pushFloat32 demoRuntime 2143289345 >>= fun _ => popFloat32) (stackVM [7])
        = (withStack (stackVM [7]) [7] sp, .ok 2143289345)) ∧
    (∃ sp : List Nat,
      (pushFloat64 demoRuntime 18444492273895866369 >>= fun _ => popFloat64) (stackVM [7])
        = (withStack (stackVM [7]) [7] sp, .ok 18444492273895866369)) :=
  float_push_pop demoRuntime (stackVM [7]) 2143289345 18444492273895866369 (by decide)
    (Or.inl rfl)

theorem and_two_pow_eq (s n : Nat) : s &&& 2 ^ n = 2 ^ n * (s / 2 ^ n % 2) := by
  apply Nat.eq_of_testBit_eq
  intro i
  rw [Nat.testBit_and, Nat.testBit_two_pow, Nat.testBit_mul_pow_two]
  by_cases h : n = i
  · subst h
    simp [Nat.testBit_to_div_mod]
  · simp [h]
    intro hle
    have : i - n ≠ 0 := by omega
    rcases Nat.mod_two_eq_zero_or_one (s / 2 ^ n) with h2 | h2
    · simp [h2]
    · rw [h2]
      simp [Nat.testBit_to_div_mod]
      have : 2 ≤ 2 ^ (i - n) := by
        calc 2 = 2 ^ 1 := rfl
          _ ≤ 2 ^ (i - n) := Nat.pow_le_pow_right (by decide) (by omega)
      rw [Nat.div_eq_of_lt (by omega)]

theorem Copysign_eq (f sign : Nat) (h : sign < 18446744073709551616) :
    Copysign f sign = f % 9223372036854775808 + 9223372036854775808 * (sign / 9223372036854775808) := by
  unfold Copysign
  rw [Nat.and_pow_two_sub_one_eq_mod, and_two_pow_eq, Nat.lor_comm,
    ← Nat.mul_add_lt_is_or (Nat.mod_lt _ (by positivity)), Nat.add_comm]
  have h2 : sign / 2 ^ 63 % 2 = sign / 2 ^ 63 := by
    apply Nat.mod_eq_of_lt
    apply Nat.div_lt_of_lt_mul
    exact h
  rw [h2]
  rfl

/-- C23 (refuted): on a stack ending with `v1` then `v2` (`v2` on top), `f64.copysign` pops
`v2` first and passes it as the magnitude and `v1` as the sign: the pattern pushed has the
magnitude bits (bits 0 to 62) of `v2` and the sign bit of `v1`, the roles the claim gives to
`v1` and `v2` being exchanged. -/
theorem f64Copysign_roles (rt : Runtime) (vm : VMInterpreter) (s sp : List Nat) (v1 v2 : Nat)
    (h1 : v1 < 18446744073709551616) :
    f64Copysign rt (withStack vm (s ++ [v1, v2]) sp)
      = (withStack vm
          (s ++ [v2 % 9223372036854775808 + 9223372036854775808 * (v1 / 9223372036854775808)])
          (v2 :: sp), .ok ()) := by
  rw [two_words]
  simp only [f64Copysign, Step_bind_apply, popFloat64, popUint64_concat, pushFloat64,
    pushUint64_spare, Copysign_eq v2 v1 h1]

theorem f64Copysign_roles_witness :
    f64Copysign demoRuntime
        (withStack demoVM ([] ++ [4607182418800017408, 13835058055282163712]) [])
      = (withStack demoVM ([] ++ [4611686018427387904]) [13835058055282163712], .ok ()) ∧
    4607182418800017408 % 9223372036854775808
        + 9223372036854775808 * (13835058055282163712 / 9223372036854775808)
      = 13830554455654793216 ∧
    (4611686018427387904 : Nat) ≠ 13830554455654793216 :=
  ⟨f64Copysign_roles demoRuntime demoVM [] [] 4607182418800017408 13835058055282163712
      (by decide), by decide, by decide⟩

/-! ## The host module -/

theorem wasmTypes_get (ks : List ReflectKind) (tys : List ValueType)
    (h : wasmTypes ks = .ok tys) :
    tys.length = ks.length ∧
    ∀ (i : Nat) (k : ReflectKind), ks.get? i = some k →
      ∃ ty, tys.get? i = some ty ∧ wasmType k = .ok ty := by
  induction ks generalizing tys with
  | nil =>
    simp only [wasmTypes, Except.ok.injEq] at h
    subst h
    exact ⟨rfl, fun i k hk => by simp at hk⟩
  | cons k ks ih =>
    simp only [wasmTypes] at h
    cases hk : wasmType k with
    | error p => rw [hk] at h; cases h
    | ok t =>
      rw [hk] at h
      cases hks : wasmTypes ks with
      | error p => rw [hks] at h; cases h
      | ok ts =>
        rw [hks] at h
        simp only [Except.ok.injEq] at h
        subst h
        obtain ⟨hl, hg⟩ := ih ts hks
        refine ⟨by simp [hl], ?_⟩
        intro i k1 hi
        cases i with
        | zero =>
          simp only [List.get?_cons_zero, Option.some.injEq] at hi
          subst hi
          exact ⟨t, rfl, hk⟩
        | succ j =>
          simp only [List.get?_cons_succ] at hi
          simpa using hg j k1 hi

theorem wasmTypes_total (ks : List ReflectKind)
    (h : ∀ k ∈ ks, k = ReflectKind.Int32 ∨ k = ReflectKind.Int64 ∨ k = ReflectKind.Float32 ∨
      k = ReflectKind.Float64) :
    ∃ tys, wasmTypes ks = .ok tys := by
  induction ks with
  | nil => exact ⟨[], rfl⟩
  | cons k ks ih =>
    obtain ⟨ts, hts⟩ := ih (fun k1 hk1 => h k1 (List.mem_cons_of_mem _ hk1))
    have hk := h k (List.mem_cons_self _ _)
    rcases hk with hk | hk | hk | hk <;> subst hk
    · exact ⟨ValueType.I32 :: ts, by simp only [wasmTypes, wasmType, hts]⟩
    · exact ⟨ValueType.I64 :: ts, by simp only [wasmTypes, wasmType, hts]⟩
    · exact ⟨ValueType.F32 :: ts, by simp only [wasmTypes, wasmType, hts]⟩
    · exact ⟨ValueType.F32 :: ts, by simp only [wasmTypes, wasmType, hts]⟩

/-- C24 (refuted for the 64-bit float): `wasmType` maps the kind `Int32` to `I32`, `Int64` to
`I64`, `Float32` to `F32`, and `Float64` to `F32` as well, not to `F64`; every other kind
panics.  `funcArgTypes` of a function with the parameters `first :: rest` leaves out `first`
and maps the kinds of `rest` in order by `wasmType`: when it returns, the result has the length
of `rest` and its `i`-th type is the image of the `i`-th kind of `rest`, and it returns whenever
all kinds of `rest` are among the four.  A parameter list `(*Process, int32, float64)` gives
`[I32, F32]`. -/
theorem wasmType_mapping :
    wasmType ReflectKind.Int32 = .ok ValueType.I32 ∧
    wasmType ReflectKind.Int64 = .ok ValueType.I64 ∧
    wasmType ReflectKind.Float32 = .ok ValueType.F32 ∧
    wasmType ReflectKind.Float64 = .ok ValueType.F32 ∧
    (∀ k : ReflectKind, k ≠ ReflectKind.Int32 → k ≠ ReflectKind.Int64 →
      k ≠ ReflectKind.Float32 → k ≠ ReflectKind.Float64 →
      wasmType k = .error (Panic.value "unsupported param type")) ∧
    (∀ (first : ReflectKind) (rest outs : List ReflectKind) (tys : List ValueType),
      funcArgTypes { ins := first :: rest, outs := outs } = .ok tys →
      tys.length = rest.length ∧
      ∀ (i : Nat) (k : ReflectKind), rest.get? i = some k →
        ∃ ty, tys.get? i = some ty ∧ wasmType k = .ok ty) ∧
    (∀ (first : ReflectKind) (rest outs : List ReflectKind),
      (∀ k ∈ rest, k = ReflectKind.Int32 ∨ k = ReflectKind.Int64 ∨ k = ReflectKind.Float32 ∨
        k = ReflectKind.Float64) →
      ∃ tys, funcArgTypes { ins := first :: rest, outs := outs } = .ok tys) ∧
    funcArgTypes { ins := [ReflectKind.Ptr, ReflectKind.Int32, ReflectKind.Float64], outs := [] }
      = .ok [ValueType.I32, ValueType.F32] := by
  refine ⟨rfl, rfl, rfl, rfl, ?_, ?_, ?_, rfl⟩
  · intro k h1 h2 h3 h4
    cases k <;> first | rfl | contradiction
  · intro first rest outs tys h
    exact wasmTypes_get rest tys h
  · intro first rest outs h
    exact wasmTypes_total rest h

theorem initEnvModule_eq (newModule : Module) :
    initEnvModule newModule = .ok (envModule newModule) := rfl

theorem envModule_export_keys (newModule : Module) (name : String) :
    (∃ e, ((envModule newModule).Export.getD []).lookup name = some e) ↔
      (name = "malloc" ∨ name = "memcpy" ∨ name = "get_state" ∨ name = "set_state") := by
  simp only [envModule, Option.getD_some, List.lookup]
  constructor
  · rintro ⟨e, he⟩
    by_cases h1 : name = "set_state"
    · exact Or.inr (Or.inr (Or.inr h1))
    by_cases h2 : name = "get_state"
    · exact Or.inr (Or.inr (Or.inl h2))
    by_cases h3 : name = "memcpy"
    · exact Or.inr (Or.inl h3)
    by_cases h4 : name = "malloc"
    · exact Or.inl h4
    have b1 : (name == "set_state") = false := beq_eq_false_iff_ne.mpr h1
    have b2 : (name == "get_state") = false := beq_eq_false_iff_ne.mpr h2
    have b3 : (name == "memcpy") = false := beq_eq_false_iff_ne.mpr h3
    have b4 : (name == "malloc") = false := beq_eq_false_iff_ne.mpr h4
    rw [b1, b2, b3, b4] at he
    cases he
  · rintro (h | h | h | h) <;> subst h <;> exact ⟨_, rfl⟩

/-- C25: for every module that `wasm.NewModule()` may return, `initEnvModule` returns the module
`envModule` without panic and `nativeExporter` holds it under the one key `env`, so that
`NativeResolve("env")` returns it and `NativeResolve` of every other name returns the error
"Unknown import".  The export table has an entry exactly for the names `malloc`, `memcpy`,
`get_state`, `set_state`; the entry of each has the kind function and an index `i` such that
entry `i` of the function index space has that host function as `Host` and as `Sig` the type
entry `i`, which is `(i32) → i32` for `malloc`, `(i32, i32, i32) → i32` for `memcpy`,
`(i32, i32) → i32` for `get_state` and `(i32, i32, i32, i32) → ()` for `set_state`. -/
theorem env_host_module (newModule : Module) :
    initEnvModule newModule = .ok (envModule newModule) ∧
    nativeExporter newModule = .ok [("env", envModule newModule)] ∧
    NativeResolve [("env", envModule newModule)] "env" = .ok (envModule newModule) ∧
    (∀ name : String, name ≠ "env" →
      NativeResolve [("env", envModule newModule)] name
        = .error (Err.other ("Unknown import " ++ name ++ ". "))) ∧
    (∀ name : String,
      (∃ e, ((envModule newModule).Export.getD []).lookup name = some e) ↔
        (name = "malloc" ∨ name = "memcpy" ∨ name = "get_state" ∨ name = "set_state")) ∧
    (∀ (name : String) (i : Nat) (host : HostFunc) (sig : FunctionSig),
      (name, i, host, sig) ∈
        [("malloc", 0, HostFunc.Malloc,
            ({ ParamTypes := [ValueType.I32], ReturnTypes := [ValueType.I32] } : FunctionSig)),
         ("memcpy", 1, HostFunc.Memcpy,
            { ParamTypes := [ValueType.I32, ValueType.I32, ValueType.I32],
              ReturnTypes := [ValueType.I32] }),
         ("get_state", 2, HostFunc.GetState,
            { ParamTypes := [ValueType.I32, ValueType.I32], ReturnTypes := [ValueType.I32] }),
         ("set_state", 3, HostFunc.SetState,
            { ParamTypes := [ValueType.I32, ValueType.I32, ValueType.I32, ValueType.I32],
              ReturnTypes := [] })] →
      ((envModule newModule).Export.getD []).lookup name
        = some { FieldStr := name, Kind := External.Function, Index := i } ∧
      (envModule newModule).FunctionIndexSpace.get? i = some { Sig := sig, Host := some host } ∧
      ((envModule newModule).Types.getD []).get? i = some sig) := by
  refine ⟨rfl, rfl, rfl, ?_, envModule_export_keys newModule, ?_⟩
  · intro name hne
    have b : (name == "env") = false := beq_eq_false_iff_ne.mpr hne
    simp only [NativeResolve, List.lookup, b]
  · intro name i host sig hmem
    simp only [List.mem_cons, Prod.mk.injEq, List.mem_singleton, List.not_mem_nil,
      or_false] at hmem
    rcases hmem with ⟨h1, h2, h3, h4⟩ | ⟨h1, h2, h3, h4⟩ | ⟨h1, h2, h3, h4⟩ | ⟨h1, h2, h3, h4⟩ <;>
      subst h1 h2 h3 h4 <;> exact ⟨rfl, rfl, rfl⟩

/-! ## The abort flag -/

theorem execLoop_abort (rt : Runtime) (fuel : Nat) (vm : VMInterpreter)
    (h : vm.abort = true) :
    execLoop rt fuel vm = (vm, .ok (if fuel = 0 then none else some ())) := by
  cases fuel with
  | zero => rfl
  | succ n =>
    rw [execLoop]
    simp [h]

theorem setupFrame_abort (c : compiledFunction) (fnIndex : Int) (args : List Nat)
    (vm : VMInterpreter) : (setupFrame c fnIndex args vm).1.abort = vm.abort := by
  unfold setupFrame
  dsimp only
  split
  · rfl
  · split <;> rfl

theorem copy_length (dst src : List Byte) : (copy dst src).length = dst.length := by
  unfold copy
  rw [List.length_append, List.length_take, List.length_drop]
  omega

theorem initVMMemory_ByteMem (rt : Runtime) (module : Module) (bytes : List Byte)
    (mem : VMmemory)
    (h : (match module.Data with
      | some entries =>
        match initData rt module [] 0 entries with
        | .error e => (.ok (.error e) : Except Panic (Except Err VMmemory))
        | .ok (points, tmpIdx) =>
          .ok (.ok { ByteMem := bytes, MemPoints := points, AllocedMemIdex := tmpIdx,
                     PointedMemIndex := Int.tdiv ((bytes.length : Int) + tmpIdx) 2 })
      | none =>
        .ok (.ok { ByteMem := bytes, MemPoints := [], AllocedMemIdex := -1,
                   PointedMemIndex := Int.tdiv (bytes.length : Int) 2 })) = .ok (.ok mem)) :
    mem.ByteMem = bytes := by
  cases hd : module.Data with
  | none =>
    rw [hd] at h
    simp only [Except.ok.injEq] at h
    rw [← h]
  | some entries =>
    rw [hd] at h
    dsimp only at h
    cases hi : initData rt module [] 0 entries with
    | error e => rw [hi] at h; simp at h
    | ok r =>
      obtain ⟨points, tmpIdx⟩ := r
      rw [hi] at h
      simp only [Except.ok.injEq] at h
      rw [← h]

/-- C27 (as stated, refuted): a module with exactly one memory entry whose initial page count is
0 is accepted and gets a byte memory of length 0, not of at least one page. -/
theorem initVMMemory_zero_pages :
    initVMMemory demoRuntime { Memory := some [{ Initial := 0 }], LinearMemoryIndexSpace := [[]] }
      = .ok (.ok { ByteMem := [], MemPoints := [], AllocedMemIdex := -1,
                   PointedMemIndex := 0 }) :=
  rfl

/-- C27 (amended): a module with more than one memory entry is rejected with
`ErrMultipleLinearMemories`.  For every module that `initVMMemory` accepts, the byte memory has
length `65536` (one page) when the module has no memory entry (no memory section, or an empty
one), and length `initial * 65536` when it has exactly one entry with the initial page count
`initial`, which is 0 for `initial = 0`: there is no minimum of one page.  A module without data
section is accepted in both cases (with one entry: when the linear memory index space is not
empty). -/
theorem initVMMemory_size (rt : Runtime) (module : Module) :
    (∀ (e1 e2 : MemoryEntry) (rest : List MemoryEntry),
      module.Memory = some (e1 :: e2 :: rest) →
      initVMMemory rt module = .ok (.error Err.ErrMultipleLinearMemories)) ∧
    (∀ mem : VMmemory, initVMMemory rt module = .ok (.ok mem) →
      ((module.Memory = none ∨ module.Memory = some []) → mem.ByteMem.length = 65536) ∧
      (∀ e : MemoryEntry, module.Memory = some [e] →
        mem.ByteMem.length = e.Initial * 65536)) ∧
    (module.Data = none →
      ((module.Memory = none ∨ module.Memory = some []) →
        ∃ mem, initVMMemory rt module = .ok (.ok mem)) ∧
      (∀ (e : MemoryEntry) (init : List Byte) (rest : List (List Byte)),
        module.Memory = some [e] → module.LinearMemoryIndexSpace = init :: rest →
        ∃ mem, initVMMemory rt module = .ok (.ok mem))) := by
  refine ⟨?_, ?_, ?_⟩
  · intro e1 e2 rest hm
    simp [initVMMemory, hm]
  · intro mem h
    constructor
    · intro hm
      have hb : mem.ByteMem = List.replicate (1 * wasmPageSize) 0 := by
        rcases hm with hm | hm
        · simp only [initVMMemory, hm] at h
          exact initVMMemory_ByteMem rt module _ mem h
        · simp only [initVMMemory, hm] at h
          exact initVMMemory_ByteMem rt module _ mem h
      rw [hb, List.length_replicate]
      rfl
    · intro e hm
      cases hl : module.LinearMemoryIndexSpace with
      | nil => simp [initVMMemory, hm, hl] at h
      | cons init rest =>
        simp only [initVMMemory, hm, hl, ne_eq, not_true_eq_false, if_false] at h
        have hb := initVMMemory_ByteMem rt module _ mem h
        rw [hb, copy_length, List.length_replicate]
        rfl
  · intro hd
    constructor
    · intro hm
      rcases hm with hm | hm
      · simp only [initVMMemory, hm, hd]
        exact ⟨_, rfl⟩
      · simp only [initVMMemory, hm, hd]
        exact ⟨_, rfl⟩
    · intro e init rest hm hl
      simp only [initVMMemory, hm, hl, hd, ne_eq, not_true_eq_false, if_false]
      exact ⟨_, rfl⟩

/-! ## Function entry -/

theorem setupFrame_state (c : compiledFunction) (fnIndex : Int) (args : List Nat)
    (vm : VMInterpreter) (h0 : 0 ≤ c.totalLocalVars) :
    (setupFrame c fnIndex args vm).1.ctx
      = { vm.ctx with
          stack := []
          stackSpare :=
            if ((vm.ctx.stack.length + vm.ctx.stackSpare.length : Nat) : Int) < c.maxDepth + 1
            then List.replicate (c.maxDepth + 1).toNat 0
            else vm.ctx.stack ++ vm.ctx.stackSpare
          locals := args.take c.totalLocalVars.toNat
            ++ List.replicate (c.totalLocalVars.toNat - args.length) 0
          pc := 0
          code := c.code
          curFunc := fnIndex } := by
  unfold setupFrame
  dsimp only
  rw [if_neg (by omega)]
  split <;> rfl

theorem entry_locals (args : List Nat) (n : Nat) (h : args.length ≤ n) :
    (args.take n ++ List.replicate (n - args.length) 0).length = n ∧
    (∀ i : Nat, i < args.length →
      (args.take n ++ List.replicate (n - args.length) 0).get? i = args.get? i) ∧
    (∀ j : Nat, args.length ≤ j → j < n →
      (args.take n ++ List.replicate (n - args.length) 0).get? j = some 0) := by
  have ht : args.take n = args := List.take_of_length_le h
  rw [ht]
  refine ⟨?_, ?_, ?_⟩
  · rw [List.length_append, List.length_replicate]
    omega
  · intro i hi
    simp only [List.get?_eq_getElem?]
    rw [List.getElem?_append_left hi]
  · intro j hj hjn
    simp only [List.get?_eq_getElem?]
    rw [List.getElem?_append_right hj, List.getElem?_replicate]
    rw [if_pos (by omega)]

/-- C28: for a valid index `fnIndex` of a compiled function `c`, arguments as many as the
signature has parameters, and `c` having at least as many locals as there are arguments (as
`NewInterpreter` makes it: `totalLocalVars` counts the parameters), `ExecCode` sets up the frame
without panic and starts the loop in a state with `pc = 0`, the code of `c`, an empty stack in a
buffer of capacity at least `maxDepth + 1`, and `totalLocalVars` locals of which the first hold
the arguments in order and all others are 0, whatever the context held before: this is the
state in which `ExecCode` returns when the loop is given no turn. -/
theorem ExecCode_entry_state (rt : Runtime) (vm : VMInterpreter) (fnIndex : Int)
    (args : List Nat) (f : Function) (c : compiledFunction)
    (h0 : 0 ≤ fnIndex)
    (hc : vm.funcs.get? fnIndex.toNat = some (function.compiled c))
    (hf : rt.getFunction vm.module fnIndex = some f)
    (harity : f.Sig.ParamTypes.length = args.length)
    (hl1 : (args.length : Int) ≤ c.totalLocalVars) :
    ExecCode rt vm fnIndex args 0 = ((setupFrame c fnIndex args vm).1, .ok none) ∧
    (setupFrame c fnIndex args vm).2 = .ok () ∧
    (setupFrame c fnIndex args vm).1.ctx.pc = 0 ∧
    (setupFrame c fnIndex args vm).1.ctx.code = c.code ∧
    (setupFrame c fnIndex args vm).1.ctx.curFunc = fnIndex ∧
    (setupFrame c fnIndex args vm).1.ctx.stack = [] ∧
    c.maxDepth + 1 ≤ ((setupFrame c fnIndex args vm).1.ctx.stackSpare.length : Int) ∧
    ((setupFrame c fnIndex args vm).1.ctx.locals.length : Int) = c.totalLocalVars ∧
    (∀ i : Nat, i < args.length →
      (setupFrame c fnIndex args vm).1.ctx.locals.get? i = args.get? i) ∧
    (∀ j : Nat, args.length ≤ j → (j : Int) < c.totalLocalVars →
      (setupFrame c fnIndex args vm).1.ctx.locals.get? j = some 0) := by
  have hl0 : 0 ≤ c.totalLocalVars := by omega
  have hlen : ¬ (vm.funcs.length : Int) < fnIndex := by
    have := List.get?_eq_some.mp hc
    obtain ⟨h, _⟩ := this
    omega
  have hs := setupFrame_state c fnIndex args vm hl0
  have hn : args.length ≤ c.totalLocalVars.toNat := by omega
  obtain ⟨e1, e2, e3⟩ := entry_locals args c.totalLocalVars.toNat hn
  have hok := setupFrame_ok c fnIndex args vm hl0 hl1
  refine ⟨?_, ?_, ?_, ?_, ?_, ?_, ?_, ?_, ?_, ?_⟩
  · apply ExecCode_of_body
    unfold ExecCodeBody
    rw [if_neg hlen]
    simp only [Step_bind_apply, functionSig_eq rt vm fnIndex f hf, harity, ne_eq,
      not_true_eq_false, if_false, compiledAt_eq vm fnIndex c h0 hc]
    rw [hok]
    simp only [execCode, execLoop, Step_pure_apply]
  · rw [hok]
  · rw [hs]
  · rw [hs]
  · rw [hs]
  · rw [hs]
  · rw [hs]
    dsimp only
    split
    · rw [List.length_replicate]
      omega
    · rw [List.length_append]
      omega
  · rw [hs]
    dsimp only
    rw [e1]
    omega
  · intro i hi
    rw [hs]
    exact e2 i hi
  · intro j hj hjn
    rw [hs]
    exact e3 j hj (by omega)

theorem ExecCode_entry_state_witness :
    ExecCode demoRuntime entryVM 0 [40, 6] 0 = (entryState, .ok none) ∧
    (setupFrame fctLocals 0 [40, 6] entryVM).2 = .ok () ∧
    entryState.ctx.pc = 0 ∧
    entryState.ctx.code = fctLocals.code ∧
    entryState.ctx.curFunc = 0 ∧
    entryState.ctx.stack = [] ∧
    fctLocals.maxDepth + 1 ≤ (entryState.ctx.stackSpare.length : Int) ∧
    (entryState.ctx.locals.length : Int) = fctLocals.totalLocalVars ∧
    (∀ i : Nat, i < [40, 6].length → entryState.ctx.locals.get? i = [40, 6].get? i) ∧
    (∀ j : Nat, [40, 6].length ≤ j → (j : Int) < fctLocals.totalLocalVars →
      entryState.ctx.locals.get? j = some 0) :=
  ExecCode_entry_state demoRuntime entryVM 0 [40, 6]
    { Sig := { ParamTypes := [ValueType.I32, ValueType.I32] } } fctLocals (by decide) rfl rfl rfl
    (by decide)

/-! ## Branch tables -/

theorem discardStack_split (vm : VMInterpreter) (keep gone spare : List Nat) (n : Int)
    (hn : (gone.length : Int) = n) :
    discardStack n (withStack vm (keep ++ gone) spare)
      = (withStack vm keep (gone ++ spare), .ok ()) := by
  unfold discardStack withStack
  dsimp only
  have hhi : ((keep ++ gone).length : Int) - n = (keep.length : Int) := by
    rw [List.length_append]
    omega
  rw [hhi, if_pos]
  · simp only [Int.toNat_ofNat, List.append_assoc, List.take_left', List.drop_left']
  · constructor
    · omega
    · simp only [List.length_append]
      omega

theorem stackTop_eq (vm : VMInterpreter) (t : Nat) (h : vm.ctx.stack.getLast? = some t) :
    stackTop vm = (vm, .ok t) := by
  unfold stackTop
  rw [h]

theorem setPc_withStack (vm : VMInterpreter) (s sp : List Nat) (addr : Int) :
    setPc addr (withStack vm s sp)
      = (withStack { vm with ctx := { vm.ctx with pc := addr } } s sp, .ok ()) := rfl

theorem branchTo_plain (rt : Runtime) (vm : VMInterpreter) (keep gone spare : List Nat)
    (addr discard : Int) (hn : (gone.length : Int) = discard) :
    branchTo rt addr false discard (withStack vm (keep ++ gone) spare)
      = (withStack { vm with ctx := { vm.ctx with pc := addr } } keep (gone ++ spare),
          .ok ()) := by
  simp only [branchTo, Step_bind_apply, setPc_withStack, Bool.false_eq_true, if_false,
    Step_pure_apply, discardStack_split _ keep gone spare discard hn]

theorem branchTo_preserve (rt : Runtime) (vm : VMInterpreter) (keep gone spare : List Nat)
    (x top : Nat) (addr discard : Int) (hn : (gone.length : Int) = discard)
    (htop : (keep ++ gone).getLast? = some top) :
    branchTo rt addr true discard (withStack vm (keep ++ gone) (x :: spare))
      = (withStack { vm with ctx := { vm.ctx with pc := addr } } (keep ++ [top])
          (gone ++ x :: spare).tail, .ok ()) := by
  have ht : stackTop (withStack { vm with ctx := { vm.ctx with pc := addr } } (keep ++ gone)
      (x :: spare))
      = (withStack { vm with ctx := { vm.ctx with pc := addr } } (keep ++ gone) (x :: spare),
          .ok top) := stackTop_eq _ top htop
  have hne : gone ++ x :: spare = (gone ++ x :: spare).head! :: (gone ++ x :: spare).tail := by
    cases gone <;> rfl
  simp only [branchTo, Step_bind_apply, setPc_withStack, if_true, ht,
    discardStack_split _ keep gone (x :: spare) discard hn]
  rw [hne, pushUint64_spare]
  rfl

theorem brTableTarget_eq (cf : compiledFunction) (index label : Int) (table : BranchTable)
    (target : Target) (hi : 0 ≤ index)
    (htab : cf.branchTables.get? index.toNat = some table)
    (hlen : (table.Targets.length : Int) < 2147483648)
    (hsel : (0 ≤ label ∧ table.Targets.get? label.toNat = some target) ∨
      ((label < 0 ∨ (table.Targets.length : Int) ≤ label) ∧ target = table.DefaultTarget)) :
    brTableTarget cf index label = .ok target := by
  unfold brTableTarget
  rw [if_pos hi, htab]
  dsimp only
  have hl : toInt32 (table.Targets.length : Int) = (table.Targets.length : Int) :=
    toInt32_of_range _ (by omega) hlen
  rw [hl]
  rcases hsel with ⟨h0, hg⟩ | ⟨hout, hd⟩
  · have hlt := (List.get?_eq_some.mp hg).1
    rw [if_pos ⟨h0, by omega⟩, hg]
  · rw [if_neg (by omega), hd]

/-- C29: let the opcode at `pc` be `BrTable` with the immediate `index`, on a stack `s` followed
by the word `w`, in a function whose branch table `index` is `table` (with fewer than `2 ^ 31`
targets).  The step pops `w` and reads its low 32 bits as the signed `label`; the entry chosen is
`table.Targets[label]` when `0 ≤ label < len(Targets)` and `table.DefaultTarget` for every other
label.  If the entry has `Return` set, the loop is left with the stack `s`.  Otherwise `pc`
becomes its `Addr` and the stack loses its top `Discard` words (`s = keep ++ gone` with
`len(gone) = Discard`): it is `keep` without `PreserveTop`, and `keep` followed by the former top
word of `s` with `PreserveTop`. -/
theorem BrTable_selection (rt : Runtime) (vm vma vm0 : VMInterpreter) (index : Int)
    (s sp : List Nat) (w : Nat) (cf : compiledFunction) (table : BranchTable) (target : Target)
    (hd1 : rt.OpBrTable ≠ rt.OpReturn) (hd2 : rt.OpBrTable ≠ rt.OpJmp)
    (hd3 : rt.OpBrTable ≠ rt.OpJmpZ) (hd4 : rt.OpBrTable ≠ rt.OpJmpNz)
    (hop : fetchOp vm = (vma, .ok rt.OpBrTable))
    (himm : fetchInt64 vma = (withStack vm0 (s ++ [w]) sp, .ok index))
    (hcur : 0 ≤ vm0.ctx.curFunc)
    (hcf : vm0.funcs.get? vm0.ctx.curFunc.toNat = some (function.compiled cf))
    (hi : 0 ≤ index)
    (htab : cf.branchTables.get? index.toNat = some table)
    (hlen : (table.Targets.length : Int) < 2147483648)
    (hsel : (0 ≤ signed32 w ∧ table.Targets.get? (signed32 w).toNat = some target) ∨
      ((signed32 w < 0 ∨ (table.Targets.length : Int) ≤ signed32 w) ∧
        target = table.DefaultTarget)) :
    (target.Return = true →
      execStep rt vm = (withStack vm0 s (w :: sp), .ok Flow.stop)) ∧
    (target.Return = false → target.PreserveTop = false →
      ∀ keep gone : List Nat, s = keep ++ gone → (gone.length : Int) = target.Discard →
      execStep rt vm
        = (withStack { vm0 with ctx := { vm0.ctx with pc := target.Addr } } keep
            (gone ++ w :: sp), .ok Flow.next)) ∧
    (target.Return = false → target.PreserveTop = true →
      ∀ (keep gone : List Nat) (top : Nat), s = keep ++ gone →
      (gone.length : Int) = target.Discard → s.getLast? = some top →
      execStep rt vm
        = (withStack { vm0 with ctx := { vm0.ctx with pc := target.Addr } } (keep ++ [top])
            (gone ++ w :: sp).tail, .ok Flow.next)) := by
  have hsel1 := brTableTarget_eq cf index (signed32 w) table target hi htab hlen hsel
  have hca : compiledAt (withStack vm0 s (w :: sp)).ctx.curFunc (withStack vm0 s (w :: sp))
      = (withStack vm0 s (w :: sp), .ok cf) :=
    compiledAt_eq (withStack vm0 s (w :: sp)) vm0.ctx.curFunc cf hcur hcf
  have hpop : popInt32 (withStack vm0 (s ++ [w]) sp)
      = (withStack vm0 s (w :: sp), .ok (signed32 w)) := popInt32_concat vm0 s sp w
  have hstep : execStep rt vm
      = (match (if target.Return = true then (pure Flow.stop : Step Flow)
            else (branchTo rt target.Addr target.PreserveTop target.Discard >>= fun _ =>
              pure Flow.next)) (withStack vm0 s (w :: sp)) with
          | r => r) := by
    unfold execStep
    simp only [Step_bind_apply, hop, if_neg hd1, if_neg hd2, if_neg hd3, if_neg hd4, if_true,
      himm, hpop, hca, Step.lift, hsel1]
  rw [hstep]
  refine ⟨?_, ?_, ?_⟩
  · intro hr
    simp only [hr, if_true, Step_pure_apply]
  · intro hr hp keep gone hs hn
    subst hs
    simp only [hr, Bool.false_eq_true, if_false, Step_bind_apply, hp,
      branchTo_plain rt vm0 keep gone (w :: sp) target.Addr target.Discard hn, Step_pure_apply]
  · intro hr hp keep gone top hs hn htop
    subst hs
    simp only [hr, Bool.false_eq_true, if_false, Step_bind_apply, hp,
      branchTo_preserve rt vm0 keep gone sp w top target.Addr target.Discard hn htop,
      Step_pure_apply]

theorem BrTable_selection_witness :
    execStep demoRuntime (brFrame [10, 20, 30, 0] [] 0)
      = (brFrame [10, 20, 30] [0] 100, .ok Flow.next) ∧
    execStep demoRuntime (brFrame [10, 20, 30, 1] [] 0)
      = (brFrame [10, 20, 30] [1] 9, .ok Flow.stop) ∧
    execStep demoRuntime (brFrame [10, 20, 30, 4294967295] [] 0)
      = (brFrame [10] [20, 30, 4294967295] 200, .ok Flow.next) ∧
    execStep demoRuntime (brFrame [10, 20, 30, 2] [] 0)
      = (brFrame [10] [20, 30, 2] 200, .ok Flow.next) :=
  ⟨(BrTable_selection demoRuntime (brFrame [10, 20, 30, 0] [] 0)
      (brFrame [10, 20, 30, 0] [] 1) (brFrame [] [] 9) 0 [10, 20, 30] [] 0 fctBr
      { Targets := [{ Addr := 100, Discard := 1, PreserveTop := true }, { Return := true }]
        DefaultTarget := { Addr := 200, Discard := 2 } }
      { Addr := 100, Discard := 1, PreserveTop := true }
      (by decide) (by decide) (by decide) (by decide) rfl rfl (by decide) rfl (by decide) rfl
      (by decide) (Or.inl ⟨by decide, rfl⟩)).2.2 rfl rfl [10, 20] [30] 30 rfl rfl rfl,
    (BrTable_selection demoRuntime (brFrame [10, 20, 30, 1] [] 0)
      (brFrame [10, 20, 30, 1] [] 1) (brFrame [] [] 9) 0 [10, 20, 30] [] 1 fctBr
      { Targets := [{ Addr := 100, Discard := 1, PreserveTop := true }, { Return := true }]
        DefaultTarget := { Addr := 200, Discard := 2 } }
      { Return := true }
      (by decide) (by decide) (by decide) (by decide) rfl rfl (by decide) rfl (by decide) rfl
      (by decide) (Or.inl ⟨by decide, rfl⟩)).1 rfl,
    (BrTable_selection demoRuntime (brFrame [10, 20, 30, 4294967295] [] 0)
      (brFrame [10, 20, 30, 4294967295] [] 1) (brFrame [] [] 9) 0 [10, 20, 30] [] 4294967295
      fctBr
      { Targets := [{ Addr := 100, Discard := 1, PreserveTop := true }, { Return := true }]
        DefaultTarget := { Addr := 200, Discard := 2 } }
      { Addr := 200, Discard := 2 }
      (by decide) (by decide) (by decide) (by decide) rfl rfl (by decide) rfl (by decide) rfl
      (by decide) (Or.inr ⟨Or.inl (by decide), rfl⟩)).2.1 rfl rfl [10] [20, 30] rfl rfl,
    (BrTable_selection demoRuntime (brFrame [10, 20, 30, 2] [] 0)
      (brFrame [10, 20, 30, 2] [] 1) (brFrame [] [] 9) 0 [10, 20, 30] [] 2 fctBr
      { Targets := [{ Addr := 100, Discard := 1, PreserveTop := true }, { Return := true }]
        DefaultTarget := { Addr := 200, Discard := 2 } }
      { Addr := 200, Discard := 2 }
      (by decide) (by decide) (by decide) (by decide) rfl rfl (by decide) rfl (by decide) rfl
      (by decide) (Or.inr ⟨Or.inr (by decide), rfl⟩)).2.1 rfl rfl [10] [20, 30] rfl rfl⟩

/-! ## Stack depth -/

theorem execLoop_panic (rt : Runtime) (fuel : Nat) (vm vm1 : VMInterpreter) (p : Panic)
    (hpc : vm.ctx.pc < (vm.ctx.code.length : Int)) (hab : vm.abort = false)
    (hstep : execStep rt vm = (vm1, .error p)) :
    execLoop rt (fuel + 1) vm = (vm1, .error p) := by
  rw [execLoop]
  simp only [hpc, hab, and_self, if_true, hstep]

theorem ExecCodeBody_loop_panic (rt : Runtime) (vm vm1 : VMInterpreter) (fnIndex : Int)
    (args : List Nat) (fuel : Nat) (f : Function) (c : compiledFunction) (p : Panic)
    (h0 : 0 ≤ fnIndex)
    (hc : vm.funcs.get? fnIndex.toNat = some (function.compiled c))
    (hf : rt.getFunction vm.module fnIndex = some f)
    (harity : f.Sig.ParamTypes.length = args.length)
    (hl1 : (args.length : Int) ≤ c.totalLocalVars)
    (hrun : execLoop rt fuel (setupFrame c fnIndex args vm).1 = (vm1, .error p)) :
    ExecCodeBody rt fnIndex args fuel vm = (vm1, .error p) := by
  have hlen : ¬ (vm.funcs.length : Int) < fnIndex := by
    have := List.get?_eq_some.mp hc
    obtain ⟨h, _⟩ := this
    omega
  have hl0 : 0 ≤ c.totalLocalVars := by omega
  unfold ExecCodeBody
  rw [if_neg hlen]
  simp only [Step_bind_apply, functionSig_eq rt vm fnIndex f hf, harity, ne_eq,
    not_true_eq_false, if_false, compiledAt_eq vm fnIndex c h0 hc]
  rw [setupFrame_ok c fnIndex args vm hl0 hl1]
  simp only [execCode, hrun]

theorem fctShallow_grows :
    execLoop exampleRuntime 3 (setupFrame fctShallow 0 [] (shallowFrame [] [] [] 0)).1
      = (shallowFrame [1, 2] [0] fctShallow.code 10, .ok (some ())) :=
  (execLoop_next exampleRuntime 2 (shallowFrame [] [0] fctShallow.code 0)
      (shallowFrame [1] [] fctShallow.code 5) (by decide) rfl rfl).trans
    ((execLoop_next exampleRuntime 1 (shallowFrame [1] [] fctShallow.code 5)
        (shallowFrame [1, 2] [0] fctShallow.code 10) (by decide) rfl rfl).trans
      (execLoop_done exampleRuntime 0 (shallowFrame [1, 2] [0] fctShallow.code 10)
        (by decide)))

theorem fctShallow_leftover :
    execLoop debugRuntime 3 (setupFrame fctShallow 0 [] (shallowFrame [7] [8, 9] [] 4)).1
      = (shallowFrame [1, 2] [9] fctShallow.code 10, .ok (some ())) :=
  (execLoop_next debugRuntime 2 (shallowFrame [] [7, 8, 9] fctShallow.code 0)
      (shallowFrame [1] [8, 9] fctShallow.code 5) (by decide) rfl rfl).trans
    ((execLoop_next debugRuntime 1 (shallowFrame [1] [8, 9] fctShallow.code 5)
        (shallowFrame [1, 2] [9] fctShallow.code 10) (by decide) rfl rfl).trans
      (execLoop_done debugRuntime 0 (shallowFrame [1, 2] [9] fctShallow.code 10)
        (by decide)))

theorem fctShallow_debug_trap :
    execLoop debugRuntime 3 (setupFrame fctShallow 0 [] (shallowFrame [] [] [] 0)).1
      = (shallowFrame [1] [] fctShallow.code 10,
          .error (Panic.value "stack exceeding max depth")) :=
  (execLoop_next debugRuntime 2 (shallowFrame [] [0] fctShallow.code 0)
      (shallowFrame [1] [] fctShallow.code 5) (by decide) rfl rfl).trans
    (execLoop_panic debugRuntime 1 (shallowFrame [1] [] fctShallow.code 5)
      (shallowFrame [1] [] fctShallow.code 10) (Panic.value "stack exceeding max depth")
      (by decide) rfl rfl)

/-- C30 (as stated, refuted): the function `fctShallow` has `maxDepth = 0` and pushes two words.
Without `debugStackDepth`, `ExecCode` on a new instance runs it to the end, the stack growing to
length 2, and returns 2.  With `debugStackDepth`, on an instance whose buffer an earlier run left
with capacity 3, it also runs to the end with a stack of length 2; and on a new instance the
first push succeeds (length `1 > maxDepth`) and only the second one traps, at the capacity
`maxDepth + 1` of the buffer. -/
theorem stack_exceeds_maxDepth :
    fctShallow.maxDepth = 0 ∧
    ExecCode exampleRuntime (shallowFrame [] [] [] 0) 0 [] 3
      = (shallowFrame [1, 2] [0] fctShallow.code 10, .ok (some (RetVal.u32 2, none))) ∧
    ExecCode debugRuntime (shallowFrame [7] [8, 9] [] 4) 0 [] 3
      = (shallowFrame [1, 2] [9] fctShallow.code 10, .ok (some (RetVal.u32 2, none))) ∧
    ExecCode debugRuntime (shallowFrame [] [] [] 0) 0 [] 3
      = (shallowFrame [1] [] fctShallow.code 10,
          .error (Panic.value "stack exceeding max depth")) :=
  ⟨rfl,
    ExecCode_of_body _ _ _ _ _ _ _
      ((ExecCodeBody_run exampleRuntime (shallowFrame [] [] [] 0)
        (shallowFrame [1, 2] [0] fctShallow.code 10) 0 [] 3
        { Sig := { ReturnTypes := [ValueType.I32] } } fctShallow (by decide) rfl rfl rfl
        (by decide) fctShallow_grows).2 2 { Sig := { ReturnTypes := [ValueType.I32] } }
        ValueType.I32 rfl rfl rfl rfl),
    ExecCode_of_body _ _ _ _ _ _ _
      ((ExecCodeBody_run debugRuntime (shallowFrame [7] [8, 9] [] 4)
        (shallowFrame [1, 2] [9] fctShallow.code 10) 0 [] 3
        { Sig := { ReturnTypes := [ValueType.I32] } } fctShallow (by decide) rfl rfl rfl
        (by decide) fctShallow_leftover).2 2 { Sig := { ReturnTypes := [ValueType.I32] } }
        ValueType.I32 rfl rfl rfl rfl),
    ExecCode_of_body_panic debugRuntime (shallowFrame [] [] [] 0)
      (shallowFrame [1] [] fctShallow.code 10) 0 [] 3
      (Panic.value "stack exceeding max depth")
      (ExecCodeBody_loop_panic debugRuntime (shallowFrame [] [] [] 0)
        (shallowFrame [1] [] fctShallow.code 10) 0 [] 3
        { Sig := { ReturnTypes := [ValueType.I32] } } fctShallow
        (Panic.value "stack exceeding max depth") (by decide) rfl rfl rfl (by decide)
        fctShallow_debug_trap)⟩

theorem setupFrame_capacity (c : compiledFunction) (fnIndex : Int) (args : List Nat)
    (vm : VMInterpreter) :
    (setupFrame c fnIndex args vm).1.ctx.stack = [] ∧
    ((setupFrame c fnIndex args vm).1.ctx.stackSpare.length : Int)
      = max ((vm.ctx.stack.length + vm.ctx.stackSpare.length : Nat) : Int) (c.maxDepth + 1) := by
  have hsp : ((if ((vm.ctx.stack.length + vm.ctx.stackSpare.length : Nat) : Int)
        < c.maxDepth + 1 then List.replicate (c.maxDepth + 1).toNat 0
        else vm.ctx.stack ++ vm.ctx.stackSpare).length : Int)
      = max ((vm.ctx.stack.length + vm.ctx.stackSpare.length : Nat) : Int) (c.maxDepth + 1) := by
    split
    · rw [List.length_replicate, max_eq_right (by omega)]
      omega
    · rw [List.length_append, max_eq_left (by omega)]
  unfold setupFrame
  dsimp only
  split
  · exact ⟨rfl, hsp⟩
  · split <;> exact ⟨rfl, hsp⟩

/-- C30 (amended): the bound that the interpreter enforces is the capacity of the stack buffer,
and only with `debugStackDepth`.  `ExecCode` starts a function on an empty stack in a buffer of
capacity `max(cap, maxDepth + 1)`, `cap` being the capacity the buffer had before.  A push on a
stack shorter than its buffer appends the word in place.  A push on a full stack (length equal
to the capacity) traps with "stack exceeding max depth" when `debugStackDepth` is set, and when
it is not set it appends the word in a larger buffer. -/
theorem stack_bound_is_capacity (rt : Runtime) (vm : VMInterpreter) (i : Nat)
    (c : compiledFunction) (fnIndex : Int) (args : List Nat) :
    ((setupFrame c fnIndex args vm).1.ctx.stack = [] ∧
      ((setupFrame c fnIndex args vm).1.ctx.stackSpare.length : Int)
        = max ((vm.ctx.stack.length + vm.ctx.stackSpare.length : Nat) : Int)
            (c.maxDepth + 1)) ∧
    (∀ (x : Nat) (rest : List Nat), vm.ctx.stackSpare = x :: rest →
      pushUint64 rt i vm = (withStack vm (vm.ctx.stack ++ [i]) rest, .ok ())) ∧
    (rt.debugStackDepth = true → vm.ctx.stackSpare = [] →
      pushUint64 rt i vm = (vm, .error (Panic.value "stack exceeding max depth"))) ∧
    (rt.debugStackDepth = false → vm.ctx.stackSpare = [] →
      pushUint64 rt i vm
        = (withStack vm (vm.ctx.stack ++ [i])
            (List.replicate (rt.growslice vm.ctx.stack.length - (vm.ctx.stack.length + 1)) 0),
            .ok ())) := by
  refine ⟨setupFrame_capacity c fnIndex args vm, ?_, ?_, ?_⟩
  · intro x rest hsp
    unfold pushUint64
    rw [if_neg (by rw [hsp]; simp), hsp]
    rfl
  · intro hd hsp
    unfold pushUint64
    rw [if_pos ⟨hd, hsp⟩]
  · intro hd hsp
    unfold pushUint64
    rw [if_neg (by rw [hd]; simp), hsp]
    rfl

/-! ## Data segments and the allocation marks -/

theorem initData_tmpIdx (rt : Runtime) (module : Module) (entries : List DataSegment) :
    ∀ (points : List (Nat × TypeLength)) (t : Int) (points1 : List (Nat × TypeLength))
      (t1 : Int), initData rt module points t entries = .ok (points1, t1) →
      t1 = t + (entries.map (segmentEnd rt module)).sum := by
  induction entries with
  | nil =>
    intro points t points1 t1 h
    simp only [initData, Except.ok.injEq, Prod.mk.injEq] at h
    simp [h.2]
  | cons entry rest ih =>
    intro points t points1 t1 h
    unfold initData at h
    split at h
    · cases h
    · cases he : rt.execInitExpr module entry.Offset with
      | error e => rw [he] at h; cases h
      | ok v =>
        rw [he] at h
        cases v with
        | i32 offset =>
          dsimp only at h
          have hs : segmentEnd rt module entry = offset + (entry.Data.length : Int) := by
            unfold segmentEnd
            rw [he]
          rw [List.map_cons, List.sum_cons, hs]
          split at h
          · rw [ih _ _ _ _ h]
            omega
          · rw [ih _ _ _ _ h]
            omega
        | i64 v => cases h
        | f32 v => cases h
        | f64 v => cases h
        | other => cases h

theorem initVMMemory_marks (rt : Runtime) (module : Module) (mem : VMmemory)
    (h : initVMMemory rt module = .ok (.ok mem)) :
    (∀ entries : List DataSegment, module.Data = some entries →
      mem.AllocedMemIdex = (entries.map (segmentEnd rt module)).sum ∧
      mem.PointedMemIndex = Int.tdiv ((mem.ByteMem.length : Int) + mem.AllocedMemIdex) 2) ∧
    (module.Data = none →
      mem.AllocedMemIdex = -1 ∧ mem.PointedMemIndex = Int.tdiv (mem.ByteMem.length : Int) 2) := by
  unfold initVMMemory at h
  dsimp only at h
  split at h
  · cases h
  · simp at h
  · rename_i bytes _
    constructor
    · intro entries hd
      rw [hd] at h
      dsimp only at h
      cases hi : initData rt module [] 0 entries with
      | error e => rw [hi] at h; simp at h
      | ok r =>
        obtain ⟨points, tmpIdx⟩ := r
        rw [hi] at h
        simp only [Except.ok.injEq] at h
        have ht := initData_tmpIdx rt module entries [] 0 points tmpIdx hi
        rw [← h]
        dsimp only
        rw [ht]
        simp
    · intro hd
      rw [hd] at h
      simp only [Except.ok.injEq] at h
      rw [← h]
      exact ⟨rfl, rfl⟩

theorem segmentEnd_eq (rt : Runtime) (module : Module) (e : DataSegment) :
    segmentEnd rt module e = 0 ∧ segmentOffset rt module e = 0 ∨
    segmentEnd rt module e = segmentOffset rt module e + (e.Data.length : Int) := by
  unfold segmentEnd segmentOffset
  cases rt.execInitExpr module e.Offset with
  | error x => exact Or.inl ⟨rfl, rfl⟩
  | ok v => cases v <;> first | exact Or.inr rfl | exact Or.inl ⟨rfl, rfl⟩

theorem sum_ge_member (l : List Int) (h : ∀ x ∈ l, 0 ≤ x) : 0 ≤ l.sum ∧ ∀ x ∈ l, x ≤ l.sum := by
  induction l with
  | nil => exact ⟨by simp, fun x hx => by simp at hx⟩
  | cons a l ih =>
    obtain ⟨h0, hm⟩ := ih (fun x hx => h x (List.mem_cons_of_mem _ hx))
    have ha := h a (List.mem_cons_self _ _)
    rw [List.sum_cons]
    refine ⟨by omega, ?_⟩
    intro x hx
    rcases List.mem_cons.mp hx with hx | hx
    · omega
    · have := hm x hx
      omega

theorem twoSegments_init : initVMMemory dataRuntime twoSegments = .ok (.ok twoSegmentsMem) := by
  have e : initVMMemory dataRuntime twoSegments
      = .ok (.ok { ByteMem := List.replicate (1 * wasmPageSize) 0
                   MemPoints := [(16, { Ptype := PType.PString, Length := 2 }),
                                 (0, { Ptype := PType.PString, Length := 2 })]
                   AllocedMemIdex := 20
                   PointedMemIndex :=
                     Int.tdiv (((List.replicate (1 * wasmPageSize) 0).length : Int) + 20) 2 }) :=
    rfl
  rw [e, List.length_replicate]
  rfl

theorem splitNul_ne_nil (data : List Byte) : splitNul data ≠ [] := by
  cases data with
  | nil => simp [splitNul]
  | cons b rest =>
    unfold splitNul
    split
    · simp
    · split <;> simp

theorem splitNul_length (data : List Nat) : (splitNul data).length = data.count 0 + 1 := by
  induction data with
  | nil => rfl
  | cons b rest ih =>
    unfold splitNul
    by_cases hb : b = 0
    · subst hb
      simp [ih]
    · rw [if_neg hb]
      have hc : (b :: rest).count 0 = rest.count 0 := by
        rw [List.count_cons]
        simp [hb]
      rw [hc, ← ih]
      cases hs : splitNul rest with
      | nil => exact absurd hs (splitNul_ne_nil rest)
      | cons p ps => rfl

theorem splitNul_total (data : List Nat) :
    ((splitNul data).map (fun p => (p.length : Int) + 1)).sum = (data.length : Int) + 1 := by
  induction data with
  | nil => rfl
  | cons b rest ih =>
    unfold splitNul
    by_cases hb : b = 0
    · subst hb
      simp only [if_true, List.map_cons, List.sum_cons, ih, List.length_nil, List.length_cons]
      push_cast
      omega
    · rw [if_neg hb]
      cases hs : splitNul rest with
      | nil => exact absurd hs (splitNul_ne_nil rest)
      | cons p ps =>
        rw [hs] at ih
        simp only [List.map_cons, List.sum_cons, List.length_cons] at ih ⊢
        push_cast
        omega

theorem splitNul_no_nul (data : List Nat) : ∀ p ∈ splitNul data, (0 : Nat) ∉ p := by
  induction data with
  | nil =>
    intro p hp
    simp only [splitNul, List.mem_singleton] at hp
    subst hp
    simp
  | cons b rest ih =>
    intro p hp
    unfold splitNul at hp
    by_cases hb : b = 0
    · rw [if_pos hb] at hp
      rcases List.mem_cons.mp hp with h | h
      · subst h
        simp
      · exact ih p h
    · rw [if_neg hb] at hp
      cases hs : splitNul rest with
      | nil => exact absurd hs (splitNul_ne_nil rest)
      | cons q qs =>
        rw [hs] at hp ih
        rcases List.mem_cons.mp hp with h | h
        · subst h
          intro h0
          rcases List.mem_cons.mp h0 with h1 | h1
          · exact hb h1.symm
          · exact ih q (List.mem_cons_self _ _) h1
        · exact ih p (List.mem_cons_of_mem _ h)

theorem splitNul_join (data : List Nat) : List.intercalate [0] (splitNul data) = data := by
  induction data with
  | nil => rfl
  | cons b rest ih =>
    unfold splitNul
    by_cases hb : b = 0
    · rw [if_pos hb]
      cases hs : splitNul rest with
      | nil => exact absurd hs (splitNul_ne_nil rest)
      | cons q qs =>
        rw [hs] at ih
        subst hb
        simp only [List.intercalate, List.intersperse, List.flatten_cons] at ih ⊢
        simp [ih]
    · rw [if_neg hb]
      cases hs : splitNul rest with
      | nil => exact absurd hs (splitNul_ne_nil rest)
      | cons q qs =>
        rw [hs] at ih
        cases qs with
        | nil =>
          simp only [List.intercalate, List.intersperse, List.flatten_cons, List.flatten_nil,
            List.append_nil] at ih ⊢
          rw [ih]
        | cons r rs =>
          simp only [List.intercalate, List.intersperse, List.flatten_cons,
            List.cons_append] at ih ⊢
          rw [ih]

theorem registerStrings_length (pieces : List (List Byte)) :
    ∀ (points : List (Nat × TypeLength)) (o : Int),
      (registerStrings points o pieces).length = points.length + pieces.length := by
  induction pieces with
  | nil => intro points o; rfl
  | cons tmp rest ih =>
    intro points o
    rw [registerStrings, ih]
    simp only [List.length_cons]
    omega

theorem registerStrings_keeps (pieces : List (List Byte)) :
    ∀ (points : List (Nat × TypeLength)) (o : Int) (x : Nat × TypeLength),
      x ∈ points → x ∈ registerStrings points o pieces := by
  induction pieces with
  | nil => intro points o x hx; exact hx
  | cons tmp rest ih =>
    intro points o x hx
    rw [registerStrings]
    exact ih _ _ x (List.mem_cons_of_mem _ hx)

theorem registerStrings_entry (pieces : List (List Byte)) :
    ∀ (points : List (Nat × TypeLength)) (o : Int) (k : Nat) (p : List Byte),
      pieces.get? k = some p →
      (toUint64 (o + ((pieces.take k).map (fun q => (q.length : Int) + 1)).sum),
        ({ Ptype := PType.PString, Length := (p.length : Int) + 1 } : TypeLength))
        ∈ registerStrings points o pieces := by
  induction pieces with
  | nil => intro points o k p hk; simp at hk
  | cons tmp rest ih =>
    intro points o k p hk
    rw [registerStrings]
    cases k with
    | zero =>
      simp only [List.get?_cons_zero, Option.some.injEq] at hk
      subst hk
      apply registerStrings_keeps
      simp
    | succ j =>
      simp only [List.get?_cons_succ] at hk
      have h := ih ((toUint64 o, { Ptype := PType.PString, Length := (tmp.length : Int) + 1 })
        :: points) (o + (tmp.length : Int) + 1) j p hk
      simp only [List.take_succ_cons, List.map_cons, List.sum_cons]
      have e : o + (((tmp.length : Int) + 1)
          + (List.map (fun q : List Byte => (q.length : Int) + 1) (List.take j rest)).sum)
          = o + (tmp.length : Int) + 1
            + (List.map (fun q : List Byte => (q.length : Int) + 1) (List.take j rest)).sum := by
        omega
      rw [e]
      exact h

theorem registerStrings_append (pieces : List (List Byte)) :
    ∀ (points : List (Nat × TypeLength)) (o : Int),
      registerStrings points o pieces = registerStrings [] o pieces ++ points := by
  induction pieces with
  | nil => intro points o; rfl
  | cons tmp rest ih =>
    intro points o
    rw [registerStrings, registerStrings, ih, ih [_]]
    simp

theorem dataPoints_cons (rt : Runtime) (module : Module) (e : DataSegment)
    (rest : List DataSegment) :
    dataPoints rt module (e :: rest) = dataPoints rt module rest ++ segmentPoints rt module e := by
  simp [dataPoints]

theorem dataPoints_append (rt : Runtime) (module : Module) (pre post : List DataSegment)
    (seg : DataSegment) :
    dataPoints rt module (pre ++ seg :: post)
      = dataPoints rt module post ++ segmentPoints rt module seg ++ dataPoints rt module pre := by
  simp [dataPoints]

theorem initData_points (rt : Runtime) (module : Module) (entries : List DataSegment) :
    ∀ (points : List (Nat × TypeLength)) (t : Int) (p1 : List (Nat × TypeLength)) (t1 : Int),
      initData rt module points t entries = .ok (p1, t1) →
      p1 = dataPoints rt module entries ++ points := by
  induction entries with
  | nil =>
    intro points t p1 t1 h
    simp only [initData, Except.ok.injEq, Prod.mk.injEq] at h
    rw [← h.1]
    rfl
  | cons e rest ih =>
    intro points t p1 t1 h
    rw [dataPoints_cons]
    unfold initData at h
    split at h
    · cases h
    · unfold segmentPoints
      cases hv : rt.execInitExpr module e.Offset with
      | error x => rw [hv] at h; cases h
      | ok v =>
        rw [hv] at h
        cases v with
        | i32 o =>
          dsimp only at h ⊢
          by_cases hn : (0 : Nat) ∈ e.Data
          · rw [if_pos hn] at h ⊢
            rw [ih _ _ _ _ h, registerStrings_append, List.append_assoc]
          · rw [if_neg hn] at h ⊢
            rw [ih _ _ _ _ h, List.append_assoc]
            rfl
        | i64 o => cases h
        | f32 o => cases h
        | f64 o => cases h
        | other => cases h

theorem initVMMemory_points (rt : Runtime) (module : Module) (mem : VMmemory)
    (entries : List DataSegment)
    (h : initVMMemory rt module = .ok (.ok mem))
    (hd : module.Data = some entries) :
    mem.MemPoints = dataPoints rt module entries := by
  unfold initVMMemory at h
  dsimp only at h
  split at h
  · cases h
  · simp at h
  · rw [hd] at h
    dsimp only at h
    cases hi : initData rt module [] 0 entries with
    | error e => rw [hi] at h; simp at h
    | ok r =>
      obtain ⟨points, tmpIdx⟩ := r
      rw [hi] at h
      simp only [Except.ok.injEq] at h
      rw [← h]
      dsimp only
      rw [initData_points rt module entries [] 0 points tmpIdx hi, List.append_nil]

theorem pointAt_append_of_none (A B : List (Nat × TypeLength)) (key : Nat)
    (h : ∀ x ∈ A, x.1 ≠ key) : pointAt (A ++ B) key = pointAt B key := by
  induction A with
  | nil => rfl
  | cons a rest ih =>
    obtain ⟨k, v⟩ := a
    have hk : k ≠ key := h (k, v) (List.mem_cons_self _ _)
    rw [List.cons_append, pointAt, if_neg hk]
    exact ih (fun x hx => h x (List.mem_cons_of_mem _ hx))

theorem pointAt_append_of_some (A B : List (Nat × TypeLength)) (key : Nat) (v : TypeLength)
    (h : pointAt A key = some v) : pointAt (A ++ B) key = some v := by
  induction A with
  | nil => simp [pointAt] at h
  | cons a rest ih =>
    obtain ⟨k, w⟩ := a
    rw [List.cons_append, pointAt]
    rw [pointAt] at h
    by_cases hk : k = key
    · rw [if_pos hk] at h ⊢
      exact h
    · rw [if_neg hk] at h ⊢
      exact ih h

theorem toUint64_shift_ne (o d : Int) (h0 : 0 < d) (h1 : d < 18446744073709551616) :
    toUint64 (o + d) ≠ toUint64 o := by
  unfold toUint64
  omega

theorem pieces_total_nonneg (pieces : List (List Byte)) :
    0 ≤ (pieces.map (fun q => (q.length : Int) + 1)).sum := by
  induction pieces with
  | nil => simp
  | cons q r ih =>
    simp only [List.map_cons, List.sum_cons]
    omega

theorem registerStrings_skip (key : Nat) (pieces : List (List Byte)) :
    ∀ (points : List (Nat × TypeLength)) (o : Int),
      (∀ t : Int, 0 ≤ t → t < (pieces.map (fun q => (q.length : Int) + 1)).sum →
        toUint64 (o + t) ≠ key) →
      pointAt (registerStrings points o pieces) key = pointAt points key := by
  induction pieces with
  | nil => intro points o _; rfl
  | cons q r ih =>
    intro points o h
    have hr := pieces_total_nonneg r
    simp only [List.map_cons, List.sum_cons] at h
    rw [registerStrings, ih]
    · have h0 := h 0 (le_refl _) (by omega)
      rw [add_zero] at h0
      rw [pointAt, if_neg h0]
    · intro t ht0 ht
      have := h ((q.length : Int) + 1 + t) (by omega) (by omega)
      have e : o + (q.length : Int) + 1 + t = o + ((q.length : Int) + 1 + t) := by omega
      rw [e]
      exact this

theorem pointAt_registerStrings (pieces : List (List Byte)) :
    ∀ (points : List (Nat × TypeLength)) (o : Int) (k : Nat) (p : List Byte),
      pieces.get? k = some p →
      (pieces.map (fun q => (q.length : Int) + 1)).sum ≤ 18446744073709551616 →
      pointAt (registerStrings points o pieces)
          (toUint64 (o + ((pieces.take k).map (fun q => (q.length : Int) + 1)).sum))
        = some { Ptype := PType.PString, Length := (p.length : Int) + 1 } := by
  induction pieces with
  | nil => intro points o k p hk; simp at hk
  | cons tmp rest ih =>
    intro points o k p hk htot
    have hr := pieces_total_nonneg rest
    simp only [List.map_cons, List.sum_cons] at htot
    rw [registerStrings]
    cases k with
    | zero =>
      simp only [List.get?_cons_zero, Option.some.injEq] at hk
      subst hk
      simp only [List.take_zero, List.map_nil, List.sum_nil, add_zero]
      rw [registerStrings_skip]
      · rw [pointAt, if_pos rfl]
      · intro t ht0 ht
        have e : o + (tmp.length : Int) + 1 + t = o + ((tmp.length : Int) + 1 + t) := by omega
        rw [e]
        exact toUint64_shift_ne o _ (by omega) (by omega)
    | succ j =>
      simp only [List.get?_cons_succ] at hk
      have h := ih ((toUint64 o, { Ptype := PType.PString, Length := (tmp.length : Int) + 1 })
        :: points) (o + (tmp.length : Int) + 1) j p hk (by omega)
      simp only [List.take_succ_cons, List.map_cons, List.sum_cons]
      have e : o + (((tmp.length : Int) + 1)
          + (List.map (fun q : List Byte => (q.length : Int) + 1) (List.take j rest)).sum)
          = o + (tmp.length : Int) + 1
            + (List.map (fun q : List Byte => (q.length : Int) + 1) (List.take j rest)).sum := by
        omega
      rw [e]
      exact h

theorem twoBlobs_init : initVMMemory dataRuntime twoBlobs = .ok (.ok twoBlobsMem) := by
  have e : initVMMemory dataRuntime twoBlobs
      = .ok (.ok { ByteMem := List.replicate (1 * wasmPageSize) 0
                   MemPoints := [(20, { Ptype := PType.PString, Length := 1 }),
                                 (18, { Ptype := PType.PString, Length := 2 }),
                                 (18, { Ptype := PType.PString, Length := 1 }),
                                 (16, { Ptype := PType.PString, Length := 2 })]
                   AllocedMemIdex := 38
                   PointedMemIndex :=
                     Int.tdiv (((List.replicate (1 * wasmPageSize) 0).length : Int) + 38) 2 }) :=
    rfl
  rw [e, List.length_replicate]
  rfl

theorem nulSegment_init : initVMMemory dataRuntime nulSegment = .ok (.ok nulSegmentMem) := by
  have e : initVMMemory dataRuntime nulSegment
      = .ok (.ok { ByteMem := List.replicate (1 * wasmPageSize) 0
                   MemPoints := [(18, { Ptype := PType.PString, Length := 1 }),
                                 (16, { Ptype := PType.PString, Length := 2 })]
                   AllocedMemIdex := 18
                   PointedMemIndex :=
                     Int.tdiv (((List.replicate (1 * wasmPageSize) 0).length : Int) + 18) 2 }) :=
    rfl
  rw [e, List.length_replicate]
  rfl

/-- C32 (as stated, refuted): for the blob `a\0` at offset 16, `initVMMemory` registers the
entries `(16, 2)` and `(18, 1)`.  The second, for the empty piece after the NUL, covers
`[18, 19)`, which is not inside the blob `[16, 18)`, and its last byte is not a byte of the
blob. -/
theorem last_string_entry_past_blob :
    initVMMemory dataRuntime nulSegment = .ok (.ok nulSegmentMem) ∧
    nulSegmentMem.MemPoints
      = [(18, { Ptype := PType.PString, Length := 1 }),
         (16, { Ptype := PType.PString, Length := 2 })] ∧
    segmentOffset dataRuntime nulSegment { Index := 0, Offset := [65, 16, 11], Data := [97, 0] }
      = 16 ∧
    segmentEnd dataRuntime nulSegment { Index := 0, Offset := [65, 16, 11], Data := [97, 0] }
      = 18 ∧
    ¬ ((18 : Int) + 1 ≤ 18) :=
  ⟨nulSegment_init, rfl, rfl, rfl, by decide⟩

/-- C32 (amended): let `initVMMemory` accept a module whose data segments are `pre`, then a
segment `seg` at the offset `o` whose blob `data` (of fewer than `2 ^ 64` bytes) holds at least
one NUL, then `post`.  The assignments to the map `MemPoints`, the latest first, are those of
`post`, then those of `seg`, then those of `pre`.  Those of `seg` are one per piece of
`bytes.Split(data, NUL)`: the pieces contain no NUL, joined by NUL bytes they give `data`, and
there is one more piece than there are NUL bytes (the last piece is what follows the last NUL,
possibly nothing).  Piece `k` is assigned at the key `uint64(o + t)`, `t` being the sum of the
lengths `len + 1` of the pieces before it (so the first at `o` and each next one directly after
the previous), with the length `len + 1`; the keys of one segment differ from one another.
After `initVMMemory` the map holds this entry at that key unless a segment of `post` assigns
the same key, in which case it holds what `post` assigned last.  The lengths `len + 1` add up
to `len(data) + 1`: every entry but the last ends with the NUL that follows its piece, and the
last entry ends one byte after the blob. -/
theorem data_blob_strings (rt : Runtime) (module : Module) (mem : VMmemory)
    (pre post : List DataSegment) (seg : DataSegment) (o : Int)
    (h : initVMMemory rt module = .ok (.ok mem))
    (hd : module.Data = some (pre ++ seg :: post))
    (ho : rt.execInitExpr module seg.Offset = .ok (InitVal.i32 o))
    (hn : (0 : Nat) ∈ seg.Data)
    (hlen : seg.Data.length < 18446744073709551616) :
    mem.MemPoints
      = dataPoints rt module post ++ registerStrings [] o (splitNul seg.Data)
          ++ dataPoints rt module pre ∧
    (∀ p ∈ splitNul seg.Data, (0 : Nat) ∉ p) ∧
    List.intercalate [0] (splitNul seg.Data) = seg.Data ∧
    (splitNul seg.Data).length = seg.Data.count 0 + 1 ∧
    (registerStrings [] o (splitNul seg.Data)).length = (splitNul seg.Data).length ∧
    (∀ (k : Nat) (p : List Byte), (splitNul seg.Data).get? k = some p →
      ((toUint64 (o + (((splitNul seg.Data).take k).map (fun q => (q.length : Int) + 1)).sum)),
        ({ Ptype := PType.PString, Length := (p.length : Int) + 1 } : TypeLength))
        ∈ registerStrings [] o (splitNul seg.Data) ∧
      pointAt (registerStrings [] o (splitNul seg.Data))
          (toUint64 (o + (((splitNul seg.Data).take k).map (fun q => (q.length : Int) + 1)).sum))
        = some ({ Ptype := PType.PString, Length := (p.length : Int) + 1 } : TypeLength) ∧
      ((∀ x ∈ dataPoints rt module post,
          x.1 ≠ (toUint64 (o + (((splitNul seg.Data).take k).map (fun q => (q.length : Int) + 1)).sum))) →
        pointAt mem.MemPoints
            (toUint64 (o + (((splitNul seg.Data).take k).map (fun q => (q.length : Int) + 1)).sum))
          = some ({ Ptype := PType.PString, Length := (p.length : Int) + 1 } : TypeLength)) ∧
      (∀ v : TypeLength,
        pointAt (dataPoints rt module post)
            (toUint64 (o + (((splitNul seg.Data).take k).map (fun q => (q.length : Int) + 1)).sum))
          = some v →
        pointAt mem.MemPoints
            (toUint64 (o + (((splitNul seg.Data).take k).map (fun q => (q.length : Int) + 1)).sum))
          = some v)) ∧
    ((splitNul seg.Data).map (fun q => (q.length : Int) + 1)).sum
      = (seg.Data.length : Int) + 1 := by
  have hseg : segmentPoints rt module seg = registerStrings [] o (splitNul seg.Data) := by
    unfold segmentPoints
    rw [ho]
    dsimp only
    rw [if_pos hn]
  have hm : mem.MemPoints
      = dataPoints rt module post ++ registerStrings [] o (splitNul seg.Data)
          ++ dataPoints rt module pre := by
    rw [initVMMemory_points rt module mem _ h hd, dataPoints_append, hseg]
  have htot := splitNul_total seg.Data
  refine ⟨hm, splitNul_no_nul _, splitNul_join _, splitNul_length _, ?_, ?_, htot⟩
  · rw [registerStrings_length]
    simp
  · intro k p hk
    have hp := pointAt_registerStrings (splitNul seg.Data) [] o k p hk (by rw [htot]; omega)
    refine ⟨registerStrings_entry _ [] o k p hk, hp, ?_, ?_⟩
    · intro hx
      rw [hm, List.append_assoc, pointAt_append_of_none _ _ _ hx]
      exact pointAt_append_of_some _ _ _ _ hp
    · intro v hv
      rw [hm, List.append_assoc]
      exact pointAt_append_of_some _ _ _ _ hv

theorem data_blob_strings_witness :
    twoBlobsMem.MemPoints
      = dataPoints dataRuntime twoBlobs [{ Index := 0, Offset := [65, 18, 11], Data := [98, 0] }]
          ++ registerStrings [] 16 (splitNul [97, 0]) ++ dataPoints dataRuntime twoBlobs [] ∧
    (∀ p ∈ splitNul [97, 0], (0 : Nat) ∉ p) ∧
    List.intercalate [0] (splitNul [97, 0]) = [97, 0] ∧
    (splitNul [97, 0]).length = [97, 0].count 0 + 1 ∧
    (registerStrings [] 16 (splitNul [97, 0])).length = (splitNul [97, 0]).length ∧
    (∀ (k : Nat) (p : List Byte), (splitNul [97, 0]).get? k = some p →
      ((toUint64 (16 + (((splitNul [97, 0]).take k).map (fun q => (q.length : Int) + 1)).sum)),
        ({ Ptype := PType.PString, Length := (p.length : Int) + 1 } : TypeLength))
        ∈ registerStrings [] 16 (splitNul [97, 0]) ∧
      pointAt (registerStrings [] 16 (splitNul [97, 0]))
          (toUint64 (16 + (((splitNul [97, 0]).take k).map (fun q => (q.length : Int) + 1)).sum))
        = some ({ Ptype := PType.PString, Length := (p.length : Int) + 1 } : TypeLength) ∧
      ((∀ x ∈ dataPoints dataRuntime twoBlobs
            [{ Index := 0, Offset := [65, 18, 11], Data := [98, 0] }],
          x.1 ≠ (toUint64 (16 + (((splitNul [97, 0]).take k).map (fun q => (q.length : Int) + 1)).sum))) →
        pointAt twoBlobsMem.MemPoints
            (toUint64 (16 + (((splitNul [97, 0]).take k).map (fun q => (q.length : Int) + 1)).sum))
          = some ({ Ptype := PType.PString, Length := (p.length : Int) + 1 } : TypeLength)) ∧
      (∀ v : TypeLength,
        pointAt (dataPoints dataRuntime twoBlobs
            [{ Index := 0, Offset := [65, 18, 11], Data := [98, 0] }])
            (toUint64 (16 + (((splitNul [97, 0]).take k).map (fun q => (q.length : Int) + 1)).sum))
          = some v →
        pointAt twoBlobsMem.MemPoints
            (toUint64 (16 + (((splitNul [97, 0]).take k).map (fun q => (q.length : Int) + 1)).sum))
          = some v)) ∧
    ((splitNul [97, 0]).map (fun q => (q.length : Int) + 1)).sum
      = (([97, 0] : List Byte).length : Int) + 1 :=
  data_blob_strings dataRuntime twoBlobs twoBlobsMem []
    [{ Index := 0, Offset := [65, 18, 11], Data := [98, 0] }]
    { Index := 0, Offset := [65, 16, 11], Data := [97, 0] } 16 twoBlobs_init rfl rfl
    (by decide) (by decide)

/-! ## The mark of the data region -/

/-- C33 (as stated, refuted): the module `twoSegments` has the segments `[0, 2)` and
`[16, 18)`, both with a non-negative i32 offset; the largest end is 18, and `initVMMemory`
sets `AllocedMemIdex` to 20, the sum `2 + 18` of the ends. -/
theorem alloced_index_not_maximum :
    initVMMemory dataRuntime twoSegments = .ok (.ok twoSegmentsMem) ∧
    twoSegments.Data = some [{ Index := 0, Offset := [65, 0, 11], Data := [1, 2] },
                             { Index := 0, Offset := [65, 16, 11], Data := [3, 4] }] ∧
    segmentOffset dataRuntime twoSegments { Index := 0, Offset := [65, 0, 11], Data := [1, 2] }
      = 0 ∧
    segmentEnd dataRuntime twoSegments { Index := 0, Offset := [65, 0, 11], Data := [1, 2] }
      = 2 ∧
    segmentOffset dataRuntime twoSegments { Index := 0, Offset := [65, 16, 11], Data := [3, 4] }
      = 16 ∧
    segmentEnd dataRuntime twoSegments { Index := 0, Offset := [65, 16, 11], Data := [3, 4] }
      = 18 ∧
    twoSegmentsMem.AllocedMemIdex = 20 ∧
    twoSegmentsMem.AllocedMemIdex ≠ max 2 18 :=
  ⟨twoSegments_init, rfl, rfl, rfl, rfl, rfl, rfl, by decide⟩

/-- C33 (amended): for every module with a data section that `initVMMemory` accepts,
`AllocedMemIdex` is the sum over all segments of `offset + len(data)`.  When the offsets are
non-negative it is therefore at least the end of every segment, so `[0, AllocedMemIdex)`
contains every data segment; for a single segment it is `offset + len(data)`, and in general it
is not the smallest such prefix. -/
theorem alloced_index_is_sum (rt : Runtime) (module : Module) (mem : VMmemory)
    (entries : List DataSegment)
    (h : initVMMemory rt module = .ok (.ok mem))
    (hd : module.Data = some entries) :
    mem.AllocedMemIdex = (entries.map (segmentEnd rt module)).sum ∧
    ((∀ e ∈ entries, 0 ≤ segmentOffset rt module e) →
      0 ≤ mem.AllocedMemIdex ∧ ∀ e ∈ entries, segmentEnd rt module e ≤ mem.AllocedMemIdex) ∧
    (∀ e : DataSegment, entries = [e] →
      mem.AllocedMemIdex = segmentOffset rt module e + (e.Data.length : Int)) := by
  obtain ⟨ha, _⟩ := (initVMMemory_marks rt module mem h).1 entries hd
  refine ⟨ha, ?_, ?_⟩
  · intro hin
    have hnn : ∀ x ∈ entries.map (segmentEnd rt module), 0 ≤ x := by
      intro x hx
      obtain ⟨e, he, rfl⟩ := List.mem_map.mp hx
      have h0 := hin e he
      rcases segmentEnd_eq rt module e with ⟨h1, _⟩ | h1
      · omega
      · omega
    obtain ⟨hs0, hsm⟩ := sum_ge_member _ hnn
    rw [← ha] at hs0 hsm
    exact ⟨hs0, fun e he => hsm _ (List.mem_map_of_mem _ he)⟩
  · intro e he
    subst he
    rw [ha]
    simp only [List.map_cons, List.map_nil, List.sum_cons, List.sum_nil, add_zero]
    unfold initVMMemory at h
    dsimp only at h
    split at h
    · cases h
    · simp at h
    · rw [hd] at h
      dsimp only at h
      cases hi : initData rt module [] 0 [e] with
      | error x => rw [hi] at h; simp at h
      | ok r =>
        unfold initData at hi
        split at hi
        · cases hi
        · unfold segmentEnd segmentOffset
          cases hv : rt.execInitExpr module e.Offset with
          | error x => rw [hv] at hi; cases hi
          | ok v =>
            cases v with
            | i32 o => rfl
            | i64 o => rw [hv] at hi; cases hi
            | f32 o => rw [hv] at hi; cases hi
            | f64 o => rw [hv] at hi; cases hi
            | other => rw [hv] at hi; cases hi

theorem alloced_index_is_sum_witness :
    twoSegmentsMem.AllocedMemIdex
      = (List.map (segmentEnd dataRuntime twoSegments)
          [{ Index := 0, Offset := [65, 0, 11], Data := [1, 2] },
           { Index := 0, Offset := [65, 16, 11], Data := [3, 4] }]).sum ∧
    ((∀ e ∈ [({ Index := 0, Offset := [65, 0, 11], Data := [1, 2] } : DataSegment),
             { Index := 0, Offset := [65, 16, 11], Data := [3, 4] }],
        0 ≤ segmentOffset dataRuntime twoSegments e) →
      0 ≤ twoSegmentsMem.AllocedMemIdex ∧
      ∀ e ∈ [({ Index := 0, Offset := [65, 0, 11], Data := [1, 2] } : DataSegment),
             { Index := 0, Offset := [65, 16, 11], Data := [3, 4] }],
        segmentEnd dataRuntime twoSegments e ≤ twoSegmentsMem.AllocedMemIdex) ∧
    (∀ e : DataSegment,
      [({ Index := 0, Offset := [65, 0, 11], Data := [1, 2] } : DataSegment),
        { Index := 0, Offset := [65, 16, 11], Data := [3, 4] }] = [e] →
      twoSegmentsMem.AllocedMemIdex
        = segmentOffset dataRuntime twoSegments e + (e.Data.length : Int)) :=
  alloced_index_is_sum dataRuntime twoSegments twoSegmentsMem _ twoSegments_init rfl

/-! ## A cancelled instance -/

theorem setupFrame_keeps (c : compiledFunction) (fnIndex : Int) (args : List Nat)
    (vm : VMInterpreter) :
    (setupFrame c fnIndex args vm).1.Mem = vm.Mem ∧
    (setupFrame c fnIndex args vm).1.globals = vm.globals := by
  unfold setupFrame
  dsimp only
  split
  · exact ⟨rfl, rfl⟩
  · split <;> exact ⟨rfl, rfl⟩

/-- C34: let the flag `abort` be set when `ExecCode` is entered, for a valid index `fnIndex` of
a compiled function `c` and matching arguments.  The loop of `execCode` leaves at its first
test with the state of the frame set-up (no opcode runs), and memory and globals are those
before the call.  When `c` declares no result, `ExecCode` returns with no value and no error.
When `c` declares a result, `execCode` reads `vm.ctx.stack[len(vm.ctx.stack)-1]` on the stack
that the set-up has emptied, which is the run-time panic `index out of range [-1]`: the panic
leaves `ExecCode`, or, with `RecoverPanic`, is returned as its error. -/
theorem cancelled_ExecCode (rt : Runtime) (vm : VMInterpreter) (fnIndex : Int)
    (args : List Nat) (f : Function) (c : compiledFunction) (fuel : Nat)
    (hab : vm.abort = true)
    (h0 : 0 ≤ fnIndex)
    (hc : vm.funcs.get? fnIndex.toNat = some (function.compiled c))
    (hf : rt.getFunction vm.module fnIndex = some f)
    (harity : f.Sig.ParamTypes.length = args.length)
    (hl1 : (args.length : Int) ≤ c.totalLocalVars) :
    execLoop rt (fuel + 1) (setupFrame c fnIndex args vm).1
      = ((setupFrame c fnIndex args vm).1, .ok (some ())) ∧
    (setupFrame c fnIndex args vm).1.Mem = vm.Mem ∧
    (setupFrame c fnIndex args vm).1.globals = vm.globals ∧
    (c.returns = false →
      ExecCode rt vm fnIndex args (fuel + 1)
        = ((setupFrame c fnIndex args vm).1, .ok (some (RetVal.nil, none)))) ∧
    (c.returns = true →
      ExecCode rt vm fnIndex args (fuel + 1)
        = ((setupFrame c fnIndex args vm).1,
            if vm.RecoverPanic = true
            then .ok (some (RetVal.nil, some (Err.other "index out of range [-1]")))
            else .error (Panic.runtimeError "index out of range [-1]"))) := by
  have hl0 : 0 ≤ c.totalLocalVars := by omega
  have hlen : ¬ (vm.funcs.length : Int) < fnIndex := by
    have := List.get?_eq_some.mp hc
    obtain ⟨h, _⟩ := this
    omega
  have hab1 : (setupFrame c fnIndex args vm).1.abort = true := by
    rw [setupFrame_abort]; exact hab
  have hloop := execLoop_abort rt (fuel + 1) _ hab1
  rw [if_neg (Nat.succ_ne_zero fuel)] at hloop
  have hstack : (setupFrame c fnIndex args vm).1.ctx.stack = [] := by
    rw [setupFrame_state c fnIndex args vm hl0]
  have hok := setupFrame_ok c fnIndex args vm hl0 hl1
  obtain ⟨hmem, hglob⟩ := setupFrame_keeps c fnIndex args vm
  refine ⟨hloop, hmem, hglob, ?_, ?_⟩
  · intro hr
    apply ExecCode_of_body
    unfold ExecCodeBody
    rw [if_neg hlen]
    simp only [Step_bind_apply, functionSig_eq rt vm fnIndex f hf, harity, ne_eq,
      not_true_eq_false, if_false, compiledAt_eq vm fnIndex c h0 hc]
    rw [hok]
    simp only [execCode, hloop, hr, Bool.false_eq_true, if_false, Step_pure_apply]
  · intro hr
    have hb : ExecCodeBody rt fnIndex args (fuel + 1) vm
        = ((setupFrame c fnIndex args vm).1,
            .error (Panic.runtimeError "index out of range [-1]")) := by
      unfold ExecCodeBody
      rw [if_neg hlen]
      simp only [Step_bind_apply, functionSig_eq rt vm fnIndex f hf, harity, ne_eq,
        not_true_eq_false, if_false, compiledAt_eq vm fnIndex c h0 hc]
      rw [hok]
      simp only [execCode, hloop, hr, if_true, stackTop, hstack, List.getLast?_nil]
    rw [ExecCode_of_body_panic rt vm _ fnIndex args (fuel + 1) _ hb]
    rfl

theorem cancelled_ExecCode_witness :
    execLoop demoRuntime (3 + 1) (setupFrame fct1 0 [] (Close demoRuntime exampleVM).1).1
      = ((setupFrame fct1 0 [] (Close demoRuntime exampleVM).1).1, .ok (some ())) ∧
    (setupFrame fct1 0 [] (Close demoRuntime exampleVM).1).1.Mem
      = (Close demoRuntime exampleVM).1.Mem ∧
    (setupFrame fct1 0 [] (Close demoRuntime exampleVM).1).1.globals
      = (Close demoRuntime exampleVM).1.globals ∧
    (fct1.returns = false →
      ExecCode demoRuntime (Close demoRuntime exampleVM).1 0 [] (3 + 1)
        = ((setupFrame fct1 0 [] (Close demoRuntime exampleVM).1).1,
            .ok (some (RetVal.nil, none)))) ∧
    (fct1.returns = true →
      ExecCode demoRuntime (Close demoRuntime exampleVM).1 0 [] (3 + 1)
        = ((setupFrame fct1 0 [] (Close demoRuntime exampleVM).1).1,
            if (Close demoRuntime exampleVM).1.RecoverPanic = true
            then .ok (some (RetVal.nil, some (Err.other "index out of range [-1]")))
            else .error (Panic.runtimeError "index out of range [-1]"))) :=
  cancelled_ExecCode demoRuntime (Close demoRuntime exampleVM).1 0 []
    { Sig := { ReturnTypes := [ValueType.I32] } } fct1 3 rfl (by decide) rfl rfl rfl
    (by decide)

/-! ## `Create` and the state store on failure -/

/-- C35 (as stated, refuted): in `collisionVM` the address that `Create` derives for the caller
0 is already in use.  `Create` returns `ErrContractAddressCollision`, and the nonce of the
caller, 0 before the call, is 1 after it. -/
theorem create_failure_changes_nonce :
    (VM.Create demoEnv collisionVM 0 wasmHeader 7 0).2.err
      = some Err.ErrContractAddressCollision ∧
    collisionVM.StateDB.GetNonce 0 = 0 ∧
    (VM.Create demoEnv collisionVM 0 wasmHeader 7 0).1.StateDB.GetNonce 0 = 1 := by
  refine ⟨?_, ?_, ?_⟩ <;> decide

/-- C35 (amended): whenever `Create` returns a non-nil error, either the error is that of the
module decoder or `ErrInsufficientBalance` and the embedder, with its state store, is the one
before the call; or the error is `ErrContractAddressCollision` or `ErrCodeSizeExceedLimit` and
the state store is the one before the call with the nonce of the caller incremented (modulo
`2 ^ 64`): balances, code, code hashes, storage and the nonces of all other accounts are
unchanged, and no account is created. -/
theorem create_failure_state (env : Env) (self : VM) (caller : Address) (code : List Byte)
    (gas : Nat) (value : Int)
    (h : (VM.Create env self caller code gas value).2.err ≠ none) :
    (((∃ e, (VM.Create env self caller code gas value).2.err = some (Err.other e)) ∨
        (VM.Create env self caller code gas value).2.err = some Err.ErrInsufficientBalance) ∧
      (VM.Create env self caller code gas value).1 = self) ∨
    (((VM.Create env self caller code gas value).2.err = some Err.ErrContractAddressCollision ∨
        (VM.Create env self caller code gas value).2.err = some Err.ErrCodeSizeExceedLimit) ∧
      (VM.Create env self caller code gas value).1
        = { self with StateDB := (self.StateDB.SetNonce caller
              ((self.StateDB.GetNonce caller + 1) % 18446744073709551616)) } ∧
      (VM.Create env self caller code gas value).1.StateDB.GetNonce caller
        = (self.StateDB.GetNonce caller + 1) % 18446744073709551616 ∧
      (∀ a : Address, a ≠ caller →
        (VM.Create env self caller code gas value).1.StateDB.GetNonce a
          = self.StateDB.GetNonce a) ∧
      (VM.Create env self caller code gas value).1.StateDB.balance = self.StateDB.balance ∧
      (VM.Create env self caller code gas value).1.StateDB.code = self.StateDB.code ∧
      (VM.Create env self caller code gas value).1.StateDB.codeHash = self.StateDB.codeHash ∧
      (VM.Create env self caller code gas value).1.StateDB.storage = self.StateDB.storage) := by
  have hn : (self.StateDB.SetNonce caller
      ((self.StateDB.GetNonce caller + 1) % 18446744073709551616)).GetNonce caller
      = (self.StateDB.GetNonce caller + 1) % 18446744073709551616 := by
    simp [Repository.SetNonce, Repository.GetNonce]
  have ho : ∀ a : Address, a ≠ caller →
      (self.StateDB.SetNonce caller
        ((self.StateDB.GetNonce caller + 1) % 18446744073709551616)).GetNonce a
      = self.StateDB.GetNonce a := by
    intro a ha
    simp [Repository.SetNonce, Repository.GetNonce, ha]
  unfold VM.Create at h ⊢
  cases hr : env.readModule code with
  | error e =>
    rw [hr] at h
    exact Or.inl ⟨Or.inl ⟨e, rfl⟩, rfl⟩
  | ok m =>
    rw [hr] at h
    dsimp only at h ⊢
    by_cases hct : (!CanTransfer self.StateDB caller value) = true
    · rw [if_pos hct]
      exact Or.inl ⟨Or.inr rfl, rfl⟩
    · rw [if_neg hct] at h ⊢
      split
      · exact Or.inr ⟨Or.inl rfl, rfl, hn, ho, rfl, rfl, rfl, rfl⟩
      · rename_i hcol
        rw [if_neg hcol] at h
        split
        · exact Or.inr ⟨Or.inr rfl, rfl, hn, ho, rfl, rfl, rfl, rfl⟩
        · rename_i hsize
          rw [if_neg hsize] at h
          exact absurd rfl h

theorem create_failure_state_witness :
    (((∃ e, (VM.Create demoEnv collisionVM 0 wasmHeader 7 0).2.err = some (Err.other e)) ∨
        (VM.Create demoEnv collisionVM 0 wasmHeader 7 0).2.err
          = some Err.ErrInsufficientBalance) ∧
      (VM.Create demoEnv collisionVM 0 wasmHeader 7 0).1 = collisionVM) ∨
    (((VM.Create demoEnv collisionVM 0 wasmHeader 7 0).2.err
          = some Err.ErrContractAddressCollision ∨
        (VM.Create demoEnv collisionVM 0 wasmHeader 7 0).2.err
          = some Err.ErrCodeSizeExceedLimit) ∧
      (VM.Create demoEnv collisionVM 0 wasmHeader 7 0).1
        = { collisionVM with StateDB := (collisionVM.StateDB.SetNonce 0
              ((collisionVM.StateDB.GetNonce 0 + 1) % 18446744073709551616)) } ∧
      (VM.Create demoEnv collisionVM 0 wasmHeader 7 0).1.StateDB.GetNonce 0
        = (collisionVM.StateDB.GetNonce 0 + 1) % 18446744073709551616 ∧
      (∀ a : Address, a ≠ 0 →
        (VM.Create demoEnv collisionVM 0 wasmHeader 7 0).1.StateDB.GetNonce a
          = collisionVM.StateDB.GetNonce a) ∧
      (VM.Create demoEnv collisionVM 0 wasmHeader 7 0).1.StateDB.balance
        = collisionVM.StateDB.balance ∧
      (VM.Create demoEnv collisionVM 0 wasmHeader 7 0).1.StateDB.code
        = collisionVM.StateDB.code ∧
      (VM.Create demoEnv collisionVM 0 wasmHeader 7 0).1.StateDB.codeHash
        = collisionVM.StateDB.codeHash ∧
      (VM.Create demoEnv collisionVM 0 wasmHeader 7 0).1.StateDB.storage
        = collisionVM.StateDB.storage) :=
  create_failure_state demoEnv collisionVM 0 wasmHeader 7 0 (by decide)

/-! ## The chain context -/

/-- C37: for every transaction with a price, every header and every author address,
`NewWasmChainContext` returns a context whose `Origin` is the sender of the transaction, whose
`GasPrice` is its price, whose `BlockNumber` is the header height and whose `Time` is the header
timestamp; its `Coinbase` is `HexToAddress` of the all-zero string whatever the author is (the
test `beneficiary == author` compares the variable with the value it was just given), so for
every author other than that address `Coinbase` differs from the author passed in. -/
theorem chain_context_fields (hexToAddress : String → Address) (sender : Address)
    (price : Int) (height timestamp : Nat) (chain : Option Repository) (author : Address) :
    NewWasmChainContext hexToAddress (some { Data := { From := sender, Price := some price } })
        (some { Height := height, Timestamp := timestamp }) chain author
      = .ok { Origin := sender
              GasPrice := price
              Coinbase := hexToAddress "0x0000000000000000000000000000000000000000"
              GasLimit := 9223372036854775807
              BlockNumber := (height : Int)
              Time := (timestamp : Int) } ∧
    (author ≠ hexToAddress "0x0000000000000000000000000000000000000000" →
      ∀ ctx : WasmChainContext,
        NewWasmChainContext hexToAddress
            (some { Data := { From := sender, Price := some price } })
            (some { Height := height, Timestamp := timestamp }) chain author = .ok ctx →
        ctx.Coinbase ≠ author) := by
  have e : NewWasmChainContext hexToAddress
        (some { Data := { From := sender, Price := some price } })
        (some { Height := height, Timestamp := timestamp }) chain author
      = .ok { Origin := sender
              GasPrice := price
              Coinbase := hexToAddress "0x0000000000000000000000000000000000000000"
              GasLimit := 9223372036854775807
              BlockNumber := (height : Int)
              Time := (timestamp : Int) } := by
    simp [NewWasmChainContext]
  refine ⟨e, ?_⟩
  intro hne ctx hctx
  rw [e] at hctx
  cases hctx
  exact fun h => hne h.symm

/-! ## `i32` operators and the upper half of a stack word -/

theorem pushBool_spare (rt : Runtime) (vm : VMInterpreter) (s sp : List Nat) (x : Nat)
    (v : Bool) :
    pushBool rt v (withStack vm s (x :: sp))
      = (withStack vm (s ++ [if v = true then 1 else 0]) sp, .ok ()) := by
  cases v <;> simp [pushBool, pushUint64_spare]

/-- C36: let two stacks hold the same words below their two top slots, and let the top slots
agree pairwise in their low 32 bits.  Every binary `i32` operator of `num.go` (add, mul, the
divisions and remainders, sub, and, or, xor, the shifts, the rotations, the comparisons) then
gives the same outcome on both: the same panic with both stacks left at the common words, or no
panic and the same word pushed on the common words.  The same holds for the unary operators
(clz, ctz, popcnt, eqz) on two stacks whose top slots agree in their low 32 bits. -/
theorem i32_low_bits_only (rt : Runtime) (vm : VMInterpreter) (s sp : List Nat)
    (a b a' b' : Nat)
    (ha : a % 4294967296 = a' % 4294967296)
    (hb : b % 4294967296 = b' % 4294967296) :
    (∀ op ∈ [i32Add rt, i32Mul rt, i32DivS rt, i32DivU rt, i32RemS rt, i32RemU rt, i32Sub rt,
              i32And rt, i32Or rt, i32Xor rt, i32Shl rt, i32ShrU rt, i32ShrS rt, i32Rotl rt,
              i32Rotr rt, i32LeS rt, i32LeU rt, i32LtS rt, i32LtU rt, i32GtS rt, i32GeS rt,
              i32GtU rt, i32GeU rt, i32Eq rt, i32Ne rt],
      (∃ p, (op (withStack vm (s ++ [a, b]) sp)).2 = .error p ∧
            (op (withStack vm (s ++ [a', b']) sp)).2 = .error p ∧
            (op (withStack vm (s ++ [a, b]) sp)).1.ctx.stack = s ∧
            (op (withStack vm (s ++ [a', b']) sp)).1.ctx.stack = s) ∨
      (∃ w, (op (withStack vm (s ++ [a, b]) sp)).2 = .ok () ∧
            (op (withStack vm (s ++ [a', b']) sp)).2 = .ok () ∧
            (op (withStack vm (s ++ [a, b]) sp)).1.ctx.stack = s ++ [w] ∧
            (op (withStack vm (s ++ [a', b']) sp)).1.ctx.stack = s ++ [w])) ∧
    (∀ op ∈ [i32Clz rt, i32Ctz rt, i32Popcnt rt, i32Eqz rt],
      ∃ w, (op (withStack vm (s ++ [a]) sp)).2 = .ok () ∧
           (op (withStack vm (s ++ [a']) sp)).2 = .ok () ∧
           (op (withStack vm (s ++ [a]) sp)).1.ctx.stack = s ++ [w] ∧
           (op (withStack vm (s ++ [a']) sp)).1.ctx.stack = s ++ [w]) := by
  constructor
  · intro op hop
    rw [two_words, two_words]
    simp only [List.mem_cons, List.mem_singleton, List.not_mem_nil, or_false] at hop
    rcases hop with rfl | rfl | rfl | rfl | rfl | rfl | rfl | rfl | rfl | rfl | rfl | rfl | rfl
      | rfl | rfl | rfl | rfl | rfl | rfl | rfl | rfl | rfl | rfl | rfl | rfl
    · simp only [i32Add, Step_bind_apply, popUint32_concat, popInt32_concat, pushUint32, pushInt32,
        pushUint64_spare, pushBool_spare, ha, hb]
      exact Or.inr ⟨_, trivial, trivial, rfl, rfl⟩
    · simp only [i32Mul, Step_bind_apply, popUint32_concat, popInt32_concat, pushUint32, pushInt32,
        pushUint64_spare, pushBool_spare, ha, hb]
      exact Or.inr ⟨_, trivial, trivial, rfl, rfl⟩
    · cases hd : divInt32 (toInt32 ((a' % 4294967296 : Nat) : Int)) (toInt32 ((b' % 4294967296 : Nat) : Int)) with
      | error p =>
        simp only [i32DivS, Step_bind_apply, popInt32_concat, Step.lift, ha, hb, hd]
        exact Or.inl ⟨p, rfl, rfl, rfl, rfl⟩
      | ok q =>
        simp only [i32DivS, Step_bind_apply, popInt32_concat, Step.lift, ha, hb, hd, pushInt32,
          pushUint64_spare]
        exact Or.inr ⟨_, trivial, trivial, rfl, rfl⟩
    · cases hd : divUint (a' % 4294967296) (b' % 4294967296) with
      | error p =>
        simp only [i32DivU, Step_bind_apply, popUint32_concat, Step.lift, ha, hb, hd]
        exact Or.inl ⟨p, rfl, rfl, rfl, rfl⟩
      | ok q =>
        simp only [i32DivU, Step_bind_apply, popUint32_concat, Step.lift, ha, hb, hd, pushUint32,
          pushUint64_spare]
        exact Or.inr ⟨_, trivial, trivial, rfl, rfl⟩
    · cases hd : remInt (toInt32 ((a' % 4294967296 : Nat) : Int)) (toInt32 ((b' % 4294967296 : Nat) : Int)) with
      | error p =>
        simp only [i32RemS, Step_bind_apply, popInt32_concat, Step.lift, ha, hb, hd]
        exact Or.inl ⟨p, rfl, rfl, rfl, rfl⟩
      | ok q =>
        simp only [i32RemS, Step_bind_apply, popInt32_concat, Step.lift, ha, hb, hd, pushInt32,
          pushUint64_spare]
        exact Or.inr ⟨_, trivial, trivial, rfl, rfl⟩
    · cases hd : remUint (a' % 4294967296) (b' % 4294967296) with
      | error p =>
        simp only [i32RemU, Step_bind_apply, popUint32_concat, Step.lift, ha, hb, hd]
        exact Or.inl ⟨p, rfl, rfl, rfl, rfl⟩
      | ok q =>
        simp only [i32RemU, Step_bind_apply, popUint32_concat, Step.lift, ha, hb, hd, pushUint32,
          pushUint64_spare]
        exact Or.inr ⟨_, trivial, trivial, rfl, rfl⟩
    · simp only [i32Sub, Step_bind_apply, popUint32_concat, popInt32_concat, pushUint32, pushInt32,
        pushUint64_spare, pushBool_spare, ha, hb]
      exact Or.inr ⟨_, trivial, trivial, rfl, rfl⟩
    · simp only [i32And, Step_bind_apply, popUint32_concat, popInt32_concat, pushUint32, pushInt32,
        pushUint64_spare, pushBool_spare, ha, hb]
      exact Or.inr ⟨_, trivial, trivial, rfl, rfl⟩
    · simp only [i32Or, Step_bind_apply, popUint32_concat, popInt32_concat, pushUint32, pushInt32,
        pushUint64_spare, pushBool_spare, ha, hb]
      exact Or.inr ⟨_, trivial, trivial, rfl, rfl⟩
    · simp only [i32Xor, Step_bind_apply, popUint32_concat, popInt32_concat, pushUint32, pushInt32,
        pushUint64_spare, pushBool_spare, ha, hb]
      exact Or.inr ⟨_, trivial, trivial, rfl, rfl⟩
    · simp only [i32Shl, Step_bind_apply, popUint32_concat, popInt32_concat, pushUint32, pushInt32,
        pushUint64_spare, pushBool_spare, ha, hb]
      exact Or.inr ⟨_, trivial, trivial, rfl, rfl⟩
    · simp only [i32ShrU, Step_bind_apply, popUint32_concat, popInt32_concat, pushUint32, pushInt32,
        pushUint64_spare, pushBool_spare, ha, hb]
      exact Or.inr ⟨_, trivial, trivial, rfl, rfl⟩
    · simp only [i32ShrS, Step_bind_apply, popUint32_concat, popInt32_concat, pushUint32, pushInt32,
        pushUint64_spare, pushBool_spare, ha, hb]
      exact Or.inr ⟨_, trivial, trivial, rfl, rfl⟩
    · simp only [i32Rotl, Step_bind_apply, popUint32_concat, popInt32_concat, pushUint32, pushInt32,
        pushUint64_spare, pushBool_spare, ha, hb]
      exact Or.inr ⟨_, trivial, trivial, rfl, rfl⟩
    · simp only [i32Rotr, Step_bind_apply, popUint32_concat, popInt32_concat, pushUint32, pushInt32,
        pushUint64_spare, pushBool_spare, ha, hb]
      exact Or.inr ⟨_, trivial, trivial, rfl, rfl⟩
    · simp only [i32LeS, Step_bind_apply, popUint32_concat, popInt32_concat, pushUint32, pushInt32,
        pushUint64_spare, pushBool_spare, ha, hb]
      exact Or.inr ⟨_, trivial, trivial, rfl, rfl⟩
    · simp only [i32LeU, Step_bind_apply, popUint32_concat, popInt32_concat, pushUint32, pushInt32,
        pushUint64_spare, pushBool_spare, ha, hb]
      exact Or.inr ⟨_, trivial, trivial, rfl, rfl⟩
    · simp only [i32LtS, Step_bind_apply, popUint32_concat, popInt32_concat, pushUint32, pushInt32,
        pushUint64_spare, pushBool_spare, ha, hb]
      exact Or.inr ⟨_, trivial, trivial, rfl, rfl⟩
    · simp only [i32LtU, Step_bind_apply, popUint32_concat, popInt32_concat, pushUint32, pushInt32,
        pushUint64_spare, pushBool_spare, ha, hb]
      exact Or.inr ⟨_, trivial, trivial, rfl, rfl⟩
    · simp only [i32GtS, Step_bind_apply, popUint32_concat, popInt32_concat, pushUint32, pushInt32,
        pushUint64_spare, pushBool_spare, ha, hb]
      exact Or.inr ⟨_, trivial, trivial, rfl, rfl⟩
    · simp only [i32GeS, Step_bind_apply, popUint32_concat, popInt32_concat, pushUint32, pushInt32,
        pushUint64_spare, pushBool_spare, ha, hb]
      exact Or.inr ⟨_, trivial, trivial, rfl, rfl⟩
    · simp only [i32GtU, Step_bind_apply, popUint32_concat, popInt32_concat, pushUint32, pushInt32,
        pushUint64_spare, pushBool_spare, ha, hb]
      exact Or.inr ⟨_, trivial, trivial, rfl, rfl⟩
    · simp only [i32GeU, Step_bind_apply, popUint32_concat, popInt32_concat, pushUint32, pushInt32,
        pushUint64_spare, pushBool_spare, ha, hb]
      exact Or.inr ⟨_, trivial, trivial, rfl, rfl⟩
    · simp only [i32Eq, Step_bind_apply, popUint32_concat, popInt32_concat, pushUint32, pushInt32,
        pushUint64_spare, pushBool_spare, ha, hb]
      exact Or.inr ⟨_, trivial, trivial, rfl, rfl⟩
    · simp only [i32Ne, Step_bind_apply, popUint32_concat, popInt32_concat, pushUint32, pushInt32,
        pushUint64_spare, pushBool_spare, ha, hb]
      exact Or.inr ⟨_, trivial, trivial, rfl, rfl⟩
  · intro op hop
    simp only [List.mem_cons, List.mem_singleton, List.not_mem_nil, or_false] at hop
    rcases hop with rfl | rfl | rfl | rfl
    · simp only [i32Clz, Step_bind_apply, popUint32_concat, pushUint64_spare, pushBool_spare, ha]
      exact ⟨_, trivial, trivial, rfl, rfl⟩
    · simp only [i32Ctz, Step_bind_apply, popUint32_concat, pushUint64_spare, pushBool_spare, ha]
      exact ⟨_, trivial, trivial, rfl, rfl⟩
    · simp only [i32Popcnt, Step_bind_apply, popUint32_concat, pushUint64_spare, pushBool_spare, ha]
      exact ⟨_, trivial, trivial, rfl, rfl⟩
    · simp only [i32Eqz, Step_bind_apply, popUint32_concat, pushUint64_spare, pushBool_spare, ha]
      exact ⟨_, trivial, trivial, rfl, rfl⟩

theorem i32_low_bits_only_witness :
    (∀ op ∈ [i32Add demoRuntime, i32Mul demoRuntime, i32DivS demoRuntime, i32DivU demoRuntime,
              i32RemS demoRuntime, i32RemU demoRuntime, i32Sub demoRuntime, i32And demoRuntime,
              i32Or demoRuntime, i32Xor demoRuntime, i32Shl demoRuntime, i32ShrU demoRuntime,
              i32ShrS demoRuntime, i32Rotl demoRuntime, i32Rotr demoRuntime, i32LeS demoRuntime,
              i32LeU demoRuntime, i32LtS demoRuntime, i32LtU demoRuntime, i32GtS demoRuntime,
              i32GeS demoRuntime, i32GtU demoRuntime, i32GeU demoRuntime, i32Eq demoRuntime,
              i32Ne demoRuntime],
      (∃ p, (op (withStack demoVM ([7] ++ [4294967301, 3]) [])).2 = .error p ∧
            (op (withStack demoVM ([7] ++ [21474836485, 8589934595]) [])).2 = .error p ∧
            (op (withStack demoVM ([7] ++ [4294967301, 3]) [])).1.ctx.stack = [7] ∧
            (op (withStack demoVM ([7] ++ [21474836485, 8589934595]) [])).1.ctx.stack = [7]) ∨
      (∃ w, (op (withStack demoVM ([7] ++ [4294967301, 3]) [])).2 = .ok () ∧
            (op (withStack demoVM ([7] ++ [21474836485, 8589934595]) [])).2 = .ok () ∧
            (op (withStack demoVM ([7] ++ [4294967301, 3]) [])).1.ctx.stack = [7] ++ [w] ∧
            (op (withStack demoVM ([7] ++ [21474836485, 8589934595]) [])).1.ctx.stack
              = [7] ++ [w])) ∧
    (∀ op ∈ [i32Clz demoRuntime, i32Ctz demoRuntime, i32Popcnt demoRuntime, i32Eqz demoRuntime],
      ∃ w, (op (withStack demoVM ([7] ++ [4294967301]) [])).2 = .ok () ∧
           (op (withStack demoVM ([7] ++ [21474836485]) [])).2 = .ok () ∧
           (op (withStack demoVM ([7] ++ [4294967301]) [])).1.ctx.stack = [7] ++ [w] ∧
           (op (withStack demoVM ([7] ++ [21474836485]) [])).1.ctx.stack = [7] ++ [w]) :=
  i32_low_bits_only demoRuntime demoVM [7] [] 4294967301 3 21474836485 8589934595
    (by decide) (by decide)

end Exec
